import Mathlib

/-!
# PortfolioCheck: the portfolio renderer of `script.js`

A shallow embedding of the class `PortfolioRenderer` and the properties its
specification states about it.

* JavaScript values are the inductive type `JSValue`; a parsed JSON document is
  such a value. A string is the list of its UTF-16 code units, which is what
  `charAt`, `slice`, `split`, `includes` and `startsWith` index.
* A method that can raise returns `Except JSError`; a method that writes to the
  page returns `Eff`, which records the writes made up to the point where the
  method returned or raised. The page holds every element the script looks up,
  so `getElementById` never returns null.
* Built-ins whose result is not determined by the structure of the value (case
  folding, the clock, date formatting, reading a string as a number) are fields
  of `Host`, and every general theorem holds for every host.
-/

namespace PortfolioCheck

/-! ## Values -/

/-- A UTF-16 code unit: a natural number below 65536. -/
abbrev CodeUnit := Nat

/-- A JavaScript string, as the list of its UTF-16 code units. -/
abbrev JSString := List CodeUnit

/-- The code units of a character: itself when it lies in the basic plane,
otherwise its high and low surrogates. -/
def encodeUtf16 (c : Char) : List CodeUnit :=
  if c.toNat < 65536 then [c.toNat]
  else [55296 + (c.toNat - 65536) / 1024, 56320 + (c.toNat - 65536) % 1024]

end PortfolioCheck

/-- The JavaScript string with the characters of `s`. -/
def String.utf16 (s : String) : PortfolioCheck.JSString :=
  (s.toList.map PortfolioCheck.encodeUtf16).flatten

namespace PortfolioCheck

/-- The lower-case form of an ASCII code unit. -/
def asciiLower (u : CodeUnit) : CodeUnit := if 65 ≤ u ∧ u ≤ 90 then u + 32 else u

/-- The upper-case form of an ASCII code unit. -/
def asciiUpper (u : CodeUnit) : CodeUnit := if 97 ≤ u ∧ u ≤ 122 then u - 32 else u

/-- A whitespace code unit of the language: tab, line feed, vertical tab, form
feed, carriage return, space, no-break space, the other space separators, the line
and paragraph separators and the byte order mark. -/
def isWhitespaceUnit (u : CodeUnit) : Bool :=
  decide (u ∈ [9, 10, 11, 12, 13, 32, 160, 5760, 8232, 8233, 8239, 8287, 12288, 65279])
    || (decide (8192 ≤ u) && decide (u ≤ 8202))

/-- A JavaScript number, by what the program observes of it: its sign (negative,
zero or positive integer for a negative, zero or positive number) and the text
`ToString` gives for it. -/
structure JSNumber where
  sign : Int
  text : JSString
deriving DecidableEq

/-- The number that is the length of an array or string. -/
def JSNumber.ofNat (n : Nat) : JSNumber := ⟨n, (Nat.repr n).utf16⟩

/-- JavaScript values that occur in the program: `undefined` and the JSON values.
An object is the list of its own properties; `JSON.parse` yields distinct keys. -/
inductive JSValue where
  | undefined
  | null
  | bool (b : Bool)
  | num (n : JSNumber)
  | str (s : JSString)
  | arr (xs : List JSValue)
  | obj (kvs : List (String × JSValue))

/-- Errors a run can raise. -/
inductive JSError where
  | typeError
  | error (msg : JSString)
  | fetchRejected
  | syntaxError
deriving DecidableEq

instance instDecidableEqExcept {ε α : Type} [DecidableEq ε] [DecidableEq α] :
    DecidableEq (Except ε α)
  | .ok a, .ok b =>
    if h : a = b then isTrue (by rw [h]) else isFalse (fun e => h (Except.ok.inj e))
  | .error a, .error b =>
    if h : a = b then isTrue (by rw [h]) else isFalse (fun e => h (Except.error.inj e))
  | .ok _, .error _ => isFalse (fun e => Except.noConfusion e)
  | .error _, .ok _ => isFalse (fun e => Except.noConfusion e)

/-- Built-ins of the platform the program calls. -/
structure Host where
  /-- The method `String.prototype.toLowerCase`. -/
  toLowerCase : JSString → JSString
  /-- The method `String.prototype.toUpperCase`. -/
  toUpperCase : JSString → JSString
  /-- Whether `s > 0` holds for a string `s` (the string read as a number). -/
  stringGtZero : JSString → Bool
  /-- The value of `new Date().getFullYear()`. -/
  currentYear : JSNumber
  /-- The value of `new Date().toLocaleDateString()`. -/
  today : JSString
  /-- The value of `new Date(v).toLocaleDateString()` when `v` converts to a primitive. -/
  toLocaleDateString : JSValue → JSString

/-- On strings of ASCII characters the case conversions of the platform are the
ASCII ones. -/
def Host.AsciiFaithful (h : Host) : Prop :=
  ∀ s : JSString, (∀ u ∈ s, u < 128) →
    h.toLowerCase s = s.map asciiLower ∧ h.toUpperCase s = s.map asciiUpper

/-- A host to evaluate the program on: ASCII case folding, a clock and a date
format that always give the first of January 2025, and `s > 0` decided for
strings of decimal digits only. -/
def sampleHost : Host where
  toLowerCase := fun s => s.map asciiLower
  toUpperCase := fun s => s.map asciiUpper
  stringGtZero := fun s => s.all (fun u => decide (48 ≤ u) && decide (u ≤ 57))
    && s.any (fun u => u != 48)
  currentYear := ⟨1, "2025".utf16⟩
  today := "1/1/2025".utf16
  toLocaleDateString := fun _ => "1/1/2025".utf16

/-- Truthiness (`ToBoolean`). -/
def truthy : JSValue → Bool
  | .undefined => false
  | .null => false
  | .bool b => b
  | .num n => n.sign != 0
  | .str s => !s.isEmpty
  | .arr _ => true
  | .obj _ => true

/-- The operator `a || b`. -/
def orElse (a b : JSValue) : JSValue := if truthy a then a else b

/-- Whether an object has an own property `k`. -/
def hasKey (k : String) : List (String × JSValue) → Bool
  | [] => false
  | (k2, _) :: rest => k2 == k || hasKey k rest

mutual
/-- The conversion `ToString`, as applied by template literals and by `textContent`. An object
with an own `toString` property (which `JSON.parse` never makes callable) has no
primitive value. -/
def toStr : JSValue → Except JSError JSString
  | .undefined => .ok "undefined".utf16
  | .null => .ok "null".utf16
  | .bool true => .ok "true".utf16
  | .bool false => .ok "false".utf16
  | .num n => .ok n.text
  | .str s => .ok s
  | .arr xs => (elemStrs xs).map (fun ss => ",".utf16.intercalate ss)
  | .obj kvs =>
    if hasKey "toString" kvs then .error .typeError else .ok "[object Object]".utf16
termination_by structural v => v
/-- The strings `Array.prototype.join` puts between the separators. -/
def elemStrs : List JSValue → Except JSError (List JSString)
  | [] => .ok []
  | x :: rest =>
    match (match x with
      | .undefined => Except.ok []
      | .null => Except.ok []
      | v => toStr v), elemStrs rest with
    | .ok a, .ok b => .ok (a :: b)
    | .error e, _ => .error e
    | _, .error e => .error e
termination_by structural xs => xs
end

/-- Property read `v.k` for the property names this program reads. -/
def getProp (v : JSValue) (k : String) : Except JSError JSValue :=
  match v with
  | .undefined => .error .typeError
  | .null => .error .typeError
  | .obj kvs => .ok ((kvs.lookup k).getD .undefined)
  | .arr xs => .ok (if k = "length" then .num (JSNumber.ofNat xs.length) else .undefined)
  | .str s => .ok (if k = "length" then .num (JSNumber.ofNat s.length) else .undefined)
  | _ => .ok .undefined

/-- Element read `v[0]`. -/
def getIndex0 (v : JSValue) : Except JSError JSValue :=
  match v with
  | .undefined => .error .typeError
  | .null => .error .typeError
  | .obj kvs => .ok ((kvs.lookup "0").getD .undefined)
  | .arr xs => .ok (xs.head?.getD .undefined)
  | .str s => .ok (match s with
    | [] => .undefined
    | c :: _ => .str [c])
  | _ => .ok .undefined

/-- The comparison `v > 0`. -/
def gtZero (h : Host) (v : JSValue) : Except JSError Bool :=
  match v with
  | .undefined => .ok false
  | .null => .ok false
  | .bool b => .ok b
  | .num n => .ok (decide (0 < n.sign))
  | .str s => .ok (h.stringGtZero s)
  | v => (toStr v).map h.stringGtZero

/-- The comparison `v === 0`. -/
def strictEqZero : JSValue → Bool
  | .num n => n.sign == 0
  | _ => false

/-- The method `String.prototype.includes`. -/
def includes (s kw : JSString) : Bool := s.tails.any (fun t => kw.isPrefixOf t)

/-- The method `String.prototype.startsWith`. -/
def startsWith (s p : JSString) : Bool := p.isPrefixOf s

/-- The pieces of a string between the characters that satisfy `isSep`; an
empty piece stands between two adjacent separators and at either end. -/
def splitWhere (isSep : CodeUnit → Bool) : JSString → List JSString
  | [] => [[]]
  | c :: cs =>
    if isSep c then [] :: splitWhere isSep cs
    else match splitWhere isSep cs with
      | [] => [[c]]
      | w :: ws => (c :: w) :: ws

/-- The method `String.prototype.split` with the one-character separator `sep`. -/
def split (sep : CodeUnit) (s : JSString) : List JSString := splitWhere (fun c => c == sep) s

/-! ## Effects -/

/-- A write to the page or to the console. -/
inductive DomEvent where
  | setText (id : String) (text : JSString)
  | setHTML (id : String) (html : JSString)
  | setDisplay (id : String) (value : String)
  | consoleError (label : String) (err : JSError)
deriving DecidableEq

/-- A run of a method: the writes it made, in order, and how it ended. -/
structure Eff (α : Type) where
  events : List DomEvent
  result : Except JSError α

/-- A run that writes nothing and returns `a`. -/
def Eff.ret {α : Type} (a : α) : Eff α := ⟨[], .ok a⟩

/-- Sequencing: the second run happens only when the first returned. -/
def Eff.andThen {α β : Type} (x : Eff α) (f : α → Eff β) : Eff β :=
  match x.result with
  | .ok a => ⟨x.events ++ (f a).events, (f a).result⟩
  | .error e => ⟨x.events, .error e⟩

instance : Monad Eff where
  pure := Eff.ret
  bind := Eff.andThen

/-- A single write. -/
def emit (e : DomEvent) : Eff Unit := ⟨[e], .ok ()⟩

/-- A computation that writes nothing. -/
def liftE {α : Type} (x : Except JSError α) : Eff α := ⟨[], x⟩

/-- The statement `try x catch (error) handler`. -/
def tryCatch {α : Type} (x : Eff α) (handler : JSError → Eff α) : Eff α :=
  match x.result with
  | .ok a => ⟨x.events, .ok a⟩
  | .error e => ⟨x.events ++ (handler e).events, (handler e).result⟩

/-- Assignment to `element.textContent`: `null` and `undefined` clear the text,
any other value is converted to a string. -/
def setTextContent (id : String) (v : JSValue) : Eff Unit :=
  match v with
  | .undefined => emit (.setText id [])
  | .null => emit (.setText id [])
  | v => do
    let s ← liftE (toStr v)
    emit (.setText id s)

/-- The method `Array.prototype.map` with a callback that can raise, on a list. -/
def mapExcept {α β : Type} (f : α → Except JSError β) : List α → Except JSError (List β)
  | [] => .ok []
  | x :: rest =>
    match f x with
    | .error e => .error e
    | .ok y =>
      match mapExcept f rest with
      | .error e => .error e
      | .ok ys => .ok (y :: ys)

/-- The expression `v.map(f).join('')` for a callback that returns strings: `map`
is a function only when `v` is an array. -/
def mapJoin (v : JSValue) (f : JSValue → Except JSError JSString) : Except JSError JSString :=
  match v with
  | .arr xs => (mapExcept f xs).map List.flatten
  | _ => .error .typeError

/-! ## The program -/

/-- The constant `programmingKeywords` of `categorizeSkills`. -/
def programmingKeywords : List JSString :=
  ["python", "javascript", "java", "c++", "c#", "php", "ruby", "go", "rust", "swift",
    "kotlin", "typescript"].map String.utf16

/-- The constant `frameworkKeywords` of `categorizeSkills`. -/
def frameworkKeywords : List JSString :=
  ["react", "vue", "angular", "node", "express", "django", "flask", "spring", "laravel",
    "rails", "next", "nuxt"].map String.utf16

/-- The object `categories`: its keys in insertion order, each with its array. -/
abbrev Categories := List (String × List JSValue)

/-- The initial value of `categories`. -/
def initialCategories : Categories :=
  [("Programming Languages", []), ("Frameworks & Libraries", []),
    ("Tools & Technologies", []), ("Other Skills", [])]

/-- The statement `categories[category].push(skill)`. -/
def pushTo (category : String) (skill : JSValue) (categories : Categories) : Categories :=
  categories.map (fun kv => if kv.1 == category then (kv.1, kv.2 ++ [skill]) else kv)

/-- The callback of `skills.forEach` in `categorizeSkills`: `toLowerCase` is a
function only when the skill is a string. -/
def categorizeStep (h : Host) (categories : Categories) (skill : JSValue) :
    Except JSError Categories :=
  match skill with
  | .str s =>
    let skillLower := h.toLowerCase s
    if programmingKeywords.any (fun keyword => includes skillLower keyword) then
      .ok (pushTo "Programming Languages" skill categories)
    else if frameworkKeywords.any (fun keyword => includes skillLower keyword) then
      .ok (pushTo "Frameworks & Libraries" skill categories)
    else if includes skillLower "git".utf16 || includes skillLower "docker".utf16
        || includes skillLower "aws".utf16 || includes skillLower "sql".utf16
        || includes skillLower "mongodb".utf16 then
      .ok (pushTo "Tools & Technologies" skill categories)
    else
      .ok (pushTo "Other Skills" skill categories)
  | _ => .error .typeError

/-- The loop `skills.forEach(...)` over the elements of an array. -/
def categorizeLoop (h : Host) : Categories → List JSValue → Except JSError Categories
  | categories, [] => .ok categories
  | categories, skill :: rest =>
    match categorizeStep h categories skill with
    | .error e => .error e
    | .ok categories2 => categorizeLoop h categories2 rest

/-- The method `categorizeSkills`: `forEach` is a function only when `skills` is
an array; the empty categories are deleted at the end. -/
def categorizeSkills (h : Host) (skills : JSValue) : Except JSError Categories :=
  match skills with
  | .arr xs =>
    match categorizeLoop h initialCategories xs with
    | .error e => .error e
    | .ok categories => .ok (categories.filter (fun kv => !kv.2.isEmpty))
  | _ => .error .typeError

/-- The method `getInitials`: `split` is a function only when `name` is a string. -/
def getInitials (h : Host) (name : JSValue) : Except JSError JSString :=
  match name with
  | .str s =>
    .ok ((h.toUpperCase ((split 32 s).map (fun word => word.take 1)).flatten).take 2)
  | _ => .error .typeError

/-- The method `formatDescription`. -/
def formatDescription (description : JSValue) : Except JSError JSValue :=
  match description with
  | .str s => .ok (.str s)
  | .arr items =>
    match mapExcept (fun item => (toStr item).map
        (fun s => "<li>".utf16 ++ s ++ "</li>".utf16)) items with
    | .error e => .error e
    | .ok lis => .ok (.str ("<ul>".utf16 ++ lis.flatten ++ "</ul>".utf16))
  | v => .ok v

/-- An element of the array `contactItems`. -/
structure ContactItem where
  icon : JSString
  text : JSValue
  link : Option JSString

/-- The link of the linkedin and github items: `startsWith` is a function only
when the value is a string. -/
def profileLink (v : JSValue) : Except JSError JSString :=
  match v with
  | .str s => .ok (if startsWith s "http".utf16 then s else "https://".utf16 ++ s)
  | _ => .error .typeError

/-- The array `contactItems` that `renderContactInfo` builds. -/
def contactItems (personalInfo : JSValue) : Except JSError (List ContactItem) := do
  let email ← getProp personalInfo "email"
  let items1 ← (if truthy email then
      (toStr email).map (fun s => [ContactItem.mk "fas fa-envelope".utf16 email
        (some ("mailto:".utf16 ++ s))])
    else pure [])
  let phone ← getProp personalInfo "phone"
  let items2 ← (if truthy phone then
      (toStr phone).map (fun s => items1 ++ [ContactItem.mk "fas fa-phone".utf16 phone
        (some ("tel:".utf16 ++ s))])
    else pure items1)
  let linkedin ← getProp personalInfo "linkedin"
  let items3 ← (if truthy linkedin then
      (profileLink linkedin).map (fun l => items2 ++ [ContactItem.mk "fab fa-linkedin".utf16
        (.str "LinkedIn".utf16) (some l)])
    else pure items2)
  let github ← getProp personalInfo "github"
  let items4 ← (if truthy github then
      (profileLink github).map (fun l => items3 ++ [ContactItem.mk "fab fa-github".utf16
        (.str "GitHub".utf16) (some l)])
    else pure items3)
  let location ← getProp personalInfo "location"
  pure (if truthy location then
      items4 ++ [ContactItem.mk "fas fa-map-marker-alt".utf16 location none]
    else items4)

/-- The template of one contact item. -/
def contactItemHtml (item : ContactItem) : Except JSError JSString := do
  let inner ← (match item.link with
    | some l =>
      if l.isEmpty then (toStr item.text).map (fun t => "<span>".utf16 ++ t ++ "</span>".utf16)
      else (toStr item.text).map (fun t => "<a href=\"".utf16 ++ l
        ++ "\" target=\"_blank\" rel=\"noopener\">".utf16 ++ t ++ "</a>".utf16)
    | none => (toStr item.text).map (fun t => "<span>".utf16 ++ t ++ "</span>".utf16))
  pure ("\n            <div class=\"contact-item\">\n                <i class=\"".utf16
    ++ item.icon ++ "\"></i>\n                ".utf16 ++ inner
    ++ "\n            </div>\n        ".utf16)

/-- The method `renderContactInfo`. -/
def renderContactInfo (personalInfo : JSValue) : Eff Unit := do
  let items ← liftE (contactItems personalInfo)
  let html ← liftE (mapExcept contactItemHtml items)
  emit (.setHTML "contact-info" html.flatten)

/-- The method `extractJobTitle`. -/
def extractJobTitle (h : Host) (data : JSValue) : Except JSError JSValue := do
  let experience := orElse (← getProp data "experience") (.arr [])
  if ← gtZero h (← getProp experience "length") then
    let first ← getIndex0 experience
    let title ← getProp first "title"
    pure (orElse title (.str []))
  else pure .null

/-- The method `renderHeader`. -/
def renderHeader (h : Host) (data : JSValue) : Eff Unit := do
  let personalInfo := orElse (← liftE (getProp data "personal_info")) (.obj [])
  let name ← liftE (getProp personalInfo "name")
  let pageTitle ← liftE (toStr (orElse name (.str "Portfolio".utf16)))
  emit (.setText "page-title" (pageTitle ++ " - Professional Portfolio".utf16))
  setTextContent "name" (orElse name (.str "Your Name".utf16))
  let title := orElse (← liftE (extractJobTitle h data)) (.str "Professional".utf16)
  setTextContent "title" title
  let image ← liftE (getProp personalInfo "image")
  if truthy image then
    let src ← liftE (toStr image)
    let alt ← liftE (toStr name)
    emit (.setHTML "profile-img" ("<img src=\"".utf16 ++ src ++ "\" alt=\"".utf16 ++ alt
      ++ "\" style=\"width: 100%; height: 100%; object-fit: cover; border-radius: 50%;\">".utf16))
  else
    let initials ← liftE (getInitials h (orElse name (.str "Your Name".utf16)))
    emit (.setHTML "profile-img" ("<span style=\"font-size: 3rem; font-weight: 600;\">".utf16
      ++ initials ++ "</span>".utf16))
  renderContactInfo personalInfo

/-- The method `renderSummary`. -/
def renderSummary (data : JSValue) : Eff Unit := do
  let summary := orElse (← liftE (getProp data "summary")) (.str "No summary available.".utf16)
  setTextContent "summary" summary

/-- The placeholder paragraph of a section, around its message. -/
def placeholder (message : String) : JSString :=
  "<p style=\"text-align: center; color: #666; padding: 40px;\">".utf16 ++ message.utf16
    ++ "</p>".utf16

/-- The template of one experience entry. -/
def experienceItemHtml (exp : JSValue) : Except JSError JSString := do
  let title ← toStr (orElse (← getProp exp "title") (.str "Position Title".utf16))
  let company ← toStr (orElse (← getProp exp "company") (.str "Company Name".utf16))
  let dates ← getProp exp "dates"
  let datesHtml ← (if truthy dates then
      (toStr dates).map (fun d => "<span class=\"item-dates\">".utf16 ++ d ++ "</span>".utf16)
    else pure [])
  let description ← getProp exp "description"
  let descriptionHtml ← (if truthy description then
      (formatDescription description).bind toStr
    else pure [])
  pure ("\n            <div class=\"experience-item\">\n                <div class=\"item-header\">\n                    <div>\n                        <h3 class=\"item-title\">".utf16
    ++ title ++ "</h3>\n                        <p class=\"item-company\">".utf16
    ++ company ++ "</p>\n                    </div>\n                    ".utf16
    ++ datesHtml ++ "\n                </div>\n                <div class=\"item-description\">\n                    ".utf16
    ++ descriptionHtml ++ "\n                </div>\n            </div>\n        ".utf16)

/-- The method `renderExperience`. -/
def renderExperience (data : JSValue) : Eff Unit := do
  let experience := orElse (← liftE (getProp data "experience")) (.arr [])
  if strictEqZero (← liftE (getProp experience "length")) then
    emit (.setHTML "experience-list" (placeholder "No experience information available."))
  else
    let html ← liftE (mapJoin experience experienceItemHtml)
    emit (.setHTML "experience-list" html)

/-- The template of one education entry. -/
def educationItemHtml (edu : JSValue) : Except JSError JSString := do
  let degree ← toStr (orElse (← getProp edu "degree") (.str "Degree".utf16))
  let institution ← toStr (orElse (← getProp edu "institution") (.str "Institution".utf16))
  let year ← getProp edu "year"
  let yearHtml ← (if truthy year then
      (toStr year).map (fun y => "<span class=\"item-dates\">".utf16 ++ y ++ "</span>".utf16)
    else pure [])
  let gpa ← getProp edu "gpa"
  let gpaHtml ← (if truthy gpa then
      (toStr gpa).map (fun g => "<div class=\"item-description\"><strong>GPA:</strong> ".utf16
        ++ g ++ "</div>".utf16)
    else pure [])
  pure ("\n            <div class=\"education-item\">\n                <div class=\"item-header\">\n                    <div>\n                        <h3 class=\"item-title\">".utf16
    ++ degree ++ "</h3>\n                        <p class=\"item-institution\">".utf16
    ++ institution ++ "</p>\n                    </div>\n                    ".utf16
    ++ yearHtml ++ "\n                </div>\n                ".utf16
    ++ gpaHtml ++ "\n            </div>\n        ".utf16)

/-- The method `renderEducation`. -/
def renderEducation (data : JSValue) : Eff Unit := do
  let education := orElse (← liftE (getProp data "education")) (.arr [])
  if strictEqZero (← liftE (getProp education "length")) then
    emit (.setHTML "education-list" (placeholder "No education information available."))
  else
    let html ← liftE (mapJoin education educationItemHtml)
    emit (.setHTML "education-list" html)

/-- The template of one skill category: the callback of
`Object.entries(skillCategories).map`. -/
def skillCategoryHtml (entry : String × List JSValue) : Except JSError JSString := do
  let tags ← mapExcept (fun skill => (toStr skill).map
    (fun s => "<span class=\"skill-tag\">".utf16 ++ s ++ "</span>".utf16)) entry.2
  pure ("\n            <div class=\"skill-category\">\n                <h3>".utf16
    ++ entry.1.utf16 ++ "</h3>\n                <div class=\"skill-tags\">\n                    ".utf16
    ++ tags.flatten ++ "\n                </div>\n            </div>\n        ".utf16)

/-- The method `renderSkills`. -/
def renderSkills (h : Host) (data : JSValue) : Eff Unit := do
  let skills := orElse (← liftE (getProp data "skills")) (.arr [])
  if strictEqZero (← liftE (getProp skills "length")) then
    emit (.setHTML "skills-grid" (placeholder "No skills information available."))
  else
    let skillCategories ← liftE (categorizeSkills h skills)
    let html ← liftE (mapExcept skillCategoryHtml skillCategories)
    emit (.setHTML "skills-grid" html.flatten)

/-- The template of one project. -/
def projectItemHtml (project : JSValue) : Except JSError JSString := do
  let name ← toStr (orElse (← getProp project "name") (.str "Project Name".utf16))
  let description ← getProp project "description"
  let descriptionHtml ← (if truthy description then
      (formatDescription description).bind toStr
    else pure "No description available.".utf16)
  let technologies ← getProp project "technologies"
  let technologiesHtml ← (if truthy technologies then
      (toStr technologies).map (fun t =>
        "<div style=\"margin-top: 15px;\"><strong>Technologies:</strong> ".utf16 ++ t
          ++ "</div>".utf16)
    else pure [])
  pure ("\n            <div class=\"project-item\">\n                <div class=\"item-header\">\n                    <h3 class=\"item-title\">".utf16
    ++ name ++ "</h3>\n                </div>\n                <div class=\"item-description\">\n                    ".utf16
    ++ descriptionHtml ++ "\n                </div>\n                ".utf16
    ++ technologiesHtml ++ "\n            </div>\n        ".utf16)

/-- The method `renderProjects`. -/
def renderProjects (data : JSValue) : Eff Unit := do
  let projects := orElse (← liftE (getProp data "projects")) (.arr [])
  if strictEqZero (← liftE (getProp projects "length")) then
    emit (.setHTML "projects-grid" (placeholder "No projects information available."))
  else
    let html ← liftE (mapJoin projects projectItemHtml)
    emit (.setHTML "projects-grid" html)

/-- The template of one certification. -/
def certificationItemHtml (cert : JSValue) : Except JSError JSString :=
  (toStr cert).map (fun c =>
    "\n            <div class=\"certification-item\">\n                <i class=\"fas fa-certificate\"></i>\n                <p>".utf16
      ++ c ++ "</p>\n            </div>\n        ".utf16)

/-- The method `renderCertifications`. -/
def renderCertifications (data : JSValue) : Eff Unit := do
  let certifications := orElse (← liftE (getProp data "certifications")) (.arr [])
  if strictEqZero (← liftE (getProp certifications "length")) then
    emit (.setHTML "certifications-list" (placeholder "No certifications available."))
  else
    let html ← liftE (mapJoin certifications certificationItemHtml)
    emit (.setHTML "certifications-list" html)

/-- The template of one language. -/
def languageItemHtml (lang : JSValue) : Except JSError JSString :=
  (toStr lang).map (fun l =>
    "\n            <div class=\"language-item\">\n                <i class=\"fas fa-language\"></i>\n                <span>".utf16
      ++ l ++ "</span>\n            </div>\n        ".utf16)

/-- The method `renderLanguages`. -/
def renderLanguages (data : JSValue) : Eff Unit := do
  let languages := orElse (← liftE (getProp data "languages")) (.arr [])
  if strictEqZero (← liftE (getProp languages "length")) then
    emit (.setHTML "languages-list" (placeholder "No languages information available."))
  else
    let html ← liftE (mapJoin languages languageItemHtml)
    emit (.setHTML "languages-list" html)

/-- The method `renderFooter`: `new Date(v)` first converts `v` to a primitive. -/
def renderFooter (h : Host) (data : JSValue) : Eff Unit := do
  let personalInfo := orElse (← liftE (getProp data "personal_info")) (.obj [])
  setTextContent "current-year" (.num h.currentYear)
  let name ← liftE (getProp personalInfo "name")
  setTextContent "footer-name" (orElse name (.str "Your Name".utf16))
  let last ← liftE (getProp data "last_updated")
  let lastUpdated ← (if truthy last then
      liftE ((toStr last).map (fun _ => h.toLocaleDateString last))
    else pure h.today)
  emit (.setText "last-updated" lastUpdated)

/-- The method `renderPortfolio`, on the value of `this.data`. -/
def renderPortfolio (h : Host) (data : JSValue) : Eff Unit :=
  if !truthy data then liftE (.error (.error "No resume data available".utf16))
  else do
    renderHeader h data
    renderSummary data
    renderExperience data
    renderEducation data
    renderSkills h data
    renderProjects data
    renderCertifications data
    renderLanguages data
    renderFooter h data

/-- The method `hideLoading`. -/
def hideLoading : Eff Unit := do
  emit (.setDisplay "loading" "none")
  emit (.setDisplay "portfolio-content" "block")

/-- The method `showError`. -/
def showError : Eff Unit := do
  emit (.setDisplay "loading" "none")
  emit (.setDisplay "error" "block")

/-- How `fetch('./data/resume.json')` and `response.json()` turn out: the fetch
is rejected, or it resolves with a response whose body parses to a value or does
not parse. -/
inductive FetchOutcome where
  | rejected
  | response (ok : Bool) (status : Nat) (body : Option JSValue)

/-- The method `loadResumeData`; it returns the value it stores in `this.data`. -/
def loadResumeData (fetch : FetchOutcome) : Eff JSValue :=
  tryCatch
    (match fetch with
      | .rejected => liftE (.error .fetchRejected)
      | .response ok status body =>
        if !ok then
          liftE (.error (.error ("HTTP error! status: ".utf16 ++ (Nat.repr status).utf16)))
        else match body with
          | none => liftE (.error .syntaxError)
          | some data => pure data)
    (fun error => do
      emit (.consoleError "Failed to load resume data:" error)
      liftE (.error error))

/-- The method `init`. -/
def init (h : Host) (fetch : FetchOutcome) : Eff Unit :=
  tryCatch
    (do
      let data ← loadResumeData fetch
      renderPortfolio h data
      hideLoading)
    (fun error => do
      emit (.consoleError "Error loading portfolio:" error)
      showError)

/-! ## Definitions used to state the properties -/

/-- The four categories of the classifier. -/
inductive Category where
  | programming
  | frameworks
  | tools
  | other
deriving DecidableEq

/-- The key of a category in the object `categories`. -/
def Category.name : Category → String
  | .programming => "Programming Languages"
  | .frameworks => "Frameworks & Libraries"
  | .tools => "Tools & Technologies"
  | .other => "Other Skills"

/-- The keywords of the third rule of the classifier: git, docker, aws, sql, mongodb. -/
def toolKeywords : List JSString :=
  ["git", "docker", "aws", "sql", "mongodb"].map String.utf16

/-- A string contains one of the keywords as a substring. -/
def ContainsAny (keywords : List JSString) (l : JSString) : Prop :=
  ∃ k ∈ keywords, k <:+: l

/-- The array a result of `categorizeSkills` holds under a key; empty when the key
is absent. -/
def membersOf (result : Categories) (category : String) : List JSValue :=
  (result.lookup category).getD []

/-- The category the rules of the classifier, tried in order, give a skill. -/
def chosenCategory (h : Host) (s : JSString) : Category :=
  if programmingKeywords.any (fun keyword => includes (h.toLowerCase s) keyword) then .programming
  else if frameworkKeywords.any (fun keyword => includes (h.toLowerCase s) keyword) then .frameworks
  else if toolKeywords.any (fun keyword => includes (h.toLowerCase s) keyword) then .tools
  else .other

/-- The object `categories` with the four arrays `a`, `b`, `c`, `d`. -/
def fourCategories (a b c d : List JSValue) : Categories :=
  [("Programming Languages", a), ("Frameworks & Libraries", b),
    ("Tools & Technologies", c), ("Other Skills", d)]

/-- The programming keywords without javascript. -/
def programmingKeywordsReduced : List JSString :=
  ["python", "java", "c++", "c#", "php", "ruby", "go", "rust", "swift", "kotlin",
    "typescript"].map String.utf16

/-- The framework keywords without django. -/
def frameworkKeywordsReduced : List JSString :=
  ["react", "vue", "angular", "node", "express", "flask", "spring", "laravel", "rails",
    "next", "nuxt"].map String.utf16

/-- The callback of the classifier whose keyword sets lack javascript, django and
mongodb. -/
def categorizeStepReduced (h : Host) (categories : Categories) (skill : JSValue) :
    Except JSError Categories :=
  match skill with
  | .str s =>
    let skillLower := h.toLowerCase s
    if programmingKeywordsReduced.any (fun keyword => includes skillLower keyword) then
      .ok (pushTo "Programming Languages" skill categories)
    else if frameworkKeywordsReduced.any (fun keyword => includes skillLower keyword) then
      .ok (pushTo "Frameworks & Libraries" skill categories)
    else if includes skillLower "git".utf16 || includes skillLower "docker".utf16
        || includes skillLower "aws".utf16 || includes skillLower "sql".utf16 then
      .ok (pushTo "Tools & Technologies" skill categories)
    else
      .ok (pushTo "Other Skills" skill categories)
  | _ => .error .typeError

/-- The loop of the classifier with the reduced keyword sets. -/
def categorizeLoopReduced (h : Host) : Categories → List JSValue → Except JSError Categories
  | categories, [] => .ok categories
  | categories, skill :: rest =>
    match categorizeStepReduced h categories skill with
    | .error e => .error e
    | .ok categories2 => categorizeLoopReduced h categories2 rest

/-- The classifier with javascript, django and mongodb removed from its keyword
sets, otherwise as `categorizeSkills`. -/
def categorizeSkillsReduced (h : Host) (skills : JSValue) : Except JSError Categories :=
  match skills with
  | .arr xs =>
    match categorizeLoopReduced h initialCategories xs with
    | .error e => .error e
    | .ok categories => .ok (categories.filter (fun kv => !kv.2.isEmpty))
  | _ => .error .typeError

/-- The tokens of a name: the non-empty pieces between the characters that
satisfy `isWs`. -/
def tokensOf (isWs : CodeUnit → Bool) (name : JSString) : List JSString :=
  (splitWhere isWs name).filter (fun t => !t.isEmpty)

/-- The initials as the specification words them: split the name on whitespace,
take the first character of each token, concatenate, upper-case, keep at most two
characters; a character is a UTF-16 code unit, as for `charAt` and `slice`. -/
def initialsSpec (h : Host) (isWs : CodeUnit → Bool) (name : JSString) : JSString :=
  (h.toUpperCase ((tokensOf isWs name).map (fun t => t.take 1)).flatten).take 2

/-- The contact channels, in the order `renderContactInfo` examines them. -/
def channels : List String := ["email", "phone", "linkedin", "github", "location"]

/-- The icon of the contact item of a channel. -/
def channelIcon (channel : String) : JSString :=
  if channel = "email" then "fas fa-envelope".utf16
  else if channel = "phone" then "fas fa-phone".utf16
  else if channel = "linkedin" then "fab fa-linkedin".utf16
  else if channel = "github" then "fab fa-github".utf16
  else "fas fa-map-marker-alt".utf16

/-- The value of the property `k` of an object given by its own properties. -/
def fieldOf (kvs : List (String × JSValue)) (k : String) : JSValue :=
  (kvs.lookup k).getD .undefined

/-- A value of a text field of the data model: absent, null or a string. -/
def IsText (v : JSValue) : Prop := v = .undefined ∨ v = .null ∨ ∃ s, v = .str s

/-- The characters of a string value; none for any other value. -/
def textOf : JSValue → JSString
  | .str s => s
  | _ => []

/-- The markup of a contact item whose text is a string: the icon, then the text
inside a link when the item has one and inside a span when it has none. -/
def contactFragment (item : ContactItem) : JSString :=
  "\n            <div class=\"contact-item\">\n                <i class=\"".utf16
    ++ item.icon ++ "\"></i>\n                ".utf16
    ++ (match item.link with
      | some l => "<a href=\"".utf16 ++ l ++ "\" target=\"_blank\" rel=\"noopener\">".utf16
          ++ textOf item.text ++ "</a>".utf16
      | none => "<span>".utf16 ++ textOf item.text ++ "</span>".utf16)
    ++ "\n            </div>\n        ".utf16

/-- An ASCII letter. -/
def isAsciiLetter (u : CodeUnit) : Bool :=
  (decide (65 ≤ u) && decide (u ≤ 90)) || (decide (97 ≤ u) && decide (u ≤ 122))

/-- A value carries a URL scheme: it begins with a scheme name (a letter, then
letters, digits, plus, minus or dot) followed by a colon. -/
def hasScheme (v : JSString) : Bool :=
  let name := v.takeWhile (fun u => u != 58)
  decide (name.length < v.length) && (name.head?.map isAsciiLetter).getD false
    && name.all (fun u => isAsciiLetter u || (decide (48 ≤ u) && decide (u ≤ 57))
      || u == 43 || u == 45 || u == 46)

/-- The value of `style.display` of the element `id` after the writes, when one
of them set it. -/
def displayAfter (events : List DomEvent) (id : String) : Option String :=
  events.foldl (fun current e =>
    match e with
    | .setDisplay id2 value => if id2 = id then some value else current
    | _ => current) none

/-- One of the writes sets `style.display` of the element `id`. -/
def WritesDisplay (events : List DomEvent) (id : String) : Prop :=
  ∃ value, DomEvent.setDisplay id value ∈ events

/-- Whether a write sets `style.display` of some element. -/
def isDisplayWrite : DomEvent → Bool
  | .setDisplay _ _ => true
  | _ => false

/-- A run that sets `style.display` of no element. -/
def NoDisplay {α : Type} (x : Eff α) : Prop :=
  ∀ e ∈ x.events, isDisplayWrite e = false

/-- Each of the nine render procedures returns on the document. -/
def AllRendersOk (h : Host) (data : JSValue) : Prop :=
  (renderHeader h data).result = .ok () ∧ (renderSummary data).result = .ok ()
    ∧ (renderExperience data).result = .ok () ∧ (renderEducation data).result = .ok ()
    ∧ (renderSkills h data).result = .ok () ∧ (renderProjects data).result = .ok ()
    ∧ (renderCertifications data).result = .ok () ∧ (renderLanguages data).result = .ok ()
    ∧ (renderFooter h data).result = .ok ()

/-- A value that is a string. -/
def isString : JSValue → Bool
  | .str _ => true
  | _ => false

mutual
/-- A value converts to a string: it is not an object with an own property named
toString, and when it is an array every element converts to a string. -/
def printable : JSValue → Bool
  | .arr xs => printableAll xs
  | .obj kvs => !hasKey "toString" kvs
  | _ => true
termination_by structural v => v
/-- Every value of the list converts to a string. -/
def printableAll : List JSValue → Bool
  | [] => true
  | x :: rest => printable x && printableAll rest
termination_by structural xs => xs
end

/-- The value is undefined or null. -/
def isNullish : JSValue → Bool
  | .undefined => true
  | .null => true
  | _ => false

/-- The value of the property `k` of `v`; undefined when `v` is undefined or null. -/
def propOf (v : JSValue) (k : String) : JSValue :=
  match getProp v k with
  | .ok x => x
  | .error _ => .undefined

/-- The value is falsy or a string. -/
def isFalsyOrString (v : JSValue) : Bool := !truthy v || isString v

/-- The shape of a list section that renders: the field is falsy (absent, null,
false, zero or the empty string), or an array each of whose entries satisfies
`entryOk`, or an object whose own length is the number zero. -/
def sectionShape (entryOk : JSValue → Bool) (v : JSValue) : Bool :=
  !truthy v || (match v with
    | .arr xs => xs.all entryOk
    | .obj kvs => strictEqZero (fieldOf kvs "length")
    | _ => false)

/-- An entry of experience that renders: it is not null, and its title, company,
dates and description convert to strings. -/
def experienceEntryOk (x : JSValue) : Bool :=
  !isNullish x && printable (propOf x "title") && printable (propOf x "company")
    && printable (propOf x "dates") && printable (propOf x "description")

/-- An entry of education that renders: it is not null, and its degree,
institution, year and gpa convert to strings. -/
def educationEntryOk (x : JSValue) : Bool :=
  !isNullish x && printable (propOf x "degree") && printable (propOf x "institution")
    && printable (propOf x "year") && printable (propOf x "gpa")

/-- An entry of projects that renders: it is not null, and its name, description
and technologies convert to strings. -/
def projectEntryOk (x : JSValue) : Bool :=
  !isNullish x && printable (propOf x "name") && printable (propOf x "description")
    && printable (propOf x "technologies")

/-- The contact channels of a personal info value that render: email, phone and
location convert to strings, linkedin and github are falsy or strings. -/
def contactOk (personalInfo : JSValue) : Bool :=
  printable (propOf personalInfo "email") && printable (propOf personalInfo "phone")
    && isFalsyOrString (propOf personalInfo "linkedin")
    && isFalsyOrString (propOf personalInfo "github")
    && printable (propOf personalInfo "location")

/-- A personal info value that renders: the name converts to a string; the image,
when there is one, converts to a string, and when there is none the name is falsy
or a string; and the contact channels render. -/
def personalInfoOk (personalInfo : JSValue) : Bool :=
  printable (propOf personalInfo "name")
    && (if truthy (propOf personalInfo "image") then printable (propOf personalInfo "image")
      else isFalsyOrString (propOf personalInfo "name"))
    && contactOk personalInfo

/-- The documents on which `renderPortfolio` returns, by the shape of their fields. -/
def rendersCleanly (kvs : List (String × JSValue)) : Bool :=
  personalInfoOk (orElse (fieldOf kvs "personal_info") (.obj []))
    && printable (fieldOf kvs "summary")
    && sectionShape experienceEntryOk (fieldOf kvs "experience")
    && sectionShape educationEntryOk (fieldOf kvs "education")
    && sectionShape isString (fieldOf kvs "skills")
    && sectionShape projectEntryOk (fieldOf kvs "projects")
    && sectionShape printable (fieldOf kvs "certifications")
    && sectionShape printable (fieldOf kvs "languages")
    && printable (fieldOf kvs "last_updated")

/-- A computation that returns. -/
def IsOk {α : Type} (x : Except JSError α) : Prop := ∃ a, x = .ok a

/-- A document of the data model, to evaluate the program on. -/
def sampleDocument : List (String × JSValue) :=
  [("personal_info", .obj [("name", .str "Ada Lovelace".utf16),
      ("email", .str "ada@example.org".utf16),
      ("linkedin", .str "linkedin.com/in/ada".utf16),
      ("location", .str "London".utf16)]),
    ("summary", .str "Mathematician.".utf16),
    ("experience", .arr [.obj [("title", .str "Analyst".utf16),
      ("company", .str "Analytical Engines".utf16), ("dates", .str "1842-1843".utf16),
      ("description", .arr [.str "Led team".utf16, .str "Shipped v2".utf16])]]),
    ("education", .arr [.obj [("degree", .str "Mathematics".utf16),
      ("year", .num ⟨1, "1835".utf16⟩)]]),
    ("skills", .arr [.str "Python".utf16, .str "React".utf16, .str "Docker".utf16]),
    ("projects", .arr [.obj [("name", .str "Notes".utf16),
      ("description", .str "Notes on the engine.".utf16)]]),
    ("certifications", .arr []),
    ("last_updated", .str "1843-10-01".utf16)]

/-- A partly filled document whose fields depart from the data model without
stopping the rendering: a numeric phone, a summary that is an array, an experience
entry without a title, a project whose technologies are an array, a certification
that is an object; no name, no education, no skills, no languages, no date. -/
def looseDocument : List (String × JSValue) :=
  [("personal_info", .obj [("phone", .num ⟨1, "5550100".utf16⟩)]),
    ("summary", .arr [.str "Analyst".utf16, .str "Writer".utf16]),
    ("experience", .arr [.obj [("company", .str "Analytical Engines".utf16)]]),
    ("projects", .arr [.obj [("technologies",
      .arr [.str "Lean".utf16, .str "JavaScript".utf16])]]),
    ("certifications", .arr [.obj [("name", .str "Logic".utf16)]])]

/-! ## The classifier -/

theorem includes_iff (s kw : JSString) : includes s kw = true ↔ kw <:+: s := by
  unfold includes
  simp only [List.any_eq_true, List.mem_tails, List.isPrefixOf_iff_prefix]
  constructor
  · rintro ⟨t, ht, hp⟩
    exact List.infix_iff_prefix_suffix.mpr ⟨t, hp, ht⟩
  · intro hin
    obtain ⟨t, hp, ht⟩ := List.infix_iff_prefix_suffix.mp hin
    exact ⟨t, ht, hp⟩

theorem any_includes_iff (keywords : List JSString) (l : JSString) :
    keywords.any (fun keyword => includes l keyword) = true ↔ ContainsAny keywords l := by
  simp only [List.any_eq_true, includes_iff, ContainsAny]

theorem tool_chain_eq (l : JSString) :
    (includes l "git".utf16 || includes l "docker".utf16 || includes l "aws".utf16
      || includes l "sql".utf16 || includes l "mongodb".utf16)
      = toolKeywords.any (fun keyword => includes l keyword) := by
  simp [toolKeywords, List.any_cons, Bool.or_assoc]

theorem categorizeStep_str (h : Host) (categories : Categories) (s : JSString) :
    categorizeStep h categories (.str s)
      = .ok (pushTo (chosenCategory h s).name (.str s) categories) := by
  simp only [categorizeStep, chosenCategory, tool_chain_eq]
  split_ifs <;> rfl

theorem pushTo_four (cat : Category) (x : JSValue) (a b c d : List JSValue) :
    pushTo cat.name x (fourCategories a b c d)
      = fourCategories (if cat = .programming then a ++ [x] else a)
          (if cat = .frameworks then b ++ [x] else b)
          (if cat = .tools then c ++ [x] else c)
          (if cat = .other then d ++ [x] else d) := by
  cases cat <;> simp [pushTo, fourCategories, Category.name]

theorem categorizeLoop_strs (h : Host) (skills : List JSString) :
    ∀ a b c d : List JSValue,
      categorizeLoop h (fourCategories a b c d) (skills.map JSValue.str)
        = .ok (fourCategories
            (a ++ (skills.filter (fun s => chosenCategory h s = .programming)).map JSValue.str)
            (b ++ (skills.filter (fun s => chosenCategory h s = .frameworks)).map JSValue.str)
            (c ++ (skills.filter (fun s => chosenCategory h s = .tools)).map JSValue.str)
            (d ++ (skills.filter (fun s => chosenCategory h s = .other)).map JSValue.str)) := by
  induction skills with
  | nil => intro a b c d; simp [categorizeLoop]
  | cons s rest ih =>
    intro a b c d
    simp only [List.map_cons, categorizeLoop, categorizeStep_str, pushTo_four]
    rw [ih]
    cases hc : chosenCategory h s <;> simp [List.filter_cons, hc]

/-- The result of the classifier on an array of strings: the four filtered arrays,
without those that are empty. -/
theorem categorizeSkills_strs (h : Host) (skills : List JSString) :
    categorizeSkills h (.arr (skills.map JSValue.str))
      = .ok ((fourCategories
          ((skills.filter (fun s => chosenCategory h s = .programming)).map JSValue.str)
          ((skills.filter (fun s => chosenCategory h s = .frameworks)).map JSValue.str)
          ((skills.filter (fun s => chosenCategory h s = .tools)).map JSValue.str)
          ((skills.filter (fun s => chosenCategory h s = .other)).map JSValue.str)).filter
            (fun kv => !kv.2.isEmpty)) := by
  have hloop := categorizeLoop_strs h skills [] [] [] []
  simp only [List.nil_append] at hloop
  simp only [categorizeSkills]
  have hinit : initialCategories = fourCategories [] [] [] [] := rfl
  rw [hinit, hloop]

theorem filter4_perm {α : Type} (f : α → Category) (l : List α) :
    (l.filter (fun x => f x = .programming) ++ (l.filter (fun x => f x = .frameworks)
      ++ (l.filter (fun x => f x = .tools) ++ l.filter (fun x => f x = .other)))).Perm l := by
  induction l with
  | nil => simp
  | cons x l ih =>
    cases hx : f x <;> simp only [List.filter_cons, hx, decide_True, decide_False, if_true,
      if_false, reduceCtorEq, Bool.false_eq_true]
    · exact ih.cons x
    · exact List.perm_middle.trans (ih.cons x)
    · rw [← List.append_assoc]
      refine List.perm_middle.trans ?_
      rw [List.append_assoc]
      exact ih.cons x
    · rw [← List.append_assoc, ← List.append_assoc]
      refine List.perm_middle.trans ?_
      rw [List.append_assoc, List.append_assoc]
      exact ih.cons x

theorem flatten_filter_nonempty (l : Categories) :
    ((l.filter (fun kv => !kv.2.isEmpty)).map (fun kv => kv.2)).flatten
      = (l.map (fun kv => kv.2)).flatten := by
  induction l with
  | nil => rfl
  | cons kv rest ih =>
    obtain ⟨k, v⟩ := kv
    cases v with
    | nil => simpa [List.filter_cons] using ih
    | cons x xs => simp [List.filter_cons, ih]

theorem membersOf_filter_four (a b c d : List JSValue) :
    membersOf ((fourCategories a b c d).filter (fun kv => !kv.2.isEmpty))
        "Programming Languages" = a
      ∧ membersOf ((fourCategories a b c d).filter (fun kv => !kv.2.isEmpty))
        "Frameworks & Libraries" = b
      ∧ membersOf ((fourCategories a b c d).filter (fun kv => !kv.2.isEmpty))
        "Tools & Technologies" = c
      ∧ membersOf ((fourCategories a b c d).filter (fun kv => !kv.2.isEmpty))
        "Other Skills" = d := by
  cases a <;> cases b <;> cases c <;> cases d <;>
    simp [membersOf, fourCategories, List.filter_cons, List.lookup]

theorem chosenCategory_programming_iff (h : Host) (s : JSString) :
    chosenCategory h s = .programming ↔ ContainsAny programmingKeywords (h.toLowerCase s) := by
  unfold chosenCategory
  rw [← any_includes_iff]
  split_ifs <;> simp_all

theorem chosenCategory_frameworks_iff (h : Host) (s : JSString) :
    chosenCategory h s = .frameworks ↔
      ¬ ContainsAny programmingKeywords (h.toLowerCase s)
        ∧ ContainsAny frameworkKeywords (h.toLowerCase s) := by
  unfold chosenCategory
  rw [← any_includes_iff, ← any_includes_iff]
  split_ifs <;> simp_all

theorem chosenCategory_tools_iff (h : Host) (s : JSString) :
    chosenCategory h s = .tools ↔
      ¬ ContainsAny programmingKeywords (h.toLowerCase s)
        ∧ ¬ ContainsAny frameworkKeywords (h.toLowerCase s)
        ∧ ContainsAny toolKeywords (h.toLowerCase s) := by
  unfold chosenCategory
  rw [← any_includes_iff, ← any_includes_iff, ← any_includes_iff]
  split_ifs <;> simp_all

theorem chosenCategory_other_iff (h : Host) (s : JSString) :
    chosenCategory h s = .other ↔
      ¬ ContainsAny programmingKeywords (h.toLowerCase s)
        ∧ ¬ ContainsAny frameworkKeywords (h.toLowerCase s)
        ∧ ¬ ContainsAny toolKeywords (h.toLowerCase s) := by
  unfold chosenCategory
  rw [← any_includes_iff, ← any_includes_iff, ← any_includes_iff]
  split_ifs <;> simp_all

theorem str_mem_map_filter (skills : List JSString) (p : JSString → Bool) (s : JSString) :
    JSValue.str s ∈ (skills.filter p).map JSValue.str ↔ s ∈ skills ∧ p s = true := by
  simp [List.mem_map, List.mem_filter]

/-- C1: on every list of skill strings `categorizeSkills` returns a mapping whose
arrays, concatenated, are a permutation of the input, whose keys are distinct and
among the four category names, and none of whose arrays is empty. -/
theorem categorizeSkills_partition (h : Host) (skills : List JSString) :
    ∃ result, categorizeSkills h (.arr (skills.map JSValue.str)) = .ok result
      ∧ ((result.map (fun kv => kv.2)).flatten).Perm (skills.map JSValue.str)
      ∧ (∀ kv ∈ result, kv.1 ∈ ["Programming Languages", "Frameworks & Libraries",
          "Tools & Technologies", "Other Skills"])
      ∧ (result.map (fun kv => kv.1)).Nodup
      ∧ (∀ kv ∈ result, kv.2 ≠ []) := by
  refine ⟨_, categorizeSkills_strs h skills, ?_, ?_, ?_, ?_⟩
  · rw [flatten_filter_nonempty]
    have hperm := (filter4_perm (chosenCategory h) skills).map JSValue.str
    simpa [fourCategories, List.map_append] using hperm
  · intro kv hkv
    have hmem := (List.mem_filter.mp hkv).1
    simp only [fourCategories, List.mem_cons, List.mem_singleton, List.not_mem_nil,
      or_false] at hmem
    rcases hmem with rfl | rfl | rfl | rfl <;> simp
  · refine List.Nodup.sublist ((List.filter_sublist _).map _) ?_
    simp [fourCategories]
  · intro kv hkv
    have hne := (List.mem_filter.mp hkv).2
    intro hnil
    simp [hnil] at hne

theorem sampleHost_asciiFaithful : sampleHost.AsciiFaithful :=
  fun _ _ => ⟨rfl, rfl⟩

/-- C2: on every list of skill strings, a skill is held under Programming
Languages exactly when its lower-cased form contains a programming keyword, under
Frameworks & Libraries exactly when it contains no programming keyword but a
framework keyword, under Tools & Technologies exactly when it contains neither but
one of git, docker, aws, sql, mongodb, and under Other Skills exactly when it
contains none of them; Python, React, Docker and Photoshop go to the four
categories in that order. -/
theorem categorizeSkills_priority (h : Host) (skills : List JSString) :
    (∃ result, categorizeSkills h (.arr (skills.map JSValue.str)) = .ok result
      ∧ ∀ s ∈ skills,
        (JSValue.str s ∈ membersOf result "Programming Languages"
          ↔ ContainsAny programmingKeywords (h.toLowerCase s))
        ∧ (JSValue.str s ∈ membersOf result "Frameworks & Libraries"
          ↔ ¬ ContainsAny programmingKeywords (h.toLowerCase s)
            ∧ ContainsAny frameworkKeywords (h.toLowerCase s))
        ∧ (JSValue.str s ∈ membersOf result "Tools & Technologies"
          ↔ ¬ ContainsAny programmingKeywords (h.toLowerCase s)
            ∧ ¬ ContainsAny frameworkKeywords (h.toLowerCase s)
            ∧ ContainsAny toolKeywords (h.toLowerCase s))
        ∧ (JSValue.str s ∈ membersOf result "Other Skills"
          ↔ ¬ ContainsAny programmingKeywords (h.toLowerCase s)
            ∧ ¬ ContainsAny frameworkKeywords (h.toLowerCase s)
            ∧ ¬ ContainsAny toolKeywords (h.toLowerCase s)))
    ∧ (h.AsciiFaithful →
        categorizeSkills h (.arr [.str "Python".utf16, .str "React".utf16,
            .str "Docker".utf16, .str "Photoshop".utf16])
          = .ok [("Programming Languages", [.str "Python".utf16]),
              ("Frameworks & Libraries", [.str "React".utf16]),
              ("Tools & Technologies", [.str "Docker".utf16]),
              ("Other Skills", [.str "Photoshop".utf16])]) := by
  constructor
  · refine ⟨_, categorizeSkills_strs h skills, ?_⟩
    intro s hs
    obtain ⟨h1, h2, h3, h4⟩ := membersOf_filter_four
      ((skills.filter (fun s => chosenCategory h s = .programming)).map JSValue.str)
      ((skills.filter (fun s => chosenCategory h s = .frameworks)).map JSValue.str)
      ((skills.filter (fun s => chosenCategory h s = .tools)).map JSValue.str)
      ((skills.filter (fun s => chosenCategory h s = .other)).map JSValue.str)
    rw [h1, h2, h3, h4]
    simp only [str_mem_map_filter, hs, true_and, decide_eq_true_eq]
    exact ⟨chosenCategory_programming_iff h s, chosenCategory_frameworks_iff h s,
      chosenCategory_tools_iff h s, chosenCategory_other_iff h s⟩
  · intro hf
    simp only [categorizeSkills, categorizeLoop, categorizeStep]
    rw [(hf "Python".utf16 (by decide)).1, (hf "React".utf16 (by decide)).1,
      (hf "Docker".utf16 (by decide)).1, (hf "Photoshop".utf16 (by decide)).1]
    rfl

theorem categorizeSkills_priority_witness :
    categorizeSkills sampleHost (.arr [.str "Python".utf16, .str "React".utf16,
        .str "Docker".utf16, .str "Photoshop".utf16])
      = .ok [("Programming Languages", [.str "Python".utf16]),
          ("Frameworks & Libraries", [.str "React".utf16]),
          ("Tools & Technologies", [.str "Docker".utf16]),
          ("Other Skills", [.str "Photoshop".utf16])] :=
  (categorizeSkills_priority sampleHost []).2 sampleHost_asciiFaithful

theorem includes_mono (l k1 k2 : JSString) (hk : k1 <:+: k2)
    (h2 : includes l k2 = true) : includes l k1 = true :=
  (includes_iff l k1).mpr (hk.trans ((includes_iff l k2).mp h2))

theorem java_infix_javascript : "java".utf16 <:+: "javascript".utf16 :=
  ⟨[], "script".utf16, rfl⟩

theorem go_infix_django : "go".utf16 <:+: "django".utf16 :=
  ⟨"djan".utf16, [], rfl⟩

theorem go_infix_mongodb : "go".utf16 <:+: "mongodb".utf16 :=
  ⟨"mon".utf16, "db".utf16, rfl⟩

theorem go_mem_programmingKeywords : "go".utf16 ∈ programmingKeywords := by
  simp [programmingKeywords]

theorem containsAny_programming_of_go (l : JSString) (k : JSString)
    (hk : "go".utf16 <:+: k) (hl : k <:+: l) : ContainsAny programmingKeywords l :=
  ⟨"go".utf16, go_mem_programmingKeywords, hk.trans hl⟩

theorem programming_any_reduced (l : JSString) :
    programmingKeywords.any (fun keyword => includes l keyword)
      = programmingKeywordsReduced.any (fun keyword => includes l keyword) := by
  have hj := includes_mono l _ _ java_infix_javascript
  simp only [programmingKeywords, programmingKeywordsReduced, List.map, List.any_cons,
    List.any_nil]
  cases h1 : includes l "javascript".utf16
  · simp
  · have hjava := hj h1
    simp [hjava]

theorem categorizeStep_reduced (h : Host) (categories : Categories) (skill : JSValue) :
    categorizeStepReduced h categories skill = categorizeStep h categories skill := by
  cases skill with
  | str s =>
    simp only [categorizeStepReduced, categorizeStep, programming_any_reduced]
    by_cases hp : programmingKeywordsReduced.any
        (fun keyword => includes (h.toLowerCase s) keyword) = true
    · simp [hp]
    · have hgo : includes (h.toLowerCase s) "go".utf16 = false := by
        cases hg : includes (h.toLowerCase s) "go".utf16
        · rfl
        · exfalso
          apply hp
          rw [any_includes_iff]
          exact ⟨"go".utf16, by simp [programmingKeywordsReduced], (includes_iff _ _).mp hg⟩
      have hd : includes (h.toLowerCase s) "django".utf16 = false := by
        cases hg : includes (h.toLowerCase s) "django".utf16
        · rfl
        · rw [includes_mono _ _ _ go_infix_django hg] at hgo
          exact absurd hgo (by decide)
      have hm : includes (h.toLowerCase s) "mongodb".utf16 = false := by
        cases hg : includes (h.toLowerCase s) "mongodb".utf16
        · rfl
        · rw [includes_mono _ _ _ go_infix_mongodb hg] at hgo
          exact absurd hgo (by decide)
      have hfw : frameworkKeywords.any (fun keyword => includes (h.toLowerCase s) keyword)
          = frameworkKeywordsReduced.any
              (fun keyword => includes (h.toLowerCase s) keyword) := by
        simp only [frameworkKeywords, frameworkKeywordsReduced, List.map, List.any_cons,
          List.any_nil, hd, Bool.false_or]
      rw [hfw, hm, Bool.or_false]
  | undefined => rfl
  | null => rfl
  | bool b => rfl
  | num n => rfl
  | arr xs => rfl
  | obj kvs => rfl

theorem categorizeLoop_reduced (h : Host) (skills : List JSValue) :
    ∀ categories, categorizeLoopReduced h categories skills
      = categorizeLoop h categories skills := by
  induction skills with
  | nil => intro categories; rfl
  | cons skill rest ih =>
    intro categories
    simp only [categorizeLoopReduced, categorizeLoop, categorizeStep_reduced]
    cases categorizeStep h categories skill with
    | error e => rfl
    | ok categories2 => exact ih categories2

/-- C10: a skill whose lower-cased form contains django or mongodb is held under
Programming Languages and under neither Frameworks & Libraries nor Tools &
Technologies; and the classifier whose keyword sets lack javascript, django and
mongodb equals `categorizeSkills` on every input. -/
theorem categorizeSkills_subsumed_keywords :
    (∀ (h : Host) (skills : List JSString) (s : JSString), s ∈ skills →
      ("django".utf16 <:+: h.toLowerCase s ∨ "mongodb".utf16 <:+: h.toLowerCase s) →
      ∃ result, categorizeSkills h (.arr (skills.map JSValue.str)) = .ok result
        ∧ JSValue.str s ∈ membersOf result "Programming Languages"
        ∧ JSValue.str s ∉ membersOf result "Frameworks & Libraries"
        ∧ JSValue.str s ∉ membersOf result "Tools & Technologies")
    ∧ (∀ (h : Host) (skills : JSValue),
        categorizeSkillsReduced h skills = categorizeSkills h skills) := by
  constructor
  · intro h skills s hs hcontains
    have hprog : ContainsAny programmingKeywords (h.toLowerCase s) := by
      rcases hcontains with hd | hm
      · exact containsAny_programming_of_go _ _ go_infix_django hd
      · exact containsAny_programming_of_go _ _ go_infix_mongodb hm
    have hcat : chosenCategory h s = .programming :=
      (chosenCategory_programming_iff h s).mpr hprog
    refine ⟨_, categorizeSkills_strs h skills, ?_⟩
    obtain ⟨h1, h2, h3, _⟩ := membersOf_filter_four
      ((skills.filter (fun s => chosenCategory h s = .programming)).map JSValue.str)
      ((skills.filter (fun s => chosenCategory h s = .frameworks)).map JSValue.str)
      ((skills.filter (fun s => chosenCategory h s = .tools)).map JSValue.str)
      ((skills.filter (fun s => chosenCategory h s = .other)).map JSValue.str)
    rw [h1, h2, h3]
    simp [str_mem_map_filter, hs, hcat]
  · intro h skills
    cases skills with
    | arr xs => simp only [categorizeSkillsReduced, categorizeSkills, categorizeLoop_reduced]
    | undefined => rfl
    | null => rfl
    | bool b => rfl
    | num n => rfl
    | str s => rfl
    | obj kvs => rfl

theorem categorizeSkills_subsumed_keywords_witness :
    ∃ result, categorizeSkills sampleHost (.arr ([("Django REST".utf16 : JSString)].map
        JSValue.str)) = .ok result
      ∧ JSValue.str "Django REST".utf16 ∈ membersOf result "Programming Languages"
      ∧ JSValue.str "Django REST".utf16 ∉ membersOf result "Frameworks & Libraries"
      ∧ JSValue.str "Django REST".utf16 ∉ membersOf result "Tools & Technologies" :=
  categorizeSkills_subsumed_keywords.1 sampleHost ["Django REST".utf16] "Django REST".utf16
    (by simp) (Or.inl ⟨[], " rest".utf16, rfl⟩)

/-! ## Descriptions and initials -/

theorem mapExcept_toStr_strs (f : JSString → JSString) (ds : List JSString) :
    mapExcept (fun item => (toStr item).map f) (ds.map JSValue.str) = .ok (ds.map f) := by
  induction ds with
  | nil => rfl
  | cons d rest ih =>
    have hd : Except.map f (toStr (JSValue.str d)) = .ok (f d) := rfl
    simp only [List.map_cons, mapExcept, hd, ih]

/-- C7: on a sequence of strings `formatDescription` returns the opening tag of an
unordered list, one list item per entry in sequence order, and the closing tag; on
the sequence Led team, Shipped v2 that is a list of exactly those two items, also
inside the fragment of an experience entry; on a plain string it returns the
string unchanged. -/
theorem formatDescription_list_and_text :
    (∀ ds : List JSString,
      formatDescription (.arr (ds.map JSValue.str))
        = .ok (.str ("<ul>".utf16
            ++ (ds.map (fun d => "<li>".utf16 ++ d ++ "</li>".utf16)).flatten
            ++ "</ul>".utf16)))
    ∧ formatDescription (.arr [.str "Led team".utf16, .str "Shipped v2".utf16])
        = .ok (.str "<ul><li>Led team</li><li>Shipped v2</li></ul>".utf16)
    ∧ (∃ before after, experienceItemHtml (.obj [("description",
          .arr [.str "Led team".utf16, .str "Shipped v2".utf16])])
        = .ok (before ++ "<ul><li>Led team</li><li>Shipped v2</li></ul>".utf16 ++ after)
        ∧ ¬ ("<li>".utf16 <:+: before) ∧ ¬ ("<li>".utf16 <:+: after))
    ∧ (∀ s : JSString, formatDescription (.str s) = .ok (.str s)) := by
  refine ⟨?_, rfl, ?_, fun _ => rfl⟩
  · intro ds
    simp only [formatDescription, mapExcept_toStr_strs]
  · refine ⟨"\n            <div class=\"experience-item\">\n                <div class=\"item-header\">\n                    <div>\n                        <h3 class=\"item-title\">Position Title</h3>\n                        <p class=\"item-company\">Company Name</p>\n                    </div>\n                    \n                </div>\n                <div class=\"item-description\">\n                    ".utf16,
      "\n                </div>\n            </div>\n        ".utf16, ?_, ?_, ?_⟩
    · set_option maxRecDepth 100000 in rfl
    · rw [← includes_iff]
      set_option maxRecDepth 100000 in decide
    · rw [← includes_iff]
      set_option maxRecDepth 100000 in decide

theorem flatten_take_one_filter (pieces : List JSString) :
    ((pieces.filter (fun t => !t.isEmpty)).map (fun t => t.take 1)).flatten
      = (pieces.map (fun t => t.take 1)).flatten := by
  induction pieces with
  | nil => rfl
  | cons t rest ih =>
    cases t with
    | nil => simpa [List.filter_cons] using ih
    | cons c cs => simp [List.filter_cons, ih]

theorem splitWhere_congr (p q : CodeUnit → Bool) (s : JSString) (hpq : ∀ c ∈ s, p c = q c) :
    splitWhere p s = splitWhere q s := by
  induction s with
  | nil => rfl
  | cons c cs ih =>
    have hc : p c = q c := hpq c (List.mem_cons_self c cs)
    have hrest : splitWhere p cs = splitWhere q cs :=
      ih (fun d hd => hpq d (List.mem_cons_of_mem c hd))
    simp only [splitWhere, hc, hrest]

theorem initials_of_separators (p : CodeUnit → Bool) (s : JSString) (hall : ∀ c ∈ s, p c = true) :
    ((splitWhere p s).map (fun t => t.take 1)).flatten = [] := by
  induction s with
  | nil => rfl
  | cons c cs ih =>
    have hc : p c = true := hall c (List.mem_cons_self c cs)
    have hrest := ih (fun d hd => hall d (List.mem_cons_of_mem c hd))
    simp only [splitWhere, hc, if_true, List.map_cons, List.flatten_cons, List.take_nil,
      List.nil_append]
    exact hrest

/-- C3, amended: for every name whose whitespace characters are all the space
character, whatever set of characters counts as whitespace, `getInitials` gives
the initials as the specification words them, a character being a UTF-16 code
unit (of a token that begins outside the basic plane the initial is the high
surrogate alone); on a platform that folds ASCII case as usual `getInitials` of
Ada Lovelace is AL, and for an empty or all-space name the result is the empty
string. -/
theorem getInitials_space_separated (h : Host) :
    (∀ (isWs : CodeUnit → Bool) (name : JSString), isWs 32 = true →
      (∀ c ∈ name, isWs c = true → c = 32) →
      getInitials h (.str name) = .ok (initialsSpec h isWs name))
    ∧ (h.AsciiFaithful → getInitials h (.str "Ada Lovelace".utf16) = .ok "AL".utf16)
    ∧ (h.AsciiFaithful → ∀ name : JSString, (∀ c ∈ name, c = 32) →
        getInitials h (.str name) = .ok []) := by
  refine ⟨?_, ?_, ?_⟩
  · intro isWs name hsp honly
    have hcongr : splitWhere isWs name = splitWhere (fun c => c == 32) name := by
      apply splitWhere_congr
      intro c hc
      by_cases hw : isWs c = true
      · have hceq := honly c hc hw
        simp [hceq, hsp]
      · have hne : c ≠ 32 := fun heq => hw (heq ▸ hsp)
        simp [hw, hne]
    simp only [getInitials, initialsSpec, tokensOf, split, flatten_take_one_filter, hcongr]
  · intro hf
    have hup := (hf "AL".utf16 (by decide)).2
    simp only [getInitials]
    have hsplit : ((split 32 "Ada Lovelace".utf16).map
        (fun word => word.take 1)).flatten = "AL".utf16 := by decide
    rw [hsplit, hup]
    rfl
  · intro hf name hall
    have hup := (hf [] (by simp)).2
    simp only [getInitials, split]
    rw [initials_of_separators _ name (fun c hc => by simp [hall c hc]), hup]
    rfl

theorem getInitials_space_separated_witness :
    getInitials sampleHost (.str "Grace Brewster Hopper".utf16)
        = .ok (initialsSpec sampleHost isWhitespaceUnit "Grace Brewster Hopper".utf16)
      ∧ getInitials sampleHost (.str "Ada Lovelace".utf16) = .ok "AL".utf16
      ∧ getInitials sampleHost (.str "   ".utf16) = .ok []
      ∧ "😀 X".utf16 = [55357, 56832, 32, 88]
      ∧ getInitials sampleHost (.str "😀 X".utf16)
          = .ok (initialsSpec sampleHost isWhitespaceUnit "😀 X".utf16)
      ∧ getInitials sampleHost (.str "😀 X".utf16) = .ok [55357, 88] :=
  ⟨(getInitials_space_separated sampleHost).1 isWhitespaceUnit "Grace Brewster Hopper".utf16
      (by decide) (by decide),
    (getInitials_space_separated sampleHost).2.1 sampleHost_asciiFaithful,
    (getInitials_space_separated sampleHost).2.2 sampleHost_asciiFaithful "   ".utf16
      (by decide),
    by decide,
    (getInitials_space_separated sampleHost).1 isWhitespaceUnit "😀 X".utf16
      (by decide) (by decide),
    by decide⟩

/-- C3 as stated fails: a tab is whitespace but `getInitials` splits on the space
character only, so the name made of one tab gives that tab, not the empty string,
and the name Ada, tab, Lovelace gives A where the specification's words give AL. -/
theorem getInitials_whitespace_counterexample :
    isWhitespaceUnit 9 = true
      ∧ getInitials sampleHost (.str [9]) = .ok [9]
      ∧ initialsSpec sampleHost isWhitespaceUnit [9] = []
      ∧ getInitials sampleHost (.str ("Ada".utf16 ++ [9] ++ "Lovelace".utf16))
          = .ok "A".utf16
      ∧ initialsSpec sampleHost isWhitespaceUnit
          ("Ada".utf16 ++ [9] ++ "Lovelace".utf16) = "AL".utf16 := by
  decide

/-! ## Contact items -/

theorem liftE_ok_bind {α β : Type} (a : α) (f : α → Eff β) : (liftE (.ok a) >>= f) = f a :=
  rfl

theorem ok_bind {α β : Type} (a : α) (k : α → Except JSError β) :
    (Except.ok a >>= k) = k a := rfl

theorem bind_if_toStr {β γ : Type} (v : JSValue) (hv : IsText v) (f : JSString → β) (d : β)
    (k : β → Except JSError γ) :
    ((if truthy v = true then (toStr v).map f else pure d) >>= k)
      = k (if truthy v = true then f (textOf v) else d) := by
  rcases hv with rfl | rfl | ⟨s, rfl⟩
  · rfl
  · rfl
  · by_cases hs : truthy (.str s) = true
    · simp only [hs, if_true]; rfl
    · simp only [hs, if_false]; rfl

theorem bind_if_profileLink {β γ : Type} (v : JSValue) (hv : IsText v) (f : JSString → β)
    (d : β) (k : β → Except JSError γ) :
    ((if truthy v = true then (profileLink v).map f else pure d) >>= k)
      = k (if truthy v = true then
          f (if startsWith (textOf v) "http".utf16 then textOf v
            else "https://".utf16 ++ textOf v)
        else d) := by
  rcases hv with rfl | rfl | ⟨s, rfl⟩
  · rfl
  · rfl
  · by_cases hs : truthy (.str s) = true
    · simp only [hs, if_true]; rfl
    · simp only [hs, if_false]; rfl

theorem contactItems_explicit (kvs : List (String × JSValue))
    (hshape : ∀ k ∈ channels, IsText (fieldOf kvs k)) :
    contactItems (.obj kvs) = .ok (
      (if truthy (fieldOf kvs "email") then
        [ContactItem.mk "fas fa-envelope".utf16 (fieldOf kvs "email")
          (some ("mailto:".utf16 ++ textOf (fieldOf kvs "email")))] else [])
      ++ ((if truthy (fieldOf kvs "phone") then
        [ContactItem.mk "fas fa-phone".utf16 (fieldOf kvs "phone")
          (some ("tel:".utf16 ++ textOf (fieldOf kvs "phone")))] else [])
      ++ ((if truthy (fieldOf kvs "linkedin") then
        [ContactItem.mk "fab fa-linkedin".utf16 (.str "LinkedIn".utf16)
          (some (if startsWith (textOf (fieldOf kvs "linkedin")) "http".utf16
            then textOf (fieldOf kvs "linkedin")
            else "https://".utf16 ++ textOf (fieldOf kvs "linkedin")))] else [])
      ++ ((if truthy (fieldOf kvs "github") then
        [ContactItem.mk "fab fa-github".utf16 (.str "GitHub".utf16)
          (some (if startsWith (textOf (fieldOf kvs "github")) "http".utf16
            then textOf (fieldOf kvs "github")
            else "https://".utf16 ++ textOf (fieldOf kvs "github")))] else [])
      ++ (if truthy (fieldOf kvs "location") then
        [ContactItem.mk "fas fa-map-marker-alt".utf16 (fieldOf kvs "location") none]
        else []))))) := by
  have he := hshape "email" (by simp [channels])
  have hp := hshape "phone" (by simp [channels])
  have hl := hshape "linkedin" (by simp [channels])
  have hg := hshape "github" (by simp [channels])
  have hloc := hshape "location" (by simp [channels])
  have hget : ∀ k, getProp (.obj kvs) k = .ok (fieldOf kvs k) := fun _ => rfl
  simp only [contactItems, hget, ok_bind]
  rw [bind_if_toStr _ he, bind_if_toStr _ hp, bind_if_profileLink _ hl,
    bind_if_profileLink _ hg]
  simp only [pure, Except.pure]
  congr 1
  split_ifs <;> simp

theorem bind_if_ok_inv {α β γ : Type} (c : Bool) (x : Except JSError α) (f : α → β) (d : β)
    (k : β → Except JSError γ) (r : γ)
    (hok : ((if c = true then x.map f else pure d) >>= k) = .ok r) :
    ∃ b, k b = .ok r ∧ ((c = false ∧ b = d) ∨ (c = true ∧ ∃ a, b = f a)) := by
  cases c with
  | false => exact ⟨d, hok, Or.inl ⟨rfl, rfl⟩⟩
  | true =>
    cases x with
    | error e => exact absurd hok (by simp [Except.map, bind, Except.bind])
    | ok a => exact ⟨f a, hok, Or.inr ⟨rfl, a, rfl⟩⟩

/-- Whenever `contactItems` returns, on any record, the icons of the items are
those of the channels with a truthy value, in the fixed order. -/
theorem contactItems_icons (kvs : List (String × JSValue)) (items : List ContactItem)
    (hok : contactItems (.obj kvs) = .ok items) :
    items.map (fun item => item.icon)
      = (channels.filter (fun k => truthy (fieldOf kvs k))).map channelIcon := by
  have hget : ∀ k, getProp (.obj kvs) k = .ok (fieldOf kvs k) := fun _ => rfl
  simp only [contactItems, hget, ok_bind] at hok
  obtain ⟨items1, hok1, hc1⟩ := bind_if_ok_inv _ _ _ _ _ _ hok
  obtain ⟨items2, hok2, hc2⟩ := bind_if_ok_inv _ _ _ _ _ _ hok1
  obtain ⟨items3, hok3, hc3⟩ := bind_if_ok_inv _ _ _ _ _ _ hok2
  obtain ⟨items4, hok4, hc4⟩ := bind_if_ok_inv _ _ _ _ _ _ hok3
  have hitems : items = if truthy (fieldOf kvs "location") = true then
      items4 ++ [ContactItem.mk "fas fa-map-marker-alt".utf16 (fieldOf kvs "location") none]
    else items4 := (Except.ok.inj hok4).symm
  have h1 : items1.map (fun item => item.icon)
      = if truthy (fieldOf kvs "email") = true then ["fas fa-envelope".utf16] else [] := by
    rcases hc1 with ⟨hc, rfl⟩ | ⟨hc, a, rfl⟩ <;> simp [hc]
  have h2 : items2.map (fun item => item.icon)
      = items1.map (fun item => item.icon)
        ++ if truthy (fieldOf kvs "phone") = true then ["fas fa-phone".utf16] else [] := by
    rcases hc2 with ⟨hc, rfl⟩ | ⟨hc, a, rfl⟩ <;> simp [hc]
  have h3 : items3.map (fun item => item.icon)
      = items2.map (fun item => item.icon)
        ++ if truthy (fieldOf kvs "linkedin") = true then ["fab fa-linkedin".utf16]
          else [] := by
    rcases hc3 with ⟨hc, rfl⟩ | ⟨hc, a, rfl⟩ <;> simp [hc]
  have h4 : items4.map (fun item => item.icon)
      = items3.map (fun item => item.icon)
        ++ if truthy (fieldOf kvs "github") = true then ["fab fa-github".utf16] else [] := by
    rcases hc4 with ⟨hc, rfl⟩ | ⟨hc, a, rfl⟩ <;> simp [hc]
  have h5 : items.map (fun item => item.icon)
      = items4.map (fun item => item.icon)
        ++ if truthy (fieldOf kvs "location") = true then ["fas fa-map-marker-alt".utf16]
          else [] := by
    rw [hitems]
    split_ifs <;> simp
  rw [h5, h4, h3, h2, h1]
  simp only [channels, List.filter_cons, List.filter_nil]
  split_ifs <;> rfl

theorem lookup_perm {β : Type} (k : String) (l1 l2 : List (String × β)) (hperm : l1.Perm l2)
    (hnodup : (l1.map (fun kv => kv.1)).Nodup) : l1.lookup k = l2.lookup k := by
  induction hperm with
  | nil => rfl
  | cons x _ ih =>
    obtain ⟨k1, v1⟩ := x
    simp only [List.map_cons, List.nodup_cons] at hnodup
    simp only [List.lookup_cons, ih hnodup.2]
  | swap x y l =>
    obtain ⟨k1, v1⟩ := x
    obtain ⟨k2, v2⟩ := y
    simp only [List.map_cons, List.nodup_cons, List.mem_cons, not_or] at hnodup
    have hne : k2 ≠ k1 := hnodup.1.1
    simp only [List.lookup_cons]
    by_cases h1 : (k == k1) = true <;> by_cases h2 : (k == k2) = true
    · exact absurd ((beq_iff_eq.mp h2).symm.trans (beq_iff_eq.mp h1)) hne
    · simp [h1, h2]
    · simp [h1, h2]
    · simp [h1, h2]
  | trans hp1 _ ih1 ih2 =>
    exact (ih1 hnodup).trans (ih2 ((hp1.map _).nodup_iff.mp hnodup))

theorem contactItemHtml_fragment (item : ContactItem) (htext : ∃ t, item.text = .str t)
    (hlink : ∀ l, item.link = some l → l ≠ []) :
    contactItemHtml item = .ok (contactFragment item) := by
  obtain ⟨icon, text, link⟩ := item
  obtain ⟨t, ht⟩ := htext
  simp only at ht
  subst ht
  cases link with
  | none => rfl
  | some l =>
    have hl : l.isEmpty = false := by
      cases l with
      | nil => exact absurd rfl (hlink [] rfl)
      | cons u us => rfl
    simp only [contactItemHtml, contactFragment, hl, Bool.false_eq_true, if_false, toStr,
      textOf]
    rfl

theorem mapExcept_eq_map {α β : Type} (f : α → Except JSError β) (g : α → β) (xs : List α)
    (hall : ∀ x ∈ xs, f x = .ok (g x)) : mapExcept f xs = .ok (xs.map g) := by
  induction xs with
  | nil => rfl
  | cons x rest ih =>
    simp only [mapExcept, hall x (List.mem_cons_self x rest),
      ih (fun y hy => hall y (List.mem_cons_of_mem x hy)), List.map_cons]

theorem str_of_truthy_isText {v : JSValue} (hv : IsText v) (ht : truthy v = true) :
    ∃ t, v = .str t ∧ t ≠ [] := by
  rcases hv with rfl | rfl | ⟨t, rfl⟩
  · exact absurd ht (by simp [truthy])
  · exact absurd ht (by simp [truthy])
  · refine ⟨t, rfl, ?_⟩
    rintro rfl
    exact absurd ht (by simp [truthy])

theorem mem_if_singleton {α : Type} {c : Prop} [Decidable c] {x y : α}
    (hmem : y ∈ (if c then [x] else [])) : c ∧ y = x := by
  by_cases hc : c
  · rw [if_pos hc] at hmem
    exact ⟨hc, List.mem_singleton.mp hmem⟩
  · rw [if_neg hc] at hmem
    exact absurd hmem (List.not_mem_nil y)

theorem profile_link_ne_nil (t : JSString) (hne : t ≠ []) :
    (if startsWith t "http".utf16 = true then t else "https://".utf16 ++ t) ≠ [] := by
  split_ifs
  · exact hne
  · simp [String.utf16, encodeUtf16]

/-- On a record of the data model `renderContactInfo` writes the fragments of the
items of `contactItems`, in the order of the items. -/
theorem renderContactInfo_explicit (kvs : List (String × JSValue))
    (hshape : ∀ k ∈ channels, IsText (fieldOf kvs k)) (items : List ContactItem)
    (hitems : contactItems (.obj kvs) = .ok items) :
    renderContactInfo (.obj kvs)
      = ⟨[.setHTML "contact-info" (items.map contactFragment).flatten], .ok ()⟩ := by
  have hfrag : mapExcept contactItemHtml items = .ok (items.map contactFragment) := by
    apply mapExcept_eq_map
    intro item hitem
    have hexp := contactItems_explicit kvs hshape
    rw [hitems] at hexp
    rw [Except.ok.inj hexp] at hitem
    have he := hshape "email" (by simp [channels])
    have hp := hshape "phone" (by simp [channels])
    have hl := hshape "linkedin" (by simp [channels])
    have hg := hshape "github" (by simp [channels])
    have hloc := hshape "location" (by simp [channels])
    simp only [List.mem_append] at hitem
    rcases hitem with hi | hi | hi | hi | hi
    · obtain ⟨hc, rfl⟩ := mem_if_singleton hi
      obtain ⟨t, ht, _⟩ := str_of_truthy_isText he hc
      exact contactItemHtml_fragment _ ⟨t, ht⟩ (fun l hlink => by
        rw [← Option.some.inj hlink]; simp [String.utf16, encodeUtf16])
    · obtain ⟨hc, rfl⟩ := mem_if_singleton hi
      obtain ⟨t, ht, _⟩ := str_of_truthy_isText hp hc
      exact contactItemHtml_fragment _ ⟨t, ht⟩ (fun l hlink => by
        rw [← Option.some.inj hlink]; simp [String.utf16, encodeUtf16])
    · obtain ⟨hc, rfl⟩ := mem_if_singleton hi
      obtain ⟨t, ht, hne⟩ := str_of_truthy_isText hl hc
      exact contactItemHtml_fragment _ ⟨_, rfl⟩ (fun l hlink => by
        rw [← Option.some.inj hlink, ht]
        exact profile_link_ne_nil t hne)
    · obtain ⟨hc, rfl⟩ := mem_if_singleton hi
      obtain ⟨t, ht, hne⟩ := str_of_truthy_isText hg hc
      exact contactItemHtml_fragment _ ⟨_, rfl⟩ (fun l hlink => by
        rw [← Option.some.inj hlink, ht]
        exact profile_link_ne_nil t hne)
    · obtain ⟨hc, rfl⟩ := mem_if_singleton hi
      obtain ⟨t, ht, _⟩ := str_of_truthy_isText hloc hc
      exact contactItemHtml_fragment _ ⟨t, ht⟩ (fun l hlink => by cases hlink)
  simp only [renderContactInfo, hitems, liftE_ok_bind, hfrag]
  rfl

/-- C6: for every personal_info record (each channel absent, null or a string)
`renderContactInfo` builds one contact item for each present channel among email,
phone, linkedin, github, location, in that order, and writes into the contact
region the fragments of these items in the same order; on any record at all, the
items it builds are the present channels in that order and what it writes is their
fragments in that order; the order of the fields in the record does not matter,
and a record that lists location, phone, email renders email, phone, location. -/
theorem contactItems_fixed_order (kvs : List (String × JSValue))
    (hshape : ∀ k ∈ channels, IsText (fieldOf kvs k)) :
    (∃ items, contactItems (.obj kvs) = .ok items
      ∧ items.map (fun item => item.icon)
          = (channels.filter (fun k => truthy (fieldOf kvs k))).map channelIcon
      ∧ (items.map (fun item => item.icon)).Nodup
      ∧ renderContactInfo (.obj kvs)
          = ⟨[.setHTML "contact-info" (items.map contactFragment).flatten], .ok ()⟩)
    ∧ (∀ (record : List (String × JSValue)) (items : List ContactItem),
        contactItems (.obj record) = .ok items →
        items.map (fun item => item.icon)
          = (channels.filter (fun k => truthy (fieldOf record k))).map channelIcon)
    ∧ (∀ (record : List (String × JSValue)) (items : List ContactItem)
        (fragments : List JSString),
        contactItems (.obj record) = .ok items →
        mapExcept contactItemHtml items = .ok fragments →
        renderContactInfo (.obj record)
          = ⟨[.setHTML "contact-info" fragments.flatten], .ok ()⟩)
    ∧ (∀ kvs2 : List (String × JSValue), kvs2.Perm kvs →
        (kvs2.map (fun kv => kv.1)).Nodup →
        contactItems (.obj kvs2) = contactItems (.obj kvs)
          ∧ renderContactInfo (.obj kvs2) = renderContactInfo (.obj kvs))
    ∧ (contactItems (.obj [("location", .str "London".utf16), ("phone", .str "555 0100".utf16),
          ("email", .str "ada@example.org".utf16)])).map
            (fun items => items.map (fun item => item.icon))
        = .ok ["fas fa-envelope".utf16, "fas fa-phone".utf16,
            "fas fa-map-marker-alt".utf16]
    ∧ renderContactInfo (.obj [("location", .str "London".utf16),
          ("phone", .str "555 0100".utf16), ("email", .str "ada@example.org".utf16)])
        = ⟨[.setHTML "contact-info"
            "\n            <div class=\"contact-item\">\n                <i class=\"fas fa-envelope\"></i>\n                <a href=\"mailto:ada@example.org\" target=\"_blank\" rel=\"noopener\">ada@example.org</a>\n            </div>\n        \n            <div class=\"contact-item\">\n                <i class=\"fas fa-phone\"></i>\n                <a href=\"tel:555 0100\" target=\"_blank\" rel=\"noopener\">555 0100</a>\n            </div>\n        \n            <div class=\"contact-item\">\n                <i class=\"fas fa-map-marker-alt\"></i>\n                <span>London</span>\n            </div>\n        ".utf16],
          .ok ()⟩ := by
  refine ⟨⟨_, contactItems_explicit kvs hshape, ?_, ?_,
    renderContactInfo_explicit kvs hshape _ (contactItems_explicit kvs hshape)⟩,
    contactItems_icons, ?_, ?_, by decide, ?_⟩
  · simp only [channels, List.filter_cons, List.filter_nil]
    split_ifs <;> rfl
  · split_ifs <;>
      simp only [List.map_append, List.map_cons, List.map_nil, List.nil_append,
        List.cons_append, List.append_nil] <;> decide
  · intro record items fragments hitems hfragments
    simp only [renderContactInfo, hitems, liftE_ok_bind, hfragments]
    rfl
  · intro kvs2 hperm hnodup
    have hlook : ∀ k, kvs2.lookup k = kvs.lookup k := fun k => lookup_perm k _ _ hperm hnodup
    have hitems : contactItems (.obj kvs2) = contactItems (.obj kvs) := by
      simp only [contactItems, getProp, hlook]
    exact ⟨hitems, by simp only [renderContactInfo, hitems]⟩
  · set_option maxRecDepth 100000 in rfl

theorem contactItems_fixed_order_witness :
    ∃ items, contactItems (.obj [("phone", .str "555 0100".utf16),
        ("email", .str "ada@example.org".utf16)]) = .ok items
      ∧ items.map (fun item => item.icon)
          = (channels.filter (fun k => truthy (fieldOf [("phone", .str "555 0100".utf16),
              ("email", .str "ada@example.org".utf16)] k))).map channelIcon
      ∧ (items.map (fun item => item.icon)).Nodup
      ∧ renderContactInfo (.obj [("phone", .str "555 0100".utf16),
          ("email", .str "ada@example.org".utf16)])
          = ⟨[.setHTML "contact-info" (items.map contactFragment).flatten], .ok ()⟩ :=
  (contactItems_fixed_order [("phone", .str "555 0100".utf16),
      ("email", .str "ada@example.org".utf16)] (by
    intro k hk
    simp only [channels, List.mem_cons, List.mem_singleton, List.not_mem_nil, or_false] at hk
    rcases hk with rfl | rfl | rfl | rfl | rfl
    · exact Or.inr (Or.inr ⟨_, rfl⟩)
    · exact Or.inr (Or.inr ⟨_, rfl⟩)
    · exact Or.inl rfl
    · exact Or.inl rfl
    · exact Or.inl rfl)).1

theorem filter_if_singleton {α : Type} (c : Prop) [Decidable c] (p : α → Bool) (x : α) :
    (if c then [x] else []).filter p = if c ∧ p x = true then [x] else [] := by
  by_cases hc : c <;> by_cases hp : p x = true <;> simp [hc, hp]

theorem truthy_str_of_ne_nil (v : JSString) (hne : v ≠ []) : truthy (.str v) = true := by
  cases v with
  | nil => exact absurd rfl hne
  | cons c cs => rfl

/-- C9, amended: for every personal_info record (each channel absent, null or a string)
and every non-empty value v of a channel, the one item of the email channel links
to mailto: followed by v, the one item of the phone channel to tel: followed by v,
the one item of linkedin, and of github, to v unchanged when v starts with http and
to https:// followed by v when it does not, and the one item of location has no
link. -/
theorem contactItems_links (kvs : List (String × JSValue))
    (hshape : ∀ k ∈ channels, IsText (fieldOf kvs k)) :
    ∃ items, contactItems (.obj kvs) = .ok items
      ∧ (∀ v, fieldOf kvs "email" = .str v → v ≠ [] →
          items.filter (fun item => item.icon == "fas fa-envelope".utf16)
            = [ContactItem.mk "fas fa-envelope".utf16 (.str v) (some ("mailto:".utf16 ++ v))])
      ∧ (∀ v, fieldOf kvs "phone" = .str v → v ≠ [] →
          items.filter (fun item => item.icon == "fas fa-phone".utf16)
            = [ContactItem.mk "fas fa-phone".utf16 (.str v) (some ("tel:".utf16 ++ v))])
      ∧ (∀ v, fieldOf kvs "linkedin" = .str v → v ≠ [] →
          ("http".utf16 <+: v →
            items.filter (fun item => item.icon == "fab fa-linkedin".utf16)
              = [ContactItem.mk "fab fa-linkedin".utf16 (.str "LinkedIn".utf16) (some v)])
          ∧ (¬ "http".utf16 <+: v →
            items.filter (fun item => item.icon == "fab fa-linkedin".utf16)
              = [ContactItem.mk "fab fa-linkedin".utf16 (.str "LinkedIn".utf16)
                  (some ("https://".utf16 ++ v))]))
      ∧ (∀ v, fieldOf kvs "github" = .str v → v ≠ [] →
          ("http".utf16 <+: v →
            items.filter (fun item => item.icon == "fab fa-github".utf16)
              = [ContactItem.mk "fab fa-github".utf16 (.str "GitHub".utf16) (some v)])
          ∧ (¬ "http".utf16 <+: v →
            items.filter (fun item => item.icon == "fab fa-github".utf16)
              = [ContactItem.mk "fab fa-github".utf16 (.str "GitHub".utf16)
                  (some ("https://".utf16 ++ v))]))
      ∧ (∀ v, fieldOf kvs "location" = .str v → v ≠ [] →
          items.filter (fun item => item.icon == "fas fa-map-marker-alt".utf16)
            = [ContactItem.mk "fas fa-map-marker-alt".utf16 (.str v) none]) := by
  refine ⟨_, contactItems_explicit kvs hshape, ?_, ?_, ?_, ?_, ?_⟩
  · intro v hv hne
    simp only [List.filter_append, filter_if_singleton, hv, truthy_str_of_ne_nil v hne, textOf]
    simp [String.utf16, encodeUtf16]
  · intro v hv hne
    simp only [List.filter_append, filter_if_singleton, hv, truthy_str_of_ne_nil v hne, textOf]
    simp [String.utf16, encodeUtf16]
  · intro v hv hne
    simp only [List.filter_append, filter_if_singleton, hv, truthy_str_of_ne_nil v hne, textOf,
      startsWith, List.isPrefixOf_iff_prefix]
    constructor
    · intro hpre
      simp [String.utf16, encodeUtf16] at hpre
      simp [hpre, String.utf16, encodeUtf16]
    · intro hpre
      simp [String.utf16, encodeUtf16] at hpre
      simp [hpre, String.utf16, encodeUtf16]
  · intro v hv hne
    simp only [List.filter_append, filter_if_singleton, hv, truthy_str_of_ne_nil v hne, textOf,
      startsWith, List.isPrefixOf_iff_prefix]
    constructor
    · intro hpre
      simp [String.utf16, encodeUtf16] at hpre
      simp [hpre, String.utf16, encodeUtf16]
    · intro hpre
      simp [String.utf16, encodeUtf16] at hpre
      simp [hpre, String.utf16, encodeUtf16]
  · intro v hv hne
    simp only [List.filter_append, filter_if_singleton, hv, truthy_str_of_ne_nil v hne, textOf]
    simp [String.utf16, encodeUtf16]

theorem contactItems_links_witness :
    ∃ items, contactItems (.obj [("linkedin", .str "linkedin.com/in/ada".utf16)]) = .ok items
      ∧ items.filter (fun item => item.icon == "fab fa-linkedin".utf16)
          = [ContactItem.mk "fab fa-linkedin".utf16 (.str "LinkedIn".utf16)
              (some ("https://".utf16 ++ "linkedin.com/in/ada".utf16))] := by
  obtain ⟨items, hitems, _, _, hlinkedin, _, _⟩ :=
    contactItems_links [("linkedin", .str "linkedin.com/in/ada".utf16)] (by
      intro k hk
      simp only [channels, List.mem_cons, List.mem_singleton, List.not_mem_nil, or_false] at hk
      rcases hk with rfl | rfl | rfl | rfl | rfl
      · exact Or.inl rfl
      · exact Or.inl rfl
      · exact Or.inr (Or.inr ⟨_, rfl⟩)
      · exact Or.inl rfl
      · exact Or.inl rfl)
  exact ⟨items, hitems,
    (hlinkedin "linkedin.com/in/ada".utf16 rfl (by decide)).2 (by decide)⟩

/-- C9 as stated fails: the linkedin value httpbin.org/ada carries no scheme, yet
its link is the value unchanged, not https:// followed by it; and the github value
ftp://example.org/ada carries a scheme, yet its link is https:// followed by it. -/
theorem contactItems_scheme_counterexample :
    hasScheme "httpbin.org/ada".utf16 = false
      ∧ (contactItems (.obj [("linkedin", .str "httpbin.org/ada".utf16)])).map
          (fun items => items.map (fun item => item.link))
        = .ok [some "httpbin.org/ada".utf16]
      ∧ hasScheme "ftp://example.org/ada".utf16 = true
      ∧ (contactItems (.obj [("github", .str "ftp://example.org/ada".utf16)])).map
          (fun items => items.map (fun item => item.link))
        = .ok [some "https://ftp://example.org/ada".utf16] := by
  decide

/-! ## Sections without entries -/

/-- C8: for every document whose experience field is absent or the empty sequence,
`renderExperience` writes exactly the fixed placeholder paragraph into the
experience region, and the paragraph holds no experience-item markup; the same
holds for education, skills, projects, certifications and languages, each with its
own placeholder. -/
theorem empty_sections_render_placeholder (h : Host) (kvs : List (String × JSValue)) :
    ((kvs.lookup "experience" = none ∨ kvs.lookup "experience" = some (.arr [])) →
        renderExperience (.obj kvs)
          = ⟨[.setHTML "experience-list"
              "<p style=\"text-align: center; color: #666; padding: 40px;\">No experience information available.</p>".utf16],
            .ok ()⟩)
      ∧ ¬ ("experience-item".utf16 <:+:
          "<p style=\"text-align: center; color: #666; padding: 40px;\">No experience information available.</p>".utf16)
      ∧ ((kvs.lookup "education" = none ∨ kvs.lookup "education" = some (.arr [])) →
        renderEducation (.obj kvs)
          = ⟨[.setHTML "education-list"
              "<p style=\"text-align: center; color: #666; padding: 40px;\">No education information available.</p>".utf16],
            .ok ()⟩)
      ∧ ¬ ("education-item".utf16 <:+:
          "<p style=\"text-align: center; color: #666; padding: 40px;\">No education information available.</p>".utf16)
      ∧ ((kvs.lookup "skills" = none ∨ kvs.lookup "skills" = some (.arr [])) →
        renderSkills h (.obj kvs)
          = ⟨[.setHTML "skills-grid"
              "<p style=\"text-align: center; color: #666; padding: 40px;\">No skills information available.</p>".utf16],
            .ok ()⟩)
      ∧ ¬ ("skill-category".utf16 <:+:
          "<p style=\"text-align: center; color: #666; padding: 40px;\">No skills information available.</p>".utf16)
      ∧ ((kvs.lookup "projects" = none ∨ kvs.lookup "projects" = some (.arr [])) →
        renderProjects (.obj kvs)
          = ⟨[.setHTML "projects-grid"
              "<p style=\"text-align: center; color: #666; padding: 40px;\">No projects information available.</p>".utf16],
            .ok ()⟩)
      ∧ ¬ ("project-item".utf16 <:+:
          "<p style=\"text-align: center; color: #666; padding: 40px;\">No projects information available.</p>".utf16)
      ∧ ((kvs.lookup "certifications" = none ∨ kvs.lookup "certifications" = some (.arr [])) →
        renderCertifications (.obj kvs)
          = ⟨[.setHTML "certifications-list"
              "<p style=\"text-align: center; color: #666; padding: 40px;\">No certifications available.</p>".utf16],
            .ok ()⟩)
      ∧ ¬ ("certification-item".utf16 <:+:
          "<p style=\"text-align: center; color: #666; padding: 40px;\">No certifications available.</p>".utf16)
      ∧ ((kvs.lookup "languages" = none ∨ kvs.lookup "languages" = some (.arr [])) →
        renderLanguages (.obj kvs)
          = ⟨[.setHTML "languages-list"
              "<p style=\"text-align: center; color: #666; padding: 40px;\">No languages information available.</p>".utf16],
            .ok ()⟩)
      ∧ ¬ ("language-item".utf16 <:+:
          "<p style=\"text-align: center; color: #666; padding: 40px;\">No languages information available.</p>".utf16) := by
  refine ⟨?_, ?_, ?_, ?_, ?_, ?_, ?_, ?_, ?_, ?_, ?_, ?_⟩
  · rintro (hlook | hlook) <;> simp only [renderExperience, getProp, hlook] <;>
      (set_option maxRecDepth 100000 in rfl)
  · rw [← includes_iff]
    set_option maxRecDepth 100000 in decide
  · rintro (hlook | hlook) <;> simp only [renderEducation, getProp, hlook] <;>
      (set_option maxRecDepth 100000 in rfl)
  · rw [← includes_iff]
    set_option maxRecDepth 100000 in decide
  · rintro (hlook | hlook) <;> simp only [renderSkills, getProp, hlook] <;>
      (set_option maxRecDepth 100000 in rfl)
  · rw [← includes_iff]
    set_option maxRecDepth 100000 in decide
  · rintro (hlook | hlook) <;> simp only [renderProjects, getProp, hlook] <;>
      (set_option maxRecDepth 100000 in rfl)
  · rw [← includes_iff]
    set_option maxRecDepth 100000 in decide
  · rintro (hlook | hlook) <;> simp only [renderCertifications, getProp, hlook] <;>
      (set_option maxRecDepth 100000 in rfl)
  · rw [← includes_iff]
    set_option maxRecDepth 100000 in decide
  · rintro (hlook | hlook) <;> simp only [renderLanguages, getProp, hlook] <;>
      (set_option maxRecDepth 100000 in rfl)
  · rw [← includes_iff]
    set_option maxRecDepth 100000 in decide

theorem empty_sections_render_placeholder_witness :
    renderExperience (.obj [("experience", .arr [])])
      = ⟨[.setHTML "experience-list"
          "<p style=\"text-align: center; color: #666; padding: 40px;\">No experience information available.</p>".utf16],
        .ok ()⟩ :=
  (empty_sections_render_placeholder sampleHost [("experience", .arr [])]).1 (Or.inr rfl)

/-! ## Loading, rendering and visibility -/

theorem bind_result_ok {α β : Type} (x : Eff α) (f : α → Eff β) (b : β) :
    (x >>= f).result = .ok b ↔ ∃ a, x.result = .ok a ∧ (f a).result = .ok b := by
  obtain ⟨ev, res⟩ := x
  cases res with
  | error e =>
    constructor
    · intro hres; exact absurd hres (by simp [bind, Eff.andThen])
    · rintro ⟨a, ha, _⟩; exact absurd ha (by simp)
  | ok a =>
    constructor
    · intro hres; exact ⟨a, rfl, hres⟩
    · rintro ⟨a2, ha, hb⟩
      cases ha
      exact hb

theorem seq_result_ok (x : Eff Unit) (y : Eff Unit) :
    (x >>= fun _ => y).result = .ok () ↔ x.result = .ok () ∧ y.result = .ok () := by
  rw [bind_result_ok]
  constructor
  · rintro ⟨_, hx, hy⟩; exact ⟨hx, hy⟩
  · rintro ⟨hx, hy⟩; exact ⟨(), hx, hy⟩

theorem noDisplay_bind {α β : Type} {x : Eff α} {f : α → Eff β} (hx : NoDisplay x)
    (hf : ∀ a, NoDisplay (f a)) : NoDisplay (x >>= f) := by
  obtain ⟨ev, res⟩ := x
  cases res with
  | error e => exact hx
  | ok a =>
    intro e he
    have hmem : e ∈ ev ++ (f a).events := he
    rcases List.mem_append.mp hmem with h1 | h2
    · exact hx e h1
    · exact hf a e h2

theorem noDisplay_liftE {α : Type} (x : Except JSError α) : NoDisplay (liftE x) := by
  intro e he
  exact absurd he (List.not_mem_nil e)

theorem noDisplay_pure {α : Type} (a : α) : NoDisplay (pure a : Eff α) := by
  intro e he
  exact absurd he (List.not_mem_nil e)

theorem noDisplay_setText (id : String) (text : JSString) :
    NoDisplay (emit (.setText id text)) := by
  intro e he
  have heq : e = .setText id text := List.mem_singleton.mp he
  rw [heq]; rfl

theorem noDisplay_setHTML (id : String) (html : JSString) :
    NoDisplay (emit (.setHTML id html)) := by
  intro e he
  have heq : e = .setHTML id html := List.mem_singleton.mp he
  rw [heq]; rfl

theorem noDisplay_setTextContent (id : String) (v : JSValue) :
    NoDisplay (setTextContent id v) := by
  cases v <;>
    first
    | exact noDisplay_setText _ _
    | exact noDisplay_bind (noDisplay_liftE _) (fun _ => noDisplay_setText _ _)

theorem noDisplay_ite {α : Type} (c : Prop) [Decidable c] {x y : Eff α} (hx : NoDisplay x)
    (hy : NoDisplay y) : NoDisplay (if c then x else y) := by
  split_ifs
  · exact hx
  · exact hy

theorem renderContactInfo_noDisplay (personalInfo : JSValue) :
    NoDisplay (renderContactInfo personalInfo) := by
  unfold renderContactInfo
  repeat' first
    | exact noDisplay_liftE _
    | exact noDisplay_setHTML _ _
    | apply noDisplay_bind
    | intro _

theorem renderHeader_noDisplay (h : Host) (data : JSValue) : NoDisplay (renderHeader h data) := by
  unfold renderHeader
  repeat' first
    | exact noDisplay_liftE _
    | exact noDisplay_setHTML _ _
    | exact noDisplay_setText _ _
    | exact noDisplay_setTextContent _ _
    | exact renderContactInfo_noDisplay _
    | exact noDisplay_pure _
    | apply noDisplay_bind
    | apply noDisplay_ite
    | intro _

theorem renderSummary_noDisplay (data : JSValue) : NoDisplay (renderSummary data) := by
  unfold renderSummary
  repeat' first
    | exact noDisplay_liftE _
    | exact noDisplay_setHTML _ _
    | exact noDisplay_setText _ _
    | exact noDisplay_setTextContent _ _
    | exact noDisplay_pure _
    | apply noDisplay_bind
    | apply noDisplay_ite
    | intro _

theorem renderExperience_noDisplay (data : JSValue) : NoDisplay (renderExperience data) := by
  unfold renderExperience
  repeat' first
    | exact noDisplay_liftE _
    | exact noDisplay_setHTML _ _
    | exact noDisplay_setText _ _
    | exact noDisplay_setTextContent _ _
    | exact noDisplay_pure _
    | apply noDisplay_bind
    | apply noDisplay_ite
    | intro _

theorem renderEducation_noDisplay (data : JSValue) : NoDisplay (renderEducation data) := by
  unfold renderEducation
  repeat' first
    | exact noDisplay_liftE _
    | exact noDisplay_setHTML _ _
    | exact noDisplay_setText _ _
    | exact noDisplay_setTextContent _ _
    | exact noDisplay_pure _
    | apply noDisplay_bind
    | apply noDisplay_ite
    | intro _

theorem renderSkills_noDisplay (h : Host) (data : JSValue) : NoDisplay (renderSkills h data) := by
  unfold renderSkills
  repeat' first
    | exact noDisplay_liftE _
    | exact noDisplay_setHTML _ _
    | exact noDisplay_setText _ _
    | exact noDisplay_setTextContent _ _
    | exact noDisplay_pure _
    | apply noDisplay_bind
    | apply noDisplay_ite
    | intro _

theorem renderProjects_noDisplay (data : JSValue) : NoDisplay (renderProjects data) := by
  unfold renderProjects
  repeat' first
    | exact noDisplay_liftE _
    | exact noDisplay_setHTML _ _
    | exact noDisplay_setText _ _
    | exact noDisplay_setTextContent _ _
    | exact noDisplay_pure _
    | apply noDisplay_bind
    | apply noDisplay_ite
    | intro _

theorem renderCertifications_noDisplay (data : JSValue) :
    NoDisplay (renderCertifications data) := by
  unfold renderCertifications
  repeat' first
    | exact noDisplay_liftE _
    | exact noDisplay_setHTML _ _
    | exact noDisplay_setText _ _
    | exact noDisplay_setTextContent _ _
    | exact noDisplay_pure _
    | apply noDisplay_bind
    | apply noDisplay_ite
    | intro _

theorem renderLanguages_noDisplay (data : JSValue) : NoDisplay (renderLanguages data) := by
  unfold renderLanguages
  repeat' first
    | exact noDisplay_liftE _
    | exact noDisplay_setHTML _ _
    | exact noDisplay_setText _ _
    | exact noDisplay_setTextContent _ _
    | exact noDisplay_pure _
    | apply noDisplay_bind
    | apply noDisplay_ite
    | intro _

theorem renderFooter_noDisplay (h : Host) (data : JSValue) : NoDisplay (renderFooter h data) := by
  unfold renderFooter
  repeat' first
    | exact noDisplay_liftE _
    | exact noDisplay_setHTML _ _
    | exact noDisplay_setText _ _
    | exact noDisplay_setTextContent _ _
    | exact noDisplay_pure _
    | apply noDisplay_bind
    | apply noDisplay_ite
    | intro _

theorem renderPortfolio_noDisplay (h : Host) (data : JSValue) :
    NoDisplay (renderPortfolio h data) := by
  unfold renderPortfolio
  apply noDisplay_ite
  · exact noDisplay_liftE _
  · repeat' first
      | exact renderHeader_noDisplay _ _
      | exact renderSummary_noDisplay _
      | exact renderExperience_noDisplay _
      | exact renderEducation_noDisplay _
      | exact renderSkills_noDisplay _ _
      | exact renderProjects_noDisplay _
      | exact renderCertifications_noDisplay _
      | exact renderLanguages_noDisplay _
      | exact renderFooter_noDisplay _ _
      | apply noDisplay_bind
      | intro _

theorem renderPortfolio_result_ok (h : Host) (data : JSValue) :
    (renderPortfolio h data).result = .ok () ↔ truthy data = true ∧ AllRendersOk h data := by
  unfold renderPortfolio AllRendersOk
  by_cases hd : truthy data = true
  · simp only [hd, Bool.not_true, Bool.false_eq_true, if_false, true_and, seq_result_ok]
  · simp only [hd, Bool.not_eq_true] at hd ⊢
    simp [hd, liftE]

theorem displayAfter_append_noDisplay (pre post : List DomEvent) (id : String)
    (hpre : ∀ e ∈ pre, isDisplayWrite e = false) :
    displayAfter (pre ++ post) id = displayAfter post id := by
  unfold displayAfter
  rw [List.foldl_append]
  congr 1
  induction pre with
  | nil => rfl
  | cons e rest ih =>
    have he := hpre e (List.mem_cons_self e rest)
    have hrest := ih (fun x hx => hpre x (List.mem_cons_of_mem e hx))
    cases e with
    | setDisplay id2 value => exact absurd he (by simp [isDisplayWrite])
    | setText id2 text => exact hrest
    | setHTML id2 html => exact hrest
    | consoleError label err => exact hrest

theorem not_writesDisplay_of_noDisplay (pre post : List DomEvent) (id : String)
    (hpre : ∀ e ∈ pre, isDisplayWrite e = false) (hpost : ¬ WritesDisplay post id) :
    ¬ WritesDisplay (pre ++ post) id := by
  rintro ⟨value, hmem⟩
  rcases List.mem_append.mp hmem with h1 | h2
  · exact absurd (hpre _ h1) (by simp [isDisplayWrite])
  · exact hpost ⟨value, h2⟩

theorem init_of_loaded (h : Host) (status : Nat) (data : JSValue) :
    init h (.response true status (some data))
      = tryCatch (renderPortfolio h data >>= fun _ => hideLoading)
          (fun error => emit (.consoleError "Error loading portfolio:" error)
            >>= fun _ => showError) := rfl

theorem init_render_ok (h : Host) (status : Nat) (data : JSValue)
    (hok : (renderPortfolio h data).result = .ok ()) :
    (init h (.response true status (some data))).events
        = (renderPortfolio h data).events
          ++ [.setDisplay "loading" "none", .setDisplay "portfolio-content" "block"]
      ∧ (init h (.response true status (some data))).result = .ok () := by
  rw [init_of_loaded]
  generalize renderPortfolio h data = run at hok
  obtain ⟨ev, res⟩ := run
  cases hok
  exact ⟨rfl, rfl⟩

theorem init_render_error (h : Host) (status : Nat) (data : JSValue) (err : JSError)
    (herr : (renderPortfolio h data).result = .error err) :
    (init h (.response true status (some data))).events
        = (renderPortfolio h data).events
          ++ [.consoleError "Error loading portfolio:" err, .setDisplay "loading" "none",
            .setDisplay "error" "block"]
      ∧ (init h (.response true status (some data))).result = .ok () := by
  rw [init_of_loaded]
  generalize renderPortfolio h data = run at herr
  obtain ⟨ev, res⟩ := run
  cases herr
  exact ⟨rfl, rfl⟩

theorem init_load_failure (h : Host) (fetch : FetchOutcome)
    (hfail : fetch = .rejected ∨ (∃ status body, fetch = .response false status body)
      ∨ (∃ status, fetch = .response true status none)) :
    ∃ err, (init h fetch).events
        = [.consoleError "Failed to load resume data:" err,
            .consoleError "Error loading portfolio:" err, .setDisplay "loading" "none",
            .setDisplay "error" "block"]
      ∧ (init h fetch).result = .ok () := by
  rcases hfail with rfl | ⟨status, body, rfl⟩ | ⟨status, rfl⟩
  · exact ⟨_, rfl, rfl⟩
  · exact ⟨_, rfl, rfl⟩
  · exact ⟨_, rfl, rfl⟩

theorem error_state_of_events (pre : List DomEvent) (errs : List DomEvent)
    (hpre : ∀ e ∈ pre, isDisplayWrite e = false)
    (herrs : ∀ e ∈ errs, isDisplayWrite e = false) :
    displayAfter (pre ++ (errs ++ [.setDisplay "loading" "none", .setDisplay "error" "block"]))
        "loading" = some "none"
      ∧ displayAfter (pre ++ (errs ++ [.setDisplay "loading" "none",
          .setDisplay "error" "block"])) "error" = some "block"
      ∧ ¬ WritesDisplay (pre ++ (errs ++ [.setDisplay "loading" "none",
          .setDisplay "error" "block"])) "portfolio-content" := by
  refine ⟨?_, ?_, ?_⟩
  · rw [displayAfter_append_noDisplay _ _ _ hpre, displayAfter_append_noDisplay _ _ _ herrs]
    rfl
  · rw [displayAfter_append_noDisplay _ _ _ hpre, displayAfter_append_noDisplay _ _ _ herrs]
    rfl
  · apply not_writesDisplay_of_noDisplay _ _ _ hpre
    apply not_writesDisplay_of_noDisplay _ _ _ herrs
    rintro ⟨value, hmem⟩
    simp at hmem

/-- C5: `init` always returns. When the response is not OK, the body does not
parse, the fetch is rejected or `renderPortfolio` raises, the page ends with the
loading indicator set to none and the error region set to block, and no write sets
the display of the content region; the display of the content region is written
exactly when the document was loaded, is truthy, and all nine render procedures
returned. With status 404 the writes are the two console messages, loading to
none, error to block. -/
theorem init_visibility (h : Host) (fetch : FetchOutcome) :
    (init h fetch).result = .ok ()
      ∧ ((fetch = .rejected ∨ (∃ status body, fetch = .response false status body)
            ∨ (∃ status, fetch = .response true status none)
            ∨ (∃ status data, fetch = .response true status (some data)
                ∧ (renderPortfolio h data).result ≠ .ok ())) →
          displayAfter (init h fetch).events "loading" = some "none"
            ∧ displayAfter (init h fetch).events "error" = some "block"
            ∧ ¬ WritesDisplay (init h fetch).events "portfolio-content")
      ∧ (WritesDisplay (init h fetch).events "portfolio-content" ↔
          ∃ status data, fetch = .response true status (some data)
            ∧ truthy data = true ∧ AllRendersOk h data)
      ∧ (∀ body, (init h (.response false 404 body)).events
          = [.consoleError "Failed to load resume data:"
                (.error "HTTP error! status: 404".utf16),
              .consoleError "Error loading portfolio:"
                (.error "HTTP error! status: 404".utf16),
              .setDisplay "loading" "none", .setDisplay "error" "block"]) := by
  have hnil : ∀ e ∈ ([] : List DomEvent), isDisplayWrite e = false :=
    fun e he => absurd he (List.not_mem_nil e)
  have hloadFail : (fetch = .rejected ∨ (∃ status body, fetch = .response false status body)
      ∨ (∃ status, fetch = .response true status none)) →
      (init h fetch).result = .ok ()
        ∧ displayAfter (init h fetch).events "loading" = some "none"
        ∧ displayAfter (init h fetch).events "error" = some "block"
        ∧ ¬ WritesDisplay (init h fetch).events "portfolio-content" := by
    intro hfail
    obtain ⟨err, hev, hres⟩ := init_load_failure h fetch hfail
    refine ⟨hres, ?_⟩
    rw [hev]
    exact error_state_of_events [] [.consoleError "Failed to load resume data:" err,
      .consoleError "Error loading portfolio:" err] hnil (by
        intro e he
        simp only [List.mem_cons, List.mem_singleton, List.not_mem_nil, or_false] at he
        rcases he with rfl | rfl <;> rfl)
  have hrenderFail : ∀ status data, (renderPortfolio h data).result ≠ .ok () →
      (init h (.response true status (some data))).result = .ok ()
        ∧ displayAfter (init h (.response true status (some data))).events "loading"
            = some "none"
        ∧ displayAfter (init h (.response true status (some data))).events "error"
            = some "block"
        ∧ ¬ WritesDisplay (init h (.response true status (some data))).events
            "portfolio-content" := by
    intro status data hne
    cases hres : (renderPortfolio h data).result with
    | ok u => exact absurd hres hne
    | error err =>
      obtain ⟨hev, hok⟩ := init_render_error h status data err hres
      refine ⟨hok, ?_⟩
      rw [hev]
      exact error_state_of_events _ [.consoleError "Error loading portfolio:" err]
        (renderPortfolio_noDisplay h data) (by
          intro e he
          rw [List.mem_singleton.mp he]
          rfl)
  refine ⟨?_, ?_, ?_, fun _ => rfl⟩
  · cases fetch with
    | rejected => exact (hloadFail (Or.inl rfl)).1
    | response ok status body =>
      cases ok with
      | false => exact (hloadFail (Or.inr (Or.inl ⟨status, body, rfl⟩))).1
      | true =>
        cases body with
        | none => exact (hloadFail (Or.inr (Or.inr ⟨status, rfl⟩))).1
        | some data =>
          by_cases hres : (renderPortfolio h data).result = .ok ()
          · exact (init_render_ok h status data hres).2
          · exact (hrenderFail status data hres).1
  · rintro (hrej | hbad | hparse | ⟨status, data, rfl, hne⟩)
    · exact (hloadFail (Or.inl hrej)).2
    · exact (hloadFail (Or.inr (Or.inl hbad))).2
    · exact (hloadFail (Or.inr (Or.inr hparse))).2
    · exact (hrenderFail status data hne).2
  · constructor
    · intro hwrites
      cases fetch with
      | rejected => exact absurd hwrites (hloadFail (Or.inl rfl)).2.2.2
      | response ok status body =>
        cases ok with
        | false => exact absurd hwrites (hloadFail (Or.inr (Or.inl ⟨status, body, rfl⟩))).2.2.2
        | true =>
          cases body with
          | none => exact absurd hwrites (hloadFail (Or.inr (Or.inr ⟨status, rfl⟩))).2.2.2
          | some data =>
            by_cases hres : (renderPortfolio h data).result = .ok ()
            · exact ⟨status, data, rfl, (renderPortfolio_result_ok h data).mp hres⟩
            · exact absurd hwrites (hrenderFail status data hres).2.2.2
    · rintro ⟨status, data, rfl, htruthy, hall⟩
      have hres := (renderPortfolio_result_ok h data).mpr ⟨htruthy, hall⟩
      rw [(init_render_ok h status data hres).1]
      exact ⟨"block", by simp⟩

theorem init_visibility_witness :
    displayAfter (init sampleHost (.response false 404 none)).events "loading" = some "none"
      ∧ displayAfter (init sampleHost (.response false 404 none)).events "error" = some "block"
      ∧ ¬ WritesDisplay (init sampleHost (.response false 404 none)).events
          "portfolio-content" :=
  (init_visibility sampleHost (.response false 404 none)).2.1
    (Or.inr (Or.inl ⟨404, none, rfl⟩))

/-! ## Documents on which rendering returns -/

theorem isOk_ok {α : Type} (a : α) : IsOk (Except.ok a : Except JSError α) := ⟨a, rfl⟩

theorem not_isOk_error {α : Type} (e : JSError) :
    ¬ IsOk (Except.error e : Except JSError α) := by
  rintro ⟨a, ha⟩
  cases ha

theorem isOk_map_iff {α β : Type} (x : Except JSError α) (f : α → β) :
    IsOk (x.map f) ↔ IsOk x := by
  cases x with
  | error e => simp [IsOk, Except.map]
  | ok a => simp [IsOk, Except.map]

theorem isOk_bind_iff {α β : Type} (x : Except JSError α) (f : α → Except JSError β) :
    IsOk (x >>= f) ↔ ∃ a, x = .ok a ∧ IsOk (f a) := by
  cases x with
  | error e =>
    constructor
    · intro hok; exact absurd hok (not_isOk_error e)
    · rintro ⟨a, ha, _⟩; cases ha
  | ok a =>
    constructor
    · intro hok; exact ⟨a, rfl, hok⟩
    · rintro ⟨b, hb, hok⟩
      cases hb
      exact hok

theorem isOk_ite_iff {α : Type} (c : Prop) [Decidable c] (x y : Except JSError α) :
    IsOk (if c then x else y) ↔ (c → IsOk x) ∧ (¬ c → IsOk y) := by
  by_cases hc : c <;> simp [hc]

theorem elemStrs_cons_isOk (x : JSValue) (rest : List JSValue) :
    IsOk (elemStrs (x :: rest)) ↔ IsOk (toStr x) ∧ IsOk (elemStrs rest) := by
  cases x with
  | undefined => simp only [elemStrs]; cases elemStrs rest <;> simp [IsOk, toStr]
  | null => simp only [elemStrs]; cases elemStrs rest <;> simp [IsOk, toStr]
  | bool b => simp only [elemStrs]; cases b <;> cases elemStrs rest <;> simp [IsOk, toStr]
  | num n => simp only [elemStrs]; cases elemStrs rest <;> simp [IsOk, toStr]
  | str s => simp only [elemStrs]; cases elemStrs rest <;> simp [IsOk, toStr]
  | arr xs =>
    simp only [elemStrs]
    cases toStr (.arr xs) <;> cases elemStrs rest <;> simp [IsOk]
  | obj kvs =>
    simp only [elemStrs]
    cases toStr (.obj kvs) <;> cases elemStrs rest <;> simp [IsOk]

mutual
theorem isOk_toStr_iff : ∀ v : JSValue, IsOk (toStr v) ↔ printable v = true
  | .undefined => by simp [toStr, printable, IsOk]
  | .null => by simp [toStr, printable, IsOk]
  | .bool true => by simp [toStr, printable, IsOk]
  | .bool false => by simp [toStr, printable, IsOk]
  | .num n => by simp [toStr, printable, IsOk]
  | .str s => by simp [toStr, printable, IsOk]
  | .arr xs => by
    rw [toStr, printable, isOk_map_iff]
    exact isOk_elemStrs_iff xs
  | .obj kvs => by
    rw [toStr, printable]
    cases hasKey "toString" kvs <;> simp [IsOk]
termination_by structural v => v
theorem isOk_elemStrs_iff : ∀ xs : List JSValue, IsOk (elemStrs xs) ↔ printableAll xs = true
  | [] => by simp [elemStrs, printableAll, IsOk]
  | x :: rest => by
    rw [elemStrs_cons_isOk, printableAll, Bool.and_eq_true, isOk_toStr_iff x,
      isOk_elemStrs_iff rest]
termination_by structural xs => xs
end

theorem printableAll_iff (xs : List JSValue) :
    printableAll xs = true ↔ ∀ x ∈ xs, printable x = true := by
  induction xs with
  | nil => simp [printableAll]
  | cons x rest ih => simp [printableAll, ih]

theorem printable_of_falsy {v : JSValue} (hv : truthy v = false) : printable v = true := by
  cases v with
  | arr xs => exact absurd hv (by simp [truthy])
  | obj kvs => exact absurd hv (by simp [truthy])
  | undefined => rfl
  | null => rfl
  | bool b => rfl
  | num n => rfl
  | str s => rfl

theorem printable_orElse (v d : JSValue) (hd : printable d = true) :
    printable (orElse v d) = printable v := by
  unfold orElse
  by_cases hv : truthy v = true
  · rw [if_pos hv]
  · rw [if_neg hv, hd, printable_of_falsy (by simpa using hv)]

theorem truthy_imp_printable (v : JSValue) :
    (truthy v = true → printable v = true) ↔ printable v = true := by
  constructor
  · intro himp
    by_cases hv : truthy v = true
    · exact himp hv
    · exact printable_of_falsy (by simpa using hv)
  · intro hp _; exact hp

theorem isOk_mapExcept_iff {α β : Type} (f : α → Except JSError β) (xs : List α) :
    IsOk (mapExcept f xs) ↔ ∀ x ∈ xs, IsOk (f x) := by
  induction xs with
  | nil => simp [mapExcept, IsOk]
  | cons x rest ih =>
    simp only [List.mem_cons, forall_eq_or_imp, ← ih]
    cases hx : f x with
    | error e => simp [mapExcept, hx, IsOk]
    | ok y =>
      cases hrest : mapExcept f rest with
      | error e => simp [mapExcept, hx, hrest, IsOk]
      | ok ys => simp [mapExcept, hx, hrest, IsOk]

theorem isOk_mapJoin_iff (v : JSValue) (f : JSValue → Except JSError JSString) :
    IsOk (mapJoin v f) ↔ ∃ xs, v = .arr xs ∧ ∀ x ∈ xs, IsOk (f x) := by
  cases v with
  | arr xs =>
    simp only [mapJoin, isOk_map_iff, isOk_mapExcept_iff]
    constructor
    · intro hall; exact ⟨xs, rfl, hall⟩
    · rintro ⟨ys, hys, hall⟩
      cases hys
      exact hall
  | undefined => simp [mapJoin, IsOk]
  | null => simp [mapJoin, IsOk]
  | bool b => simp [mapJoin, IsOk]
  | num n => simp [mapJoin, IsOk]
  | str s => simp [mapJoin, IsOk]
  | obj kvs => simp [mapJoin, IsOk]

theorem isOk_formatDescription_iff (d : JSValue) :
    IsOk ((formatDescription d).bind toStr) ↔ printable d = true := by
  cases d with
  | undefined => simp [formatDescription, Except.bind, toStr, printable, IsOk]
  | null => simp [formatDescription, Except.bind, toStr, printable, IsOk]
  | bool b => cases b <;> simp [formatDescription, Except.bind, toStr, printable, IsOk]
  | num n => simp [formatDescription, Except.bind, toStr, printable, IsOk]
  | str s => simp [formatDescription, Except.bind, toStr, printable, IsOk]
  | obj kvs =>
    have hfd : formatDescription (.obj kvs) = .ok (.obj kvs) := rfl
    rw [hfd]
    exact isOk_toStr_iff (.obj kvs)
  | arr items =>
    rw [printable, printableAll_iff]
    have hmap := isOk_mapExcept_iff
      (fun item => (toStr item).map (fun s => "<li>".utf16 ++ s ++ "</li>".utf16)) items
    simp only [isOk_map_iff, isOk_toStr_iff] at hmap
    rw [← hmap]
    simp only [formatDescription]
    cases mapExcept (fun item => (toStr item).map
        (fun s => "<li>".utf16 ++ s ++ "</li>".utf16)) items with
    | error e => simp [Except.bind, IsOk]
    | ok lis => simp [Except.bind, toStr, IsOk]

theorem getProp_of_not_nullish {x : JSValue} (hx : isNullish x = false) (k : String) :
    getProp x k = .ok (propOf x k) := by
  cases x with
  | undefined => exact absurd hx (by simp [isNullish])
  | null => exact absurd hx (by simp [isNullish])
  | bool b => rfl
  | num n => rfl
  | str s => rfl
  | arr xs => rfl
  | obj kvs => rfl

theorem isOk_pure_iff {α : Type} (a : α) : IsOk (pure a : Except JSError α) ↔ True :=
  ⟨fun _ => trivial, fun _ => ⟨a, rfl⟩⟩

theorem exists_eq_ok_iff {α : Type} (x : Except JSError α) : (∃ a, x = .ok a) ↔ IsOk x :=
  Iff.rfl

theorem isOk_toStr_orElse_iff (v : JSValue) (d : JSString) :
    IsOk (toStr (orElse v (.str d))) ↔ printable v = true := by
  rw [isOk_toStr_iff, printable_orElse v (.str d) rfl]

theorem isOk_if_toStr_map_iff {β : Type} (v : JSValue) (f : JSString → β) (d : β) :
    IsOk (if truthy v = true then (toStr v).map f else pure d) ↔ printable v = true := by
  rw [isOk_ite_iff, isOk_map_iff, isOk_toStr_iff, isOk_pure_iff]
  simp only [implies_true, and_true]
  exact truthy_imp_printable v

theorem isOk_if_description_iff (v : JSValue) (d : JSString) :
    IsOk (if truthy v = true then (formatDescription v).bind toStr else pure d)
      ↔ printable v = true := by
  rw [isOk_ite_iff, isOk_formatDescription_iff, isOk_pure_iff]
  simp only [implies_true, and_true]
  exact truthy_imp_printable v

theorem not_isOk_of_nullish_getProp {α : Type} {x : JSValue} (hx : isNullish x = true)
    (k : String) (f : JSValue → Except JSError α) : ¬ IsOk (getProp x k >>= f) := by
  cases x with
  | undefined => exact not_isOk_error _
  | null => exact not_isOk_error _
  | bool b => exact absurd hx (by simp [isNullish])
  | num n => exact absurd hx (by simp [isNullish])
  | str s => exact absurd hx (by simp [isNullish])
  | arr xs => exact absurd hx (by simp [isNullish])
  | obj kvs => exact absurd hx (by simp [isNullish])

theorem isOk_experienceItemHtml_iff (x : JSValue) :
    IsOk (experienceItemHtml x) ↔ experienceEntryOk x = true := by
  cases hx : isNullish x with
  | true =>
    simp only [experienceEntryOk, hx, Bool.not_true, Bool.false_and, Bool.false_eq_true,
      iff_false]
    exact not_isOk_of_nullish_getProp hx _ _
  | false =>
    simp only [experienceItemHtml, getProp_of_not_nullish hx, ok_bind, isOk_bind_iff,
      isOk_pure_iff, and_true, exists_eq_ok_iff, isOk_toStr_orElse_iff,
      isOk_if_toStr_map_iff, isOk_if_description_iff, exists_and_right, exists_const,
      experienceEntryOk, hx, Bool.not_false, Bool.true_and, Bool.and_eq_true, and_assoc,
      true_and]

theorem isOk_educationItemHtml_iff (x : JSValue) :
    IsOk (educationItemHtml x) ↔ educationEntryOk x = true := by
  cases hx : isNullish x with
  | true =>
    simp only [educationEntryOk, hx, Bool.not_true, Bool.false_and, Bool.false_eq_true,
      iff_false]
    exact not_isOk_of_nullish_getProp hx _ _
  | false =>
    simp only [educationItemHtml, getProp_of_not_nullish hx, ok_bind, isOk_bind_iff,
      isOk_pure_iff, and_true, exists_eq_ok_iff, isOk_toStr_orElse_iff,
      isOk_if_toStr_map_iff, isOk_if_description_iff, exists_and_right, exists_const,
      educationEntryOk, hx, Bool.not_false, Bool.true_and, Bool.and_eq_true, and_assoc,
      true_and]

theorem isOk_projectItemHtml_iff (x : JSValue) :
    IsOk (projectItemHtml x) ↔ projectEntryOk x = true := by
  cases hx : isNullish x with
  | true =>
    simp only [projectEntryOk, hx, Bool.not_true, Bool.false_and, Bool.false_eq_true,
      iff_false]
    exact not_isOk_of_nullish_getProp hx _ _
  | false =>
    simp only [projectItemHtml, getProp_of_not_nullish hx, ok_bind, isOk_bind_iff,
      isOk_pure_iff, and_true, exists_eq_ok_iff, isOk_toStr_orElse_iff,
      isOk_if_toStr_map_iff, isOk_if_description_iff, exists_and_right, exists_const,
      projectEntryOk, hx, Bool.not_false, Bool.true_and, Bool.and_eq_true, and_assoc,
      true_and]

theorem getProp_obj (kvs : List (String × JSValue)) (k : String) :
    getProp (.obj kvs) k = .ok (fieldOf kvs k) := rfl

theorem getProp_arr_length (xs : List JSValue) :
    getProp (.arr xs) "length" = .ok (.num (JSNumber.ofNat xs.length)) := by
  simp [getProp]

theorem strictEqZero_length_cons (x : JSValue) (xs : List JSValue) :
    strictEqZero (.num (JSNumber.ofNat (x :: xs).length)) = false := by
  simp only [strictEqZero, JSNumber.ofNat, List.length_cons, beq_eq_false_iff_ne, ne_eq]
  omega

theorem result_liftE_bind_iff {α β : Type} (x : Except JSError α) (f : α → Eff β) (b : β) :
    (liftE x >>= f).result = .ok b ↔ ∃ a, x = .ok a ∧ (f a).result = .ok b := by
  rw [bind_result_ok]
  rfl

theorem result_emit_bind {β : Type} (e : DomEvent) (f : Unit → Eff β) :
    (emit e >>= f).result = (f ()).result := rfl

theorem result_emit (e : DomEvent) : (emit e).result = .ok () := rfl

theorem result_liftE_emit_iff {α : Type} (x : Except JSError α) (g : α → DomEvent) :
    (liftE x >>= fun a => emit (g a)).result = .ok () ↔ IsOk x := by
  rw [result_liftE_bind_iff]
  simp only [result_emit, and_true]
  rfl

theorem result_setTextContent_iff (id : String) (v : JSValue) :
    (setTextContent id v).result = .ok () ↔ printable v = true := by
  cases v with
  | undefined => simp [setTextContent, emit, printable]
  | null => simp [setTextContent, emit, printable]
  | bool b =>
    simp only [setTextContent, result_liftE_emit_iff, isOk_toStr_iff]
  | num n =>
    simp only [setTextContent, result_liftE_emit_iff, isOk_toStr_iff]
  | str s =>
    simp only [setTextContent, result_liftE_emit_iff, isOk_toStr_iff]
  | arr xs =>
    simp only [setTextContent, result_liftE_emit_iff, isOk_toStr_iff]
  | obj kvs =>
    simp only [setTextContent, result_liftE_emit_iff, isOk_toStr_iff]

theorem result_setTextContent_bind_iff {β : Type} (id : String) (v : JSValue)
    (f : Unit → Eff β) (b : β) :
    (setTextContent id v >>= f).result = .ok b
      ↔ printable v = true ∧ (f ()).result = .ok b := by
  rw [bind_result_ok, ← result_setTextContent_iff id v]
  constructor
  · rintro ⟨u, hu, hf⟩; exact ⟨hu, hf⟩
  · rintro ⟨hu, hf⟩; exact ⟨(), hu, hf⟩

theorem orElse_of_truthy {v d : JSValue} (hv : truthy v = true) : orElse v d = v := by
  unfold orElse
  rw [if_pos hv]

theorem orElse_of_falsy {v d : JSValue} (hv : truthy v = false) : orElse v d = d := by
  unfold orElse
  rw [if_neg (by simp [hv])]

theorem strictEqZero_length_str (s : JSString) (hs : truthy (.str s) = true) :
    strictEqZero (.num (JSNumber.ofNat s.length)) = false := by
  cases s with
  | nil => exact absurd hs (by simp [truthy])
  | cons u us =>
    simp only [strictEqZero, JSNumber.ofNat, List.length_cons, beq_eq_false_iff_ne, ne_eq]
    omega

/-- A list section returns exactly on the fields of the shape `sectionShape`. -/
theorem section_result_iff (v : JSValue) (region : String) (message : JSString)
    (f : JSValue → Except JSError JSString) (entryOk : JSValue → Bool)
    (hf : ∀ x, IsOk (f x) ↔ entryOk x = true) :
    (liftE (getProp (orElse v (.arr [])) "length") >>= fun len =>
        if strictEqZero len = true then emit (.setHTML region message)
        else liftE (mapJoin (orElse v (.arr [])) f) >>= fun html =>
          emit (.setHTML region html)).result = .ok ()
      ↔ sectionShape entryOk v = true := by
  by_cases hv : truthy v = true
  · rw [orElse_of_truthy hv]
    cases v with
    | undefined => exact absurd hv (by simp [truthy])
    | null => exact absurd hv (by simp [truthy])
    | bool b =>
      have hget : getProp (.bool b) "length" = .ok .undefined := rfl
      simp [hget, liftE_ok_bind, strictEqZero, result_liftE_emit_iff, isOk_mapJoin_iff,
        sectionShape, hv]
    | num n =>
      have hget : getProp (.num n) "length" = .ok .undefined := rfl
      simp [hget, liftE_ok_bind, strictEqZero, result_liftE_emit_iff, isOk_mapJoin_iff,
        sectionShape, hv]
    | str s =>
      have hget : getProp (.str s) "length" = .ok (.num (JSNumber.ofNat s.length)) := by
        simp [getProp]
      simp [hget, liftE_ok_bind, strictEqZero_length_str s hv, result_liftE_emit_iff,
        isOk_mapJoin_iff, sectionShape, hv]
    | arr xs =>
      cases xs with
      | nil => simp [getProp_arr_length, liftE_ok_bind, strictEqZero, JSNumber.ofNat,
          result_emit, sectionShape]
      | cons x rest =>
        simp only [getProp_arr_length, liftE_ok_bind, strictEqZero_length_cons,
          Bool.false_eq_true, if_false, result_liftE_emit_iff, isOk_mapJoin_iff, hf,
          sectionShape, hv, Bool.not_true, Bool.false_or, List.all_eq_true]
        constructor
        · rintro ⟨ys, hys, hall⟩
          cases hys
          exact hall
        · intro hall
          exact ⟨_, rfl, hall⟩
    | obj kvs =>
      have hget : getProp (.obj kvs) "length" = .ok (fieldOf kvs "length") := rfl
      by_cases hz : strictEqZero (fieldOf kvs "length") = true
      · simp [hget, liftE_ok_bind, hz, result_emit, sectionShape]
      · simp [hget, liftE_ok_bind, hz, result_liftE_emit_iff, isOk_mapJoin_iff, sectionShape,
          hv]
  · have hfalse : truthy v = false := by simpa using hv
    rw [orElse_of_falsy hfalse]
    simp [getProp_arr_length, liftE_ok_bind, strictEqZero, JSNumber.ofNat, result_emit,
      sectionShape, hfalse]

theorem renderExperience_result_iff (kvs : List (String × JSValue)) :
    (renderExperience (.obj kvs)).result = .ok ()
      ↔ sectionShape experienceEntryOk (fieldOf kvs "experience") = true := by
  simp only [renderExperience, getProp_obj, liftE_ok_bind]
  exact section_result_iff _ _ _ _ _ isOk_experienceItemHtml_iff

theorem renderEducation_result_iff (kvs : List (String × JSValue)) :
    (renderEducation (.obj kvs)).result = .ok ()
      ↔ sectionShape educationEntryOk (fieldOf kvs "education") = true := by
  simp only [renderEducation, getProp_obj, liftE_ok_bind]
  exact section_result_iff _ _ _ _ _ isOk_educationItemHtml_iff

theorem renderProjects_result_iff (kvs : List (String × JSValue)) :
    (renderProjects (.obj kvs)).result = .ok ()
      ↔ sectionShape projectEntryOk (fieldOf kvs "projects") = true := by
  simp only [renderProjects, getProp_obj, liftE_ok_bind]
  exact section_result_iff _ _ _ _ _ isOk_projectItemHtml_iff

theorem renderCertifications_result_iff (kvs : List (String × JSValue)) :
    (renderCertifications (.obj kvs)).result = .ok ()
      ↔ sectionShape printable (fieldOf kvs "certifications") = true := by
  simp only [renderCertifications, getProp_obj, liftE_ok_bind]
  exact section_result_iff _ _ _ _ _
    (fun x => (isOk_map_iff _ _).trans (isOk_toStr_iff x))

theorem renderLanguages_result_iff (kvs : List (String × JSValue)) :
    (renderLanguages (.obj kvs)).result = .ok ()
      ↔ sectionShape printable (fieldOf kvs "languages") = true := by
  simp only [renderLanguages, getProp_obj, liftE_ok_bind]
  exact section_result_iff _ _ _ _ _
    (fun x => (isOk_map_iff _ _).trans (isOk_toStr_iff x))

theorem renderSummary_result_iff (kvs : List (String × JSValue)) :
    (renderSummary (.obj kvs)).result = .ok ()
      ↔ printable (fieldOf kvs "summary") = true := by
  simp only [renderSummary, getProp_obj, liftE_ok_bind, result_setTextContent_iff]
  rw [printable_orElse _ (.str "No summary available.".utf16) rfl]

/-- A list section whose non-empty branch is `body` returns exactly on the fields of
the shape `sectionShape`, when `body` returns exactly on the arrays whose entries
satisfy `entryOk`. -/
theorem section_body_result_iff (v : JSValue) (region : String) (message : JSString)
    (body : JSValue → Eff Unit) (entryOk : JSValue → Bool)
    (hbody : ∀ w, (body w).result = .ok () ↔ ∃ xs, w = .arr xs ∧ ∀ x ∈ xs, entryOk x = true) :
    (liftE (getProp (orElse v (.arr [])) "length") >>= fun len =>
        if strictEqZero len = true then emit (.setHTML region message)
        else body (orElse v (.arr []))).result = .ok ()
      ↔ sectionShape entryOk v = true := by
  by_cases hv : truthy v = true
  · rw [orElse_of_truthy hv]
    cases v with
    | undefined => exact absurd hv (by simp [truthy])
    | null => exact absurd hv (by simp [truthy])
    | bool b =>
      have hget : getProp (.bool b) "length" = .ok .undefined := rfl
      simp [hget, liftE_ok_bind, strictEqZero, hbody, sectionShape, hv]
    | num n =>
      have hget : getProp (.num n) "length" = .ok .undefined := rfl
      simp [hget, liftE_ok_bind, strictEqZero, hbody, sectionShape, hv]
    | str s =>
      have hget : getProp (.str s) "length" = .ok (.num (JSNumber.ofNat s.length)) := by
        simp [getProp]
      simp [hget, liftE_ok_bind, strictEqZero_length_str s hv, hbody, sectionShape, hv]
    | arr xs =>
      cases xs with
      | nil => simp [getProp_arr_length, liftE_ok_bind, strictEqZero, JSNumber.ofNat,
          result_emit, sectionShape]
      | cons x rest =>
        simp only [getProp_arr_length, liftE_ok_bind, strictEqZero_length_cons,
          Bool.false_eq_true, if_false, hbody, sectionShape, hv, Bool.not_true,
          Bool.false_or, List.all_eq_true]
        constructor
        · rintro ⟨ys, hys, hall⟩
          cases hys
          exact hall
        · intro hall
          exact ⟨_, rfl, hall⟩
    | obj kvs =>
      have hget : getProp (.obj kvs) "length" = .ok (fieldOf kvs "length") := rfl
      by_cases hz : strictEqZero (fieldOf kvs "length") = true
      · simp [hget, liftE_ok_bind, hz, result_emit, sectionShape]
      · simp [hget, liftE_ok_bind, hz, hbody, sectionShape, hv]
  · have hfalse : truthy v = false := by simpa using hv
    rw [orElse_of_falsy hfalse]
    simp [getProp_arr_length, liftE_ok_bind, strictEqZero, JSNumber.ofNat, result_emit,
      sectionShape, hfalse]

theorem strings_of_isString (l : List JSValue) (hall : ∀ y ∈ l, isString y = true) :
    ∃ ss : List JSString, l = ss.map JSValue.str := by
  induction l with
  | nil => exact ⟨[], rfl⟩
  | cons x rest ih =>
    obtain ⟨ss, hss⟩ := ih (fun y hy => hall y (List.mem_cons_of_mem x hy))
    have hx := hall x (List.mem_cons_self x rest)
    cases x with
    | str s => exact ⟨s :: ss, by rw [hss]; rfl⟩
    | undefined => exact absurd hx (by simp [isString])
    | null => exact absurd hx (by simp [isString])
    | bool b => exact absurd hx (by simp [isString])
    | num n => exact absurd hx (by simp [isString])
    | arr xs => exact absurd hx (by simp [isString])
    | obj kvs => exact absurd hx (by simp [isString])

theorem categorizeStep_isOk_iff (h : Host) (categories : Categories) (x : JSValue) :
    IsOk (categorizeStep h categories x) ↔ isString x = true := by
  cases x with
  | str s => simp [categorizeStep_str, IsOk, isString]
  | undefined => simp [categorizeStep, IsOk, isString]
  | null => simp [categorizeStep, IsOk, isString]
  | bool b => simp [categorizeStep, IsOk, isString]
  | num n => simp [categorizeStep, IsOk, isString]
  | arr xs => simp [categorizeStep, IsOk, isString]
  | obj kvs => simp [categorizeStep, IsOk, isString]

theorem categorizeLoop_isOk_iff (h : Host) (xs : List JSValue) :
    ∀ categories, IsOk (categorizeLoop h categories xs) ↔ ∀ x ∈ xs, isString x = true := by
  induction xs with
  | nil => intro categories; simp [categorizeLoop, IsOk]
  | cons x rest ih =>
    intro categories
    simp only [List.mem_cons, forall_eq_or_imp, ← categorizeStep_isOk_iff h categories x]
    cases hstep : categorizeStep h categories x with
    | error e => simp [categorizeLoop, hstep, IsOk]
    | ok categories2 =>
      simp only [categorizeLoop, hstep, ih categories2, isOk_ok, true_and]

theorem categorizeSkills_isOk_iff (h : Host) (v : JSValue) :
    IsOk (categorizeSkills h v) ↔ ∃ xs, v = .arr xs ∧ ∀ x ∈ xs, isString x = true := by
  cases v with
  | arr xs =>
    have hloop := categorizeLoop_isOk_iff h xs initialCategories
    have hskills : IsOk (categorizeSkills h (.arr xs))
        ↔ IsOk (categorizeLoop h initialCategories xs) := by
      simp only [categorizeSkills]
      cases categorizeLoop h initialCategories xs with
      | error e => simp [IsOk]
      | ok categories => simp [IsOk]
    rw [hskills, hloop]
    constructor
    · intro hall; exact ⟨xs, rfl, hall⟩
    · rintro ⟨ys, hys, hall⟩
      cases hys
      exact hall
  | undefined => simp [categorizeSkills, IsOk]
  | null => simp [categorizeSkills, IsOk]
  | bool b => simp [categorizeSkills, IsOk]
  | num n => simp [categorizeSkills, IsOk]
  | str s => simp [categorizeSkills, IsOk]
  | obj kvs => simp [categorizeSkills, IsOk]

theorem isOk_skillCategoryHtml (entry : String × List JSValue)
    (hentry : ∀ v ∈ entry.2, printable v = true) : IsOk (skillCategoryHtml entry) := by
  unfold skillCategoryHtml
  rw [isOk_bind_iff]
  have hmap : IsOk (mapExcept (fun skill => (toStr skill).map
      (fun s => "<span class=\"skill-tag\">".utf16 ++ s ++ "</span>".utf16)) entry.2) := by
    rw [isOk_mapExcept_iff]
    intro v hv
    rw [isOk_map_iff, isOk_toStr_iff]
    exact hentry v hv
  obtain ⟨tags, htags⟩ := hmap
  exact ⟨tags, htags, isOk_ok _⟩

theorem skills_body_result_iff (h : Host) (w : JSValue) :
    (liftE (categorizeSkills h w) >>= fun skillCategories =>
        liftE (mapExcept skillCategoryHtml skillCategories) >>= fun html =>
          emit (.setHTML "skills-grid" html.flatten)).result = .ok ()
      ↔ ∃ xs, w = .arr xs ∧ ∀ x ∈ xs, isString x = true := by
  rw [← categorizeSkills_isOk_iff h w, result_liftE_bind_iff]
  constructor
  · rintro ⟨categories, hcat, _⟩
    exact ⟨categories, hcat⟩
  · intro hok
    obtain ⟨xs, rfl, hall⟩ := (categorizeSkills_isOk_iff h w).mp hok
    obtain ⟨ss, rfl⟩ := strings_of_isString xs hall
    refine ⟨_, categorizeSkills_strs h ss, ?_⟩
    rw [result_liftE_emit_iff, isOk_mapExcept_iff]
    intro entry hentry
    apply isOk_skillCategoryHtml
    intro v hvmem
    have hmem := (List.mem_filter.mp hentry).1
    simp only [fourCategories, List.mem_cons, List.mem_singleton, List.not_mem_nil,
      or_false] at hmem
    rcases hmem with rfl | rfl | rfl | rfl <;>
      · obtain ⟨s, _, rfl⟩ := List.mem_map.mp hvmem
        rfl

theorem renderSkills_result_iff (h : Host) (kvs : List (String × JSValue)) :
    (renderSkills h (.obj kvs)).result = .ok ()
      ↔ sectionShape isString (fieldOf kvs "skills") = true := by
  simp only [renderSkills, getProp_obj, liftE_ok_bind]
  exact section_body_result_iff _ _ _
    (fun w => liftE (categorizeSkills h w) >>= fun skillCategories =>
      liftE (mapExcept skillCategoryHtml skillCategories) >>= fun html =>
        emit (.setHTML "skills-grid" html.flatten)) _ (skills_body_result_iff h)

theorem gtZero_length_cons (h : Host) (x : JSValue) (xs : List JSValue) :
    gtZero h (.num (JSNumber.ofNat (x :: xs).length)) = .ok true := by
  simp only [gtZero, JSNumber.ofNat, List.length_cons]
  congr 1
  simp only [decide_eq_true_eq]
  omega

theorem not_nullish_of_truthy {v : JSValue} (hv : truthy v = true) : isNullish v = false := by
  cases v with
  | undefined => exact absurd hv (by simp [truthy])
  | null => exact absurd hv (by simp [truthy])
  | bool b => rfl
  | num n => rfl
  | str s => rfl
  | arr xs => rfl
  | obj kvs => rfl

theorem not_nullish_orElse_obj (v : JSValue) (kvs : List (String × JSValue)) :
    isNullish (orElse v (.obj kvs)) = false := by
  by_cases hv : truthy v = true
  · rw [orElse_of_truthy hv]
    exact not_nullish_of_truthy hv
  · rw [orElse_of_falsy (by simpa using hv)]
    rfl

/-- On a document whose experience has the shape of a section that renders,
`extractJobTitle` returns a value that converts to a string. -/
theorem extractJobTitle_printable (h : Host) (kvs : List (String × JSValue))
    (hexp : sectionShape experienceEntryOk (fieldOf kvs "experience") = true) :
    ∃ t, extractJobTitle h (.obj kvs) = .ok t ∧ printable t = true := by
  simp only [extractJobTitle, getProp_obj, ok_bind]
  by_cases hv : truthy (fieldOf kvs "experience") = true
  · rw [orElse_of_truthy hv]
    simp only [sectionShape, hv, Bool.not_true, Bool.false_or] at hexp
    generalize fieldOf kvs "experience" = v at hv hexp
    cases v with
    | arr xs =>
      cases xs with
      | nil => exact ⟨.null, rfl, rfl⟩
      | cons x rest =>
        simp only [List.all_cons, Bool.and_eq_true] at hexp
        have hx := hexp.1
        simp only [experienceEntryOk, Bool.and_eq_true, Bool.not_eq_true'] at hx
        have hnull : isNullish x = false := hx.1.1.1.1
        have htitle : printable (propOf x "title") = true := hx.1.1.1.2
        refine ⟨orElse (propOf x "title") (.str []), ?_, ?_⟩
        · simp only [getProp_arr_length, ok_bind, gtZero_length_cons, if_true]
          have hidx : getIndex0 (.arr (x :: rest)) = .ok x := rfl
          rw [hidx, ok_bind, getProp_of_not_nullish hnull, ok_bind]
          rfl
        · rw [printable_orElse _ (.str []) rfl]
          exact htitle
    | obj okvs =>
      refine ⟨.null, ?_, rfl⟩
      have hget : getProp (.obj okvs) "length" = .ok (fieldOf okvs "length") := rfl
      have hz : strictEqZero (fieldOf okvs "length") = true := hexp
      rw [hget, ok_bind]
      generalize fieldOf okvs "length" = len at hz
      cases len with
      | num n =>
        have hsign : n.sign = 0 := by simpa [strictEqZero] using hz
        simp [gtZero, hsign]
        rfl
      | undefined => exact absurd hz (by simp [strictEqZero])
      | null => exact absurd hz (by simp [strictEqZero])
      | bool b => exact absurd hz (by simp [strictEqZero])
      | str s => exact absurd hz (by simp [strictEqZero])
      | arr ys => exact absurd hz (by simp [strictEqZero])
      | obj ys => exact absurd hz (by simp [strictEqZero])
    | undefined => exact absurd hexp (by simp)
    | null => exact absurd hexp (by simp)
    | bool b => exact absurd hexp (by simp)
    | num n => exact absurd hexp (by simp)
    | str s => exact absurd hexp (by simp)
  · rw [orElse_of_falsy (by simpa using hv)]
    exact ⟨.null, rfl, rfl⟩

theorem isOk_getInitials_iff (h : Host) (name : JSValue) (d : JSString) :
    IsOk (getInitials h (orElse name (.str d))) ↔ isFalsyOrString name = true := by
  by_cases hv : truthy name = true
  · rw [orElse_of_truthy hv]
    cases name with
    | str s => simp [getInitials, IsOk, isFalsyOrString, isString]
    | undefined => simp [getInitials, IsOk, isFalsyOrString, isString, hv]
    | null => simp [getInitials, IsOk, isFalsyOrString, isString, hv]
    | bool b => simp [getInitials, IsOk, isFalsyOrString, isString, hv]
    | num n => simp [getInitials, IsOk, isFalsyOrString, isString, hv]
    | arr xs => simp [getInitials, IsOk, isFalsyOrString, isString, hv]
    | obj kvs => simp [getInitials, IsOk, isFalsyOrString, isString, hv]
  · have hfalse : truthy name = false := by simpa using hv
    rw [orElse_of_falsy hfalse]
    simp [getInitials, IsOk, isFalsyOrString, hfalse]

theorem isOk_profileLink_iff (v : JSValue) : IsOk (profileLink v) ↔ isString v = true := by
  cases v <;> simp [profileLink, IsOk, isString]

theorem isOk_if_profileLink_iff {β : Type} (v : JSValue) (f : JSString → β) (d : β) :
    IsOk (if truthy v = true then (profileLink v).map f else pure d)
      ↔ isFalsyOrString v = true := by
  rw [isOk_ite_iff, isOk_map_iff, isOk_profileLink_iff, isOk_pure_iff]
  by_cases hv : truthy v = true <;> simp [isFalsyOrString, hv]

theorem isOk_contactItems_iff (personalInfo : JSValue)
    (hpi : isNullish personalInfo = false) :
    IsOk (contactItems personalInfo)
      ↔ printable (propOf personalInfo "email") = true
        ∧ printable (propOf personalInfo "phone") = true
        ∧ isFalsyOrString (propOf personalInfo "linkedin") = true
        ∧ isFalsyOrString (propOf personalInfo "github") = true := by
  simp only [contactItems, getProp_of_not_nullish hpi, ok_bind, isOk_bind_iff,
    isOk_pure_iff, and_true, exists_eq_ok_iff, isOk_if_toStr_map_iff,
    isOk_if_profileLink_iff, exists_and_right, exists_const, and_assoc]

theorem isOk_contactItemHtml_iff (item : ContactItem) :
    IsOk (contactItemHtml item) ↔ printable item.text = true := by
  unfold contactItemHtml
  simp only [isOk_bind_iff, isOk_pure_iff, and_true, exists_eq_ok_iff]
  cases item.link with
  | none => simp only [isOk_map_iff, isOk_toStr_iff]
  | some l => simp only [isOk_ite_iff, isOk_map_iff, isOk_toStr_iff]; tauto

/-- The texts of the items `contactItems` builds, on any value with properties. -/
theorem contactItems_texts (personalInfo : JSValue) (hpi : isNullish personalInfo = false)
    (items : List ContactItem) (hok : contactItems personalInfo = .ok items) :
    items.map (fun item => item.text)
      = (if truthy (propOf personalInfo "email") = true then [propOf personalInfo "email"]
          else [])
        ++ ((if truthy (propOf personalInfo "phone") = true then [propOf personalInfo "phone"]
          else [])
        ++ ((if truthy (propOf personalInfo "linkedin") = true then [.str "LinkedIn".utf16]
          else [])
        ++ ((if truthy (propOf personalInfo "github") = true then [.str "GitHub".utf16]
          else [])
        ++ (if truthy (propOf personalInfo "location") = true
          then [propOf personalInfo "location"] else [])))) := by
  simp only [contactItems, getProp_of_not_nullish hpi, ok_bind] at hok
  obtain ⟨items1, hok1, hc1⟩ := bind_if_ok_inv _ _ _ _ _ _ hok
  obtain ⟨items2, hok2, hc2⟩ := bind_if_ok_inv _ _ _ _ _ _ hok1
  obtain ⟨items3, hok3, hc3⟩ := bind_if_ok_inv _ _ _ _ _ _ hok2
  obtain ⟨items4, hok4, hc4⟩ := bind_if_ok_inv _ _ _ _ _ _ hok3
  have hitems : items = if truthy (propOf personalInfo "location") = true then
      items4 ++ [ContactItem.mk "fas fa-map-marker-alt".utf16 (propOf personalInfo "location")
        none]
    else items4 := (Except.ok.inj hok4).symm
  have h1 : items1.map (fun item => item.text)
      = if truthy (propOf personalInfo "email") = true then [propOf personalInfo "email"]
        else [] := by
    rcases hc1 with ⟨hc, rfl⟩ | ⟨hc, a, rfl⟩ <;> simp [hc]
  have h2 : items2.map (fun item => item.text)
      = items1.map (fun item => item.text)
        ++ if truthy (propOf personalInfo "phone") = true then [propOf personalInfo "phone"]
          else [] := by
    rcases hc2 with ⟨hc, rfl⟩ | ⟨hc, a, rfl⟩ <;> simp [hc]
  have h3 : items3.map (fun item => item.text)
      = items2.map (fun item => item.text)
        ++ if truthy (propOf personalInfo "linkedin") = true then [.str "LinkedIn".utf16]
          else [] := by
    rcases hc3 with ⟨hc, rfl⟩ | ⟨hc, a, rfl⟩ <;> simp [hc]
  have h4 : items4.map (fun item => item.text)
      = items3.map (fun item => item.text)
        ++ if truthy (propOf personalInfo "github") = true then [.str "GitHub".utf16]
          else [] := by
    rcases hc4 with ⟨hc, rfl⟩ | ⟨hc, a, rfl⟩ <;> simp [hc]
  have h5 : items.map (fun item => item.text)
      = items4.map (fun item => item.text)
        ++ if truthy (propOf personalInfo "location") = true
          then [propOf personalInfo "location"] else [] := by
    rw [hitems]
    split_ifs <;> simp
  rw [h5, h4, h3, h2, h1]
  simp only [List.append_assoc]

theorem renderContactInfo_result_iff (personalInfo : JSValue)
    (hpi : isNullish personalInfo = false) :
    (renderContactInfo personalInfo).result = .ok () ↔ contactOk personalInfo = true := by
  unfold renderContactInfo
  rw [result_liftE_bind_iff]
  simp only [result_liftE_emit_iff, isOk_mapExcept_iff, isOk_contactItemHtml_iff, contactOk,
    Bool.and_eq_true]
  have hall : ∀ items : List ContactItem, contactItems personalInfo = .ok items →
      ((∀ item ∈ items, printable item.text = true)
        ↔ ∀ t ∈ items.map (fun item => item.text), printable t = true) := by
    intro items _
    simp only [List.mem_map, forall_exists_index, and_imp, forall_apply_eq_imp_iff₂]
  constructor
  · rintro ⟨items, hitems, hprint⟩
    obtain ⟨he, hp, hl, hg⟩ := (isOk_contactItems_iff personalInfo hpi).mp ⟨items, hitems⟩
    refine ⟨⟨⟨⟨he, hp⟩, hl⟩, hg⟩, ?_⟩
    rw [hall items hitems, contactItems_texts personalInfo hpi items hitems] at hprint
    by_cases hloc : truthy (propOf personalInfo "location") = true
    · apply hprint
      simp [hloc]
    · exact printable_of_falsy (by simpa using hloc)
  · rintro ⟨⟨⟨⟨he, hp⟩, hl⟩, hg⟩, hloc⟩
    obtain ⟨items, hitems⟩ := (isOk_contactItems_iff personalInfo hpi).mpr ⟨he, hp, hl, hg⟩
    refine ⟨items, hitems, ?_⟩
    rw [hall items hitems, contactItems_texts personalInfo hpi items hitems]
    intro t ht
    simp only [List.mem_append] at ht
    rcases ht with ht | ht | ht | ht | ht <;> obtain ⟨_, rfl⟩ := mem_if_singleton ht
    · exact he
    · exact hp
    · rfl
    · rfl
    · exact hloc

theorem renderFooter_result_iff (h : Host) (kvs : List (String × JSValue)) :
    (renderFooter h (.obj kvs)).result = .ok ()
      ↔ printable (propOf (orElse (fieldOf kvs "personal_info") (.obj [])) "name") = true
        ∧ printable (fieldOf kvs "last_updated") = true := by
  have hpi := not_nullish_orElse_obj (fieldOf kvs "personal_info") []
  simp only [renderFooter, getProp_obj, liftE_ok_bind, getProp_of_not_nullish hpi,
    result_setTextContent_bind_iff]
  rw [printable_orElse _ (.str "Your Name".utf16) rfl]
  have hnum : printable (.num h.currentYear) = true := rfl
  simp only [hnum, true_and]
  by_cases hlast : truthy (fieldOf kvs "last_updated") = true
  · simp only [hlast, if_true, result_liftE_emit_iff, isOk_map_iff, isOk_toStr_iff]
  · have hp := printable_of_falsy (v := fieldOf kvs "last_updated") (by simpa using hlast)
    simp only [hlast, Bool.false_eq_true, if_false, hp, and_true]
    constructor
    · intro hres; exact hres.1
    · intro hname; exact ⟨hname, rfl⟩

theorem renderHeader_result_iff (h : Host) (kvs : List (String × JSValue))
    (hexp : sectionShape experienceEntryOk (fieldOf kvs "experience") = true) :
    (renderHeader h (.obj kvs)).result = .ok ()
      ↔ personalInfoOk (orElse (fieldOf kvs "personal_info") (.obj [])) = true := by
  have hpi := not_nullish_orElse_obj (fieldOf kvs "personal_info") []
  obtain ⟨t, ht, hprint⟩ := extractJobTitle_printable h kvs hexp
  have htitle : printable (orElse t (.str "Professional".utf16)) = true := by
    rw [printable_orElse _ (.str "Professional".utf16) rfl]
    exact hprint
  simp only [renderHeader, getProp_obj, liftE_ok_bind, getProp_of_not_nullish hpi, ht,
    result_liftE_bind_iff, result_emit_bind, result_setTextContent_bind_iff,
    isOk_toStr_orElse_iff, htitle, true_and, personalInfoOk, Bool.and_eq_true]
  generalize orElse (fieldOf kvs "personal_info") (.obj []) = pi at hpi ⊢
  have hname := printable_orElse (propOf pi "name") (.str "Your Name".utf16) rfl
  have hportfolio := printable_orElse (propOf pi "name") (.str "Portfolio".utf16) rfl
  by_cases himg : truthy (propOf pi "image") = true
  · simp only [himg, if_true, result_liftE_bind_iff, result_emit_bind,
      renderContactInfo_result_iff pi hpi, exists_and_right, exists_eq_ok_iff,
      isOk_toStr_iff, hname, hportfolio]
    tauto
  · simp only [himg, Bool.false_eq_true, if_false, result_liftE_bind_iff, result_emit_bind,
      renderContactInfo_result_iff pi hpi, exists_and_right, exists_eq_ok_iff,
      isOk_toStr_iff, isOk_getInitials_iff, hname, hportfolio]
    tauto

/-- On a JSON object `renderPortfolio` returns exactly when the fields have the
shapes of `rendersCleanly`. -/
theorem renderPortfolio_result_iff (h : Host) (kvs : List (String × JSValue)) :
    (renderPortfolio h (.obj kvs)).result = .ok () ↔ rendersCleanly kvs = true := by
  rw [renderPortfolio_result_ok]
  simp only [AllRendersOk, renderSummary_result_iff, renderExperience_result_iff,
    renderEducation_result_iff, renderSkills_result_iff, renderProjects_result_iff,
    renderCertifications_result_iff, renderLanguages_result_iff, renderFooter_result_iff,
    rendersCleanly, Bool.and_eq_true]
  have htruthy : truthy (.obj kvs) = true := rfl
  constructor
  · rintro ⟨_, hheader, hsum, hexp, hedu, hskills, hproj, hcert, hlang, _, hlast⟩
    exact ⟨⟨⟨⟨⟨⟨⟨⟨(renderHeader_result_iff h kvs hexp).mp hheader, hsum⟩, hexp⟩, hedu⟩,
      hskills⟩, hproj⟩, hcert⟩, hlang⟩, hlast⟩
  · rintro ⟨⟨⟨⟨⟨⟨⟨⟨hpi, hsum⟩, hexp⟩, hedu⟩, hskills⟩, hproj⟩, hcert⟩, hlang⟩, hlast⟩
    have hname : printable (propOf (orElse (fieldOf kvs "personal_info") (.obj [])) "name")
        = true := by
      simp only [personalInfoOk, Bool.and_eq_true] at hpi
      exact hpi.1.1
    exact ⟨htruthy, (renderHeader_result_iff h kvs hexp).mpr hpi, hsum, hexp, hedu, hskills,
      hproj, hcert, hlang, hname, hlast⟩

theorem seq_events (x y : Eff Unit) (hx : x.result = .ok ()) :
    (x >>= fun _ => y).events = x.events ++ y.events := by
  obtain ⟨ev, res⟩ := x
  cases hx
  rfl

/-- When `renderPortfolio` returns, its writes are those of the nine render
procedures, in their order. -/
theorem renderPortfolio_events (h : Host) (data : JSValue)
    (hok : (renderPortfolio h data).result = .ok ()) :
    (renderPortfolio h data).events
      = (renderHeader h data).events ++ ((renderSummary data).events
        ++ ((renderExperience data).events ++ ((renderEducation data).events
        ++ ((renderSkills h data).events ++ ((renderProjects data).events
        ++ ((renderCertifications data).events ++ ((renderLanguages data).events
        ++ (renderFooter h data).events))))))) := by
  obtain ⟨htruthy, hheader, hsum, hexp, hedu, hskills, hproj, hcert, hlang, _⟩ :=
    (renderPortfolio_result_ok h data).mp hok
  simp only [renderPortfolio, htruthy, Bool.not_true, Bool.false_eq_true, if_false]
  rw [seq_events _ _ hheader, seq_events _ _ hsum, seq_events _ _ hexp, seq_events _ _ hedu,
    seq_events _ _ hskills, seq_events _ _ hproj, seq_events _ _ hcert,
    seq_events _ _ hlang]

theorem renderSummary_default (kvs : List (String × JSValue))
    (habsent : truthy (fieldOf kvs "summary") = false) :
    renderSummary (.obj kvs)
      = ⟨[.setText "summary" "No summary available.".utf16], .ok ()⟩ := by
  simp only [renderSummary, getProp_obj, liftE_ok_bind, orElse_of_falsy habsent]
  rfl

theorem setTextContent_str (id : String) (s : JSString) :
    setTextContent id (.str s) = emit (.setText id s) := rfl

theorem emit_bind_events {β : Type} (e : DomEvent) (f : Unit → Eff β) :
    (emit e >>= f).events = e :: (f ()).events := rfl

theorem setTextContent_of_printable (id : String) (v : JSValue) (hv : printable v = true) :
    ∃ s, setTextContent id v = emit (.setText id s) := by
  cases v with
  | undefined => exact ⟨_, rfl⟩
  | null => exact ⟨_, rfl⟩
  | bool b => cases b <;> exact ⟨_, rfl⟩
  | num n => exact ⟨_, rfl⟩
  | str s => exact ⟨_, rfl⟩
  | arr xs =>
    obtain ⟨s, hs⟩ := (isOk_toStr_iff (.arr xs)).mpr hv
    exact ⟨s, by simp only [setTextContent, hs, liftE_ok_bind]⟩
  | obj okvs =>
    obtain ⟨s, hs⟩ := (isOk_toStr_iff (.obj okvs)).mpr hv
    exact ⟨s, by simp only [setTextContent, hs, liftE_ok_bind]⟩

theorem extractJobTitle_absent (h : Host) (kvs : List (String × JSValue))
    (habsent : truthy (fieldOf kvs "experience") = false ∨ fieldOf kvs "experience" = .arr []) :
    extractJobTitle h (.obj kvs) = .ok .null := by
  have hor : orElse (fieldOf kvs "experience") (.arr []) = .arr [] := by
    rcases habsent with hv | hv
    · exact orElse_of_falsy hv
    · rw [hv]; rfl
  simp only [extractJobTitle, getProp_obj, ok_bind, hor]
  rfl

theorem renderHeader_default_name (h : Host) (kvs : List (String × JSValue))
    (habsent : truthy (propOf (orElse (fieldOf kvs "personal_info") (.obj [])) "name")
      = false) :
    ∃ rest, (renderHeader h (.obj kvs)).events
      = .setText "page-title" "Portfolio - Professional Portfolio".utf16
        :: .setText "name" "Your Name".utf16 :: rest := by
  have hpi := not_nullish_orElse_obj (fieldOf kvs "personal_info") []
  have hlit : "Portfolio - Professional Portfolio".utf16
      = "Portfolio".utf16 ++ " - Professional Portfolio".utf16 := by decide
  have hstr : toStr (.str "Portfolio".utf16) = .ok "Portfolio".utf16 := rfl
  simp only [renderHeader, getProp_obj, liftE_ok_bind, getProp_of_not_nullish hpi,
    orElse_of_falsy habsent, setTextContent_str, hstr, emit_bind_events, hlit]
  exact ⟨_, rfl⟩

theorem renderHeader_default_title (h : Host) (kvs : List (String × JSValue))
    (hname : printable (propOf (orElse (fieldOf kvs "personal_info") (.obj [])) "name") = true)
    (habsent : truthy (fieldOf kvs "experience") = false ∨ fieldOf kvs "experience" = .arr []) :
    ∃ first second rest, (renderHeader h (.obj kvs)).events
      = first :: second :: .setText "title" "Professional".utf16 :: rest := by
  have hpi := not_nullish_orElse_obj (fieldOf kvs "personal_info") []
  obtain ⟨s1, hs1⟩ := (isOk_toStr_iff _).mpr
    ((printable_orElse _ (.str "Portfolio".utf16) rfl).trans hname)
  obtain ⟨s2, hs2⟩ := setTextContent_of_printable "name" _
    ((printable_orElse _ (.str "Your Name".utf16) rfl).trans hname)
  have htitle : orElse .null (.str "Professional".utf16) = .str "Professional".utf16 := rfl
  simp only [renderHeader, getProp_obj, liftE_ok_bind, getProp_of_not_nullish hpi, hs1, hs2,
    extractJobTitle_absent h kvs habsent, htitle, setTextContent_str, emit_bind_events]
  exact ⟨_, _, _, rfl⟩

theorem initials_of_default_name :
    ((split 32 "Your Name".utf16).map (fun word => word.take 1)).flatten = "YN".utf16 := by
  decide

theorem renderHeader_default_initials (h : Host) (kvs : List (String × JSValue))
    (hexp : sectionShape experienceEntryOk (fieldOf kvs "experience") = true)
    (hname : truthy (propOf (orElse (fieldOf kvs "personal_info") (.obj [])) "name") = false)
    (himage : truthy (propOf (orElse (fieldOf kvs "personal_info") (.obj [])) "image")
      = false) :
    ∃ first second third rest, (renderHeader h (.obj kvs)).events
      = first :: second :: third
        :: .setHTML "profile-img" ("<span style=\"font-size: 3rem; font-weight: 600;\">".utf16
          ++ (h.toUpperCase "YN".utf16).take 2 ++ "</span>".utf16) :: rest := by
  have hpi := not_nullish_orElse_obj (fieldOf kvs "personal_info") []
  obtain ⟨t, ht, hprint⟩ := extractJobTitle_printable h kvs hexp
  obtain ⟨s3, hs3⟩ := setTextContent_of_printable "title" _
    ((printable_orElse t (.str "Professional".utf16) rfl).trans hprint)
  have hstr : toStr (.str "Portfolio".utf16) = .ok "Portfolio".utf16 := rfl
  have hinit : getInitials h (.str "Your Name".utf16)
      = .ok ((h.toUpperCase "YN".utf16).take 2) := by
    simp only [getInitials, initials_of_default_name]
  simp only [renderHeader, getProp_obj, liftE_ok_bind, getProp_of_not_nullish hpi,
    orElse_of_falsy hname, setTextContent_str, hstr, ht, hs3, himage, Bool.false_eq_true,
    if_false, hinit, emit_bind_events]
  exact ⟨_, _, _, _, rfl⟩

theorem renderContactInfo_default (personalInfo : JSValue)
    (hpi : isNullish personalInfo = false)
    (habsent : ∀ k ∈ channels, truthy (propOf personalInfo k) = false) :
    renderContactInfo personalInfo = ⟨[.setHTML "contact-info" []], .ok ()⟩ := by
  have he := habsent "email" (by simp [channels])
  have hp := habsent "phone" (by simp [channels])
  have hl := habsent "linkedin" (by simp [channels])
  have hg := habsent "github" (by simp [channels])
  have hloc := habsent "location" (by simp [channels])
  have hitems : contactItems personalInfo = .ok [] := by
    simp only [contactItems, getProp_of_not_nullish hpi, ok_bind, he, hp, hl, hg, hloc,
      Bool.false_eq_true, if_false]
    rfl
  simp only [renderContactInfo, hitems, liftE_ok_bind]
  rfl

theorem bind_eq_ok_iff {α β : Type} (x : Except JSError α) (f : α → Except JSError β) (b : β) :
    (x >>= f) = .ok b ↔ ∃ a, x = .ok a ∧ f a = .ok b := by
  cases x with
  | error e =>
    constructor
    · intro hok; cases hok
    · rintro ⟨a, ha, _⟩; cases ha
  | ok a =>
    constructor
    · intro hok; exact ⟨a, rfl, hok⟩
    · rintro ⟨a2, ha, hok⟩
      cases ha
      exact hok

theorem pure_eq_ok_iff {α : Type} (a b : α) : (pure a : Except JSError α) = .ok b ↔ a = b := by
  constructor
  · intro hok; exact Except.ok.inj hok
  · intro hab; rw [hab]; rfl

theorem toStr_default (v : JSValue) (d s : JSString) (habsent : truthy v = false)
    (hs : toStr (orElse v (.str d)) = .ok s) : s = d := by
  rw [orElse_of_falsy habsent] at hs
  exact (Except.ok.inj hs).symm

theorem not_nullish_of_experienceItemHtml (x : JSValue) (html : JSString)
    (hok : experienceItemHtml x = .ok html) : isNullish x = false := by
  have hentry := (isOk_experienceItemHtml_iff x).mp ⟨html, hok⟩
  simp only [experienceEntryOk, Bool.and_eq_true, Bool.not_eq_true'] at hentry
  exact hentry.1.1.1.1

theorem not_nullish_of_educationItemHtml (x : JSValue) (html : JSString)
    (hok : educationItemHtml x = .ok html) : isNullish x = false := by
  have hentry := (isOk_educationItemHtml_iff x).mp ⟨html, hok⟩
  simp only [educationEntryOk, Bool.and_eq_true, Bool.not_eq_true'] at hentry
  exact hentry.1.1.1.1

theorem not_nullish_of_projectItemHtml (x : JSValue) (html : JSString)
    (hok : projectItemHtml x = .ok html) : isNullish x = false := by
  have hentry := (isOk_projectItemHtml_iff x).mp ⟨html, hok⟩
  simp only [projectEntryOk, Bool.and_eq_true, Bool.not_eq_true'] at hentry
  exact hentry.1.1.1

theorem infix_append_left (k x y : JSString) (hk : k <:+: y) : k <:+: x ++ y :=
  hk.trans (List.suffix_append x y).isInfix

theorem infix_append_right (k x y : JSString) (hk : k <:+: x) : k <:+: x ++ y :=
  hk.trans (List.prefix_append x y).isInfix

theorem if_default_eq (v : JSValue) (x : Except JSError JSString) (d s : JSString)
    (habsent : truthy v = false)
    (hs : (if truthy v = true then x else pure d) = .ok s) : s = d := by
  rw [if_neg (by simp [habsent])] at hs
  exact (Except.ok.inj hs).symm

/-- The fragment of an experience entry holds the default title when the entry has
no title and the default company when it has no company. -/
theorem experienceItemHtml_defaults (x : JSValue) (html : JSString)
    (hok : experienceItemHtml x = .ok html) :
    (truthy (propOf x "title") = false →
        "<h3 class=\"item-title\">Position Title</h3>".utf16 <:+: html)
      ∧ (truthy (propOf x "company") = false →
        "<p class=\"item-company\">Company Name</p>".utf16 <:+: html) := by
  have hx := not_nullish_of_experienceItemHtml x html hok
  simp only [experienceItemHtml, getProp_of_not_nullish hx, ok_bind, bind_eq_ok_iff,
    pure_eq_ok_iff] at hok
  obtain ⟨title, htitle, company, hcompany, dates, _, description, _, hhtml⟩ := hok
  constructor
  · intro habsent
    rw [toStr_default _ _ _ habsent htitle] at hhtml
    rw [← hhtml]
    simp only [List.append_assoc]
    rw [← List.append_assoc, ← List.append_assoc]
    refine infix_append_right _ _ _ ((includes_iff _ _).mp ?_)
    set_option maxRecDepth 100000 in decide
  · intro habsent
    rw [toStr_default _ _ _ habsent hcompany] at hhtml
    rw [← hhtml]
    simp only [List.append_assoc]
    refine infix_append_left _ _ _ (infix_append_left _ _ _ ?_)
    rw [← List.append_assoc, ← List.append_assoc]
    refine infix_append_right _ _ _ ((includes_iff _ _).mp ?_)
    set_option maxRecDepth 100000 in decide

/-- The fragment of an education entry holds the default degree when the entry has
no degree and the default institution when it has no institution. -/
theorem educationItemHtml_defaults (x : JSValue) (html : JSString)
    (hok : educationItemHtml x = .ok html) :
    (truthy (propOf x "degree") = false →
        "<h3 class=\"item-title\">Degree</h3>".utf16 <:+: html)
      ∧ (truthy (propOf x "institution") = false →
        "<p class=\"item-institution\">Institution</p>".utf16 <:+: html) := by
  have hx := not_nullish_of_educationItemHtml x html hok
  simp only [educationItemHtml, getProp_of_not_nullish hx, ok_bind, bind_eq_ok_iff,
    pure_eq_ok_iff] at hok
  obtain ⟨degree, hdegree, institution, hinstitution, year, _, gpa, _, hhtml⟩ := hok
  constructor
  · intro habsent
    rw [toStr_default _ _ _ habsent hdegree] at hhtml
    rw [← hhtml]
    simp only [List.append_assoc]
    rw [← List.append_assoc, ← List.append_assoc]
    refine infix_append_right _ _ _ ((includes_iff _ _).mp ?_)
    set_option maxRecDepth 100000 in decide
  · intro habsent
    rw [toStr_default _ _ _ habsent hinstitution] at hhtml
    rw [← hhtml]
    simp only [List.append_assoc]
    refine infix_append_left _ _ _ (infix_append_left _ _ _ ?_)
    rw [← List.append_assoc, ← List.append_assoc]
    refine infix_append_right _ _ _ ((includes_iff _ _).mp ?_)
    set_option maxRecDepth 100000 in decide

/-- The fragment of a project holds the default name when the project has no name
and the default description when it has no description. -/
theorem projectItemHtml_defaults (x : JSValue) (html : JSString)
    (hok : projectItemHtml x = .ok html) :
    (truthy (propOf x "name") = false →
        "<h3 class=\"item-title\">Project Name</h3>".utf16 <:+: html)
      ∧ (truthy (propOf x "description") = false →
        "<div class=\"item-description\">\n                    No description available.\n                </div>".utf16
          <:+: html) := by
  have hx := not_nullish_of_projectItemHtml x html hok
  simp only [projectItemHtml, getProp_of_not_nullish hx, ok_bind, bind_eq_ok_iff,
    pure_eq_ok_iff] at hok
  obtain ⟨name, hname, description, hdescription, technologies, _, hhtml⟩ := hok
  constructor
  · intro habsent
    rw [toStr_default _ _ _ habsent hname] at hhtml
    rw [← hhtml]
    simp only [List.append_assoc]
    rw [← List.append_assoc, ← List.append_assoc]
    refine infix_append_right _ _ _ ((includes_iff _ _).mp ?_)
    set_option maxRecDepth 100000 in decide
  · intro habsent
    rw [if_default_eq _ _ _ _ habsent hdescription] at hhtml
    rw [← hhtml]
    simp only [List.append_assoc]
    refine infix_append_left _ _ _ (infix_append_left _ _ _ ?_)
    rw [← List.append_assoc, ← List.append_assoc]
    refine infix_append_right _ _ _ ((includes_iff _ _).mp ?_)
    set_option maxRecDepth 100000 in decide

theorem liftE_bind_of_result_ok {α : Type} (x : Except JSError α) (f : α → Eff Unit)
    (hok : (liftE x >>= f).result = .ok ()) : ∃ a, x = .ok a ∧ (liftE x >>= f) = f a := by
  cases x with
  | error e =>
    have herr : (liftE (Except.error e) >>= f).result = .error e := rfl
    rw [herr] at hok
    cases hok
  | ok a => exact ⟨a, rfl, rfl⟩

theorem mapExcept_forall₂ {α β : Type} (f : α → Except JSError β) (xs : List α) (ys : List β)
    (hok : mapExcept f xs = .ok ys) : List.Forall₂ (fun x y => f x = .ok y) xs ys := by
  induction xs generalizing ys with
  | nil =>
    have hnil : mapExcept f [] = .ok [] := rfl
    rw [hnil] at hok
    cases hok
    exact .nil
  | cons x rest ih =>
    cases hx : f x with
    | error e =>
      have herr : mapExcept f (x :: rest) = .error e := by simp only [mapExcept, hx]
      rw [herr] at hok
      cases hok
    | ok y =>
      cases hrest : mapExcept f rest with
      | error e =>
        have herr : mapExcept f (x :: rest) = .error e := by simp only [mapExcept, hx, hrest]
        rw [herr] at hok
        cases hok
      | ok ys2 =>
        have hcons : mapExcept f (x :: rest) = .ok (y :: ys2) := by
          simp only [mapExcept, hx, hrest]
        rw [hcons] at hok
        cases hok
        exact .cons hx (ih ys2 hrest)

/-- A list section that returns wrote its placeholder, on a field that is no
non-empty array, or it wrote what its non-empty branch `body` writes. -/
theorem section_body_cases (v : JSValue) (region : String) (message : JSString)
    (body : JSValue → Eff Unit)
    (hok : (liftE (getProp (orElse v (.arr [])) "length") >>= fun len =>
        if strictEqZero len = true then emit (.setHTML region message)
        else body (orElse v (.arr []))).result = .ok ()) :
    ((liftE (getProp (orElse v (.arr [])) "length") >>= fun len =>
        if strictEqZero len = true then emit (.setHTML region message)
        else body (orElse v (.arr []))).events = [.setHTML region message]
        ∧ ∀ x xs, v ≠ .arr (x :: xs))
      ∨ (truthy v = true ∧ v ≠ .arr []
        ∧ (liftE (getProp (orElse v (.arr [])) "length") >>= fun len =>
          if strictEqZero len = true then emit (.setHTML region message)
          else body (orElse v (.arr []))).events = (body v).events
        ∧ (body v).result = .ok ()) := by
  obtain ⟨len, hlen, heq⟩ := liftE_bind_of_result_ok _ _ hok
  rw [heq] at hok ⊢
  by_cases hz : strictEqZero len = true
  · left
    simp only [hz, if_true]
    refine ⟨rfl, ?_⟩
    intro x xs hv
    have hor : orElse (.arr (x :: xs)) (.arr []) = .arr (x :: xs) := rfl
    rw [hv, hor, getProp_arr_length] at hlen
    cases hlen
    rw [strictEqZero_length_cons] at hz
    cases hz
  · right
    simp only [hz, if_false] at hok ⊢
    have hv : truthy v = true := by
      by_contra hfalse
      rw [orElse_of_falsy (by simpa using hfalse)] at hlen
      cases hlen
      exact hz rfl
    rw [orElse_of_truthy hv] at hok ⊢
    refine ⟨hv, ?_, rfl, hok⟩
    intro hnil
    have hor : orElse (.arr []) (.arr []) = .arr [] := rfl
    rw [hnil, hor] at hlen
    cases hlen
    exact hz rfl

/-- A list section built with `map` and `join` that returns wrote one fragment: the
placeholder when the field is absent or empty, and the fragments of the entries,
in order, when the field is a non-empty array. -/
theorem section_shape (v : JSValue) (region : String) (message : JSString)
    (f : JSValue → Except JSError JSString)
    (hok : (liftE (getProp (orElse v (.arr [])) "length") >>= fun len =>
        if strictEqZero len = true then emit (.setHTML region message)
        else liftE (mapJoin (orElse v (.arr [])) f) >>= fun html =>
          emit (.setHTML region html)).result = .ok ()) :
    ∃ html, (liftE (getProp (orElse v (.arr [])) "length") >>= fun len =>
        if strictEqZero len = true then emit (.setHTML region message)
        else liftE (mapJoin (orElse v (.arr [])) f) >>= fun html =>
          emit (.setHTML region html)).events = [.setHTML region html]
      ∧ ((truthy v = false ∨ v = .arr []) → html = message)
      ∧ (∀ x xs, v = .arr (x :: xs) →
          ∃ fragments, List.Forall₂ (fun y fragment => f y = .ok fragment) (x :: xs) fragments
            ∧ html = fragments.flatten) := by
  rcases section_body_cases v region message
      (fun w => liftE (mapJoin w f) >>= fun html => emit (.setHTML region html)) hok with
    ⟨hev, hnot⟩ | ⟨hv, hne, hev, hbody⟩
  · exact ⟨message, hev, fun _ => rfl, fun x xs hx => absurd hx (hnot x xs)⟩
  · obtain ⟨html, hhtml, heq⟩ := liftE_bind_of_result_ok _ _ hbody
    refine ⟨html, ?_, ?_, ?_⟩
    · rw [hev]
      show (liftE (mapJoin v f) >>= fun html => emit (.setHTML region html)).events = _
      rw [heq]
      rfl
    · rintro (hfalse | hnil)
      · rw [hv] at hfalse
        cases hfalse
      · exact absurd hnil hne
    · intro x xs hx
      rw [hx] at hhtml
      cases hfr : mapExcept f (x :: xs) with
      | error e =>
        have herr : mapJoin (.arr (x :: xs)) f = .error e := by simp only [mapJoin, hfr]; rfl
        rw [herr] at hhtml
        cases hhtml
      | ok fragments =>
        have hjoin : mapJoin (.arr (x :: xs)) f = .ok fragments.flatten := by
          simp only [mapJoin, hfr]; rfl
        rw [hjoin] at hhtml
        cases hhtml
        exact ⟨fragments, mapExcept_forall₂ _ _ _ hfr, rfl⟩

theorem renderExperience_shape (kvs : List (String × JSValue))
    (hok : (renderExperience (.obj kvs)).result = .ok ()) :
    ∃ html, (renderExperience (.obj kvs)).events = [.setHTML "experience-list" html]
      ∧ ((truthy (fieldOf kvs "experience") = false ∨ fieldOf kvs "experience" = .arr []) →
          html = placeholder "No experience information available.")
      ∧ (∀ x xs, fieldOf kvs "experience" = .arr (x :: xs) →
          ∃ fragments, List.Forall₂ (fun y fragment => experienceItemHtml y = .ok fragment)
              (x :: xs) fragments
            ∧ html = fragments.flatten) := by
  simp only [renderExperience, getProp_obj, liftE_ok_bind] at hok ⊢
  exact section_shape _ _ _ _ hok

theorem renderEducation_shape (kvs : List (String × JSValue))
    (hok : (renderEducation (.obj kvs)).result = .ok ()) :
    ∃ html, (renderEducation (.obj kvs)).events = [.setHTML "education-list" html]
      ∧ ((truthy (fieldOf kvs "education") = false ∨ fieldOf kvs "education" = .arr []) →
          html = placeholder "No education information available.")
      ∧ (∀ x xs, fieldOf kvs "education" = .arr (x :: xs) →
          ∃ fragments, List.Forall₂ (fun y fragment => educationItemHtml y = .ok fragment)
              (x :: xs) fragments
            ∧ html = fragments.flatten) := by
  simp only [renderEducation, getProp_obj, liftE_ok_bind] at hok ⊢
  exact section_shape _ _ _ _ hok

theorem renderProjects_shape (kvs : List (String × JSValue))
    (hok : (renderProjects (.obj kvs)).result = .ok ()) :
    ∃ html, (renderProjects (.obj kvs)).events = [.setHTML "projects-grid" html]
      ∧ ((truthy (fieldOf kvs "projects") = false ∨ fieldOf kvs "projects" = .arr []) →
          html = placeholder "No projects information available.")
      ∧ (∀ x xs, fieldOf kvs "projects" = .arr (x :: xs) →
          ∃ fragments, List.Forall₂ (fun y fragment => projectItemHtml y = .ok fragment)
              (x :: xs) fragments
            ∧ html = fragments.flatten) := by
  simp only [renderProjects, getProp_obj, liftE_ok_bind] at hok ⊢
  exact section_shape _ _ _ _ hok

theorem renderCertifications_shape (kvs : List (String × JSValue))
    (hok : (renderCertifications (.obj kvs)).result = .ok ()) :
    ∃ html, (renderCertifications (.obj kvs)).events = [.setHTML "certifications-list" html]
      ∧ ((truthy (fieldOf kvs "certifications") = false
            ∨ fieldOf kvs "certifications" = .arr []) →
          html = placeholder "No certifications available.")
      ∧ (∀ x xs, fieldOf kvs "certifications" = .arr (x :: xs) →
          ∃ fragments, List.Forall₂ (fun y fragment => certificationItemHtml y = .ok fragment)
              (x :: xs) fragments
            ∧ html = fragments.flatten) := by
  simp only [renderCertifications, getProp_obj, liftE_ok_bind] at hok ⊢
  exact section_shape _ _ _ _ hok

theorem renderLanguages_shape (kvs : List (String × JSValue))
    (hok : (renderLanguages (.obj kvs)).result = .ok ()) :
    ∃ html, (renderLanguages (.obj kvs)).events = [.setHTML "languages-list" html]
      ∧ ((truthy (fieldOf kvs "languages") = false ∨ fieldOf kvs "languages" = .arr []) →
          html = placeholder "No languages information available.")
      ∧ (∀ x xs, fieldOf kvs "languages" = .arr (x :: xs) →
          ∃ fragments, List.Forall₂ (fun y fragment => languageItemHtml y = .ok fragment)
              (x :: xs) fragments
            ∧ html = fragments.flatten) := by
  simp only [renderLanguages, getProp_obj, liftE_ok_bind] at hok ⊢
  exact section_shape _ _ _ _ hok

theorem renderSkills_shape (h : Host) (kvs : List (String × JSValue))
    (hok : (renderSkills h (.obj kvs)).result = .ok ()) :
    ∃ html, (renderSkills h (.obj kvs)).events = [.setHTML "skills-grid" html]
      ∧ ((truthy (fieldOf kvs "skills") = false ∨ fieldOf kvs "skills" = .arr []) →
          html = placeholder "No skills information available.")
      ∧ (∀ x xs, fieldOf kvs "skills" = .arr (x :: xs) →
          ∃ categories fragments, categorizeSkills h (.arr (x :: xs)) = .ok categories
            ∧ List.Forall₂ (fun entry fragment => skillCategoryHtml entry = .ok fragment)
              categories fragments
            ∧ html = fragments.flatten) := by
  simp only [renderSkills, getProp_obj, liftE_ok_bind] at hok ⊢
  rcases section_body_cases (fieldOf kvs "skills") "skills-grid"
      (placeholder "No skills information available.")
      (fun w => liftE (categorizeSkills h w) >>= fun skillCategories =>
        liftE (mapExcept skillCategoryHtml skillCategories) >>= fun html =>
          emit (.setHTML "skills-grid" html.flatten)) hok with
    ⟨hev, hnot⟩ | ⟨hv, hne, hev, hbody⟩
  · exact ⟨_, hev, fun _ => rfl, fun x xs hx => absurd hx (hnot x xs)⟩
  · obtain ⟨categories, hcat, heq⟩ := liftE_bind_of_result_ok _ _ hbody
    rw [heq] at hbody
    obtain ⟨fragments, hfr, heq2⟩ := liftE_bind_of_result_ok _ _ hbody
    refine ⟨fragments.flatten, ?_, ?_, ?_⟩
    · rw [hev]
      show (liftE (categorizeSkills h (fieldOf kvs "skills")) >>= fun skillCategories =>
        liftE (mapExcept skillCategoryHtml skillCategories) >>= fun html =>
          emit (.setHTML "skills-grid" html.flatten)).events = _
      rw [heq, heq2]
      rfl
    · rintro (hfalse | hnil)
      · rw [hv] at hfalse
        cases hfalse
      · exact absurd hnil hne
    · intro x xs hx
      rw [hx] at hcat
      exact ⟨categories, fragments, hcat, mapExcept_forall₂ _ _ _ hfr, rfl⟩

theorem renderSummary_shape (kvs : List (String × JSValue))
    (hok : (renderSummary (.obj kvs)).result = .ok ()) :
    ∃ text, (renderSummary (.obj kvs)).events = [.setText "summary" text]
      ∧ (truthy (fieldOf kvs "summary") = false → text = "No summary available.".utf16) := by
  have hprint := (renderSummary_result_iff kvs).mp hok
  by_cases hv : truthy (fieldOf kvs "summary") = true
  · obtain ⟨text, htext⟩ := setTextContent_of_printable "summary" _
      ((printable_orElse _ (.str "No summary available.".utf16) rfl).trans hprint)
    refine ⟨text, ?_, ?_⟩
    · simp only [renderSummary, getProp_obj, liftE_ok_bind, htext]
      rfl
    · intro hfalse
      rw [hv] at hfalse
      cases hfalse
  · have hfalse : truthy (fieldOf kvs "summary") = false := by simpa using hv
    exact ⟨_, by rw [renderSummary_default kvs hfalse], fun _ => rfl⟩

theorem renderFooter_shape (h : Host) (kvs : List (String × JSValue))
    (hok : (renderFooter h (.obj kvs)).result = .ok ()) :
    ∃ nameText, (renderFooter h (.obj kvs)).events
        = [.setText "current-year" h.currentYear.text, .setText "footer-name" nameText,
            .setText "last-updated" (if truthy (fieldOf kvs "last_updated") = true
              then h.toLocaleDateString (fieldOf kvs "last_updated") else h.today)]
      ∧ (truthy (propOf (orElse (fieldOf kvs "personal_info") (.obj [])) "name") = false →
          nameText = "Your Name".utf16) := by
  obtain ⟨hname, hlast⟩ := (renderFooter_result_iff h kvs).mp hok
  have hpi := not_nullish_orElse_obj (fieldOf kvs "personal_info") []
  obtain ⟨nameText, hnameText⟩ := setTextContent_of_printable "footer-name" _
    ((printable_orElse _ (.str "Your Name".utf16) rfl).trans hname)
  obtain ⟨lastText, hlastText⟩ := (isOk_toStr_iff _).mpr hlast
  have hyear : setTextContent "current-year" (.num h.currentYear)
      = emit (.setText "current-year" h.currentYear.text) := rfl
  refine ⟨nameText, ?_, ?_⟩
  · simp only [renderFooter, getProp_obj, liftE_ok_bind, getProp_of_not_nullish hpi, hnameText,
      hyear, hlastText, emit_bind_events]
    by_cases hv : truthy (fieldOf kvs "last_updated") = true
    · simp only [hv, if_true]
      rfl
    · simp only [hv, if_false]
      rfl
  · intro hfalse
    rw [orElse_of_falsy hfalse, setTextContent_str] at hnameText
    have hev := congrArg Eff.events hnameText
    simp only [emit, List.cons.injEq, DomEvent.setText.injEq, true_and, and_true] at hev
    exact hev.symm

theorem renderContactInfo_shape (personalInfo : JSValue)
    (hok : (renderContactInfo personalInfo).result = .ok ()) :
    ∃ html, renderContactInfo personalInfo = emit (.setHTML "contact-info" html) := by
  unfold renderContactInfo at hok ⊢
  obtain ⟨items, hitems, heq⟩ := liftE_bind_of_result_ok _ _ hok
  rw [heq] at hok ⊢
  obtain ⟨fragments, hfragments, heq2⟩ := liftE_bind_of_result_ok _ _ hok
  exact ⟨fragments.flatten, heq2⟩

theorem renderHeader_shape (h : Host) (kvs : List (String × JSValue))
    (hexp : sectionShape experienceEntryOk (fieldOf kvs "experience") = true)
    (hok : (renderHeader h (.obj kvs)).result = .ok ()) :
    ∃ pageTitle nameText titleText image contact,
      (renderHeader h (.obj kvs)).events
        = [.setText "page-title" pageTitle, .setText "name" nameText,
            .setText "title" titleText, .setHTML "profile-img" image,
            .setHTML "contact-info" contact]
      ∧ renderContactInfo (orElse (fieldOf kvs "personal_info") (.obj []))
        = emit (.setHTML "contact-info" contact) := by
  have hpi := not_nullish_orElse_obj (fieldOf kvs "personal_info") []
  have hshape := (renderHeader_result_iff h kvs hexp).mp hok
  simp only [personalInfoOk, Bool.and_eq_true] at hshape
  obtain ⟨⟨hname, himage⟩, hcontact⟩ := hshape
  obtain ⟨s1, hs1⟩ := (isOk_toStr_iff _).mpr
    ((printable_orElse _ (.str "Portfolio".utf16) rfl).trans hname)
  obtain ⟨s2, hs2⟩ := setTextContent_of_printable "name" _
    ((printable_orElse _ (.str "Your Name".utf16) rfl).trans hname)
  obtain ⟨t, ht, hprint⟩ := extractJobTitle_printable h kvs hexp
  obtain ⟨s3, hs3⟩ := setTextContent_of_printable "title" _
    ((printable_orElse t (.str "Professional".utf16) rfl).trans hprint)
  obtain ⟨contact, hc⟩ := renderContactInfo_shape _
    ((renderContactInfo_result_iff _ hpi).mpr hcontact)
  by_cases himg : truthy (propOf (orElse (fieldOf kvs "personal_info") (.obj [])) "image") = true
  · rw [if_pos himg] at himage
    obtain ⟨src, hsrc⟩ := (isOk_toStr_iff _).mpr himage
    obtain ⟨alt, halt⟩ := (isOk_toStr_iff _).mpr hname
    refine ⟨s1 ++ " - Professional Portfolio".utf16, s2, s3,
      "<img src=\"".utf16 ++ src ++ "\" alt=\"".utf16 ++ alt
        ++ "\" style=\"width: 100%; height: 100%; object-fit: cover; border-radius: 50%;\">".utf16,
      contact, ?_, hc⟩
    simp only [renderHeader, getProp_obj, liftE_ok_bind, getProp_of_not_nullish hpi, hs1, hs2,
      ht, hs3, himg, if_true, hsrc, halt, hc, emit_bind_events]
    rfl
  · rw [if_neg himg] at himage
    obtain ⟨initials, hinitials⟩ := (isOk_getInitials_iff h _ "Your Name".utf16).mpr himage
    refine ⟨s1 ++ " - Professional Portfolio".utf16, s2, s3,
      "<span style=\"font-size: 3rem; font-weight: 600;\">".utf16 ++ initials
        ++ "</span>".utf16, contact, ?_, hc⟩
    simp only [renderHeader, getProp_obj, liftE_ok_bind, getProp_of_not_nullish hpi, hs1, hs2,
      ht, hs3, himg, if_false, hinitials, hc, emit_bind_events]
    rfl

/-- C4, amended: on a successfully loaded document that is a JSON object
`renderPortfolio` returns without raising exactly when the fields have the shapes
of `rendersCleanly`: each list field is falsy, an array or an object whose length
is zero; no entry of experience, education or projects is null; every skill is a
string; linkedin and github are falsy or strings; the name is falsy or a string
unless an image is given; and no value put into the page is an object with an own
property named toString, nor an array that holds one. On such a document the
writes are one to each of the fifteen regions, in the order of the procedures, and
a missing field gives its default or its placeholder whatever the other fields
are: the placeholder paragraph for a list field that is falsy or the empty array,
the summary default, the name defaults in the title, the header and the footer,
the default job title, the initials of the default name, no contact item, the date
of the day, and inside the entries of a list the default title, company, degree,
institution, project name and project description. -/
theorem renderPortfolio_returns_iff_rendersCleanly (h : Host)
    (kvs : List (String × JSValue)) :
    ((renderPortfolio h (.obj kvs)).result = .ok () ↔ rendersCleanly kvs = true)
    ∧ (rendersCleanly kvs = true →
      ∃ pageTitle nameText titleText image contact summary experience education skills
          projects certifications languages footerName,
        (renderPortfolio h (.obj kvs)).events
          = [.setText "page-title" pageTitle, .setText "name" nameText,
              .setText "title" titleText, .setHTML "profile-img" image,
              .setHTML "contact-info" contact, .setText "summary" summary,
              .setHTML "experience-list" experience, .setHTML "education-list" education,
              .setHTML "skills-grid" skills, .setHTML "projects-grid" projects,
              .setHTML "certifications-list" certifications,
              .setHTML "languages-list" languages,
              .setText "current-year" h.currentYear.text,
              .setText "footer-name" footerName,
              .setText "last-updated" (if truthy (fieldOf kvs "last_updated") = true
                then h.toLocaleDateString (fieldOf kvs "last_updated") else h.today)]
        ∧ (truthy (propOf (orElse (fieldOf kvs "personal_info") (.obj [])) "name") = false →
            pageTitle = "Portfolio - Professional Portfolio".utf16
              ∧ nameText = "Your Name".utf16 ∧ footerName = "Your Name".utf16
              ∧ (truthy (propOf (orElse (fieldOf kvs "personal_info") (.obj [])) "image")
                  = false →
                image = "<span style=\"font-size: 3rem; font-weight: 600;\">".utf16
                  ++ (h.toUpperCase "YN".utf16).take 2 ++ "</span>".utf16))
        ∧ ((∀ k ∈ channels,
              truthy (propOf (orElse (fieldOf kvs "personal_info") (.obj [])) k) = false) →
            contact = [])
        ∧ (truthy (fieldOf kvs "summary") = false → summary = "No summary available.".utf16)
        ∧ ((truthy (fieldOf kvs "experience") = false ∨ fieldOf kvs "experience" = .arr []) →
            titleText = "Professional".utf16
              ∧ experience = placeholder "No experience information available.")
        ∧ ((truthy (fieldOf kvs "education") = false ∨ fieldOf kvs "education" = .arr []) →
            education = placeholder "No education information available.")
        ∧ ((truthy (fieldOf kvs "skills") = false ∨ fieldOf kvs "skills" = .arr []) →
            skills = placeholder "No skills information available.")
        ∧ ((truthy (fieldOf kvs "projects") = false ∨ fieldOf kvs "projects" = .arr []) →
            projects = placeholder "No projects information available.")
        ∧ ((truthy (fieldOf kvs "certifications") = false
              ∨ fieldOf kvs "certifications" = .arr []) →
            certifications = placeholder "No certifications available.")
        ∧ ((truthy (fieldOf kvs "languages") = false ∨ fieldOf kvs "languages" = .arr []) →
            languages = placeholder "No languages information available.")
        ∧ (∀ x xs, fieldOf kvs "experience" = .arr (x :: xs) →
            ∃ fragments, experience = fragments.flatten
              ∧ List.Forall₂ (fun entry fragment =>
                  experienceItemHtml entry = .ok fragment
                    ∧ (truthy (propOf entry "title") = false →
                      "<h3 class=\"item-title\">Position Title</h3>".utf16 <:+: fragment)
                    ∧ (truthy (propOf entry "company") = false →
                      "<p class=\"item-company\">Company Name</p>".utf16 <:+: fragment))
                (x :: xs) fragments)
        ∧ (∀ x xs, fieldOf kvs "education" = .arr (x :: xs) →
            ∃ fragments, education = fragments.flatten
              ∧ List.Forall₂ (fun entry fragment =>
                  educationItemHtml entry = .ok fragment
                    ∧ (truthy (propOf entry "degree") = false →
                      "<h3 class=\"item-title\">Degree</h3>".utf16 <:+: fragment)
                    ∧ (truthy (propOf entry "institution") = false →
                      "<p class=\"item-institution\">Institution</p>".utf16 <:+: fragment))
                (x :: xs) fragments)
        ∧ (∀ x xs, fieldOf kvs "projects" = .arr (x :: xs) →
            ∃ fragments, projects = fragments.flatten
              ∧ List.Forall₂ (fun entry fragment =>
                  projectItemHtml entry = .ok fragment
                    ∧ (truthy (propOf entry "name") = false →
                      "<h3 class=\"item-title\">Project Name</h3>".utf16 <:+: fragment)
                    ∧ (truthy (propOf entry "description") = false →
                      "<div class=\"item-description\">\n                    No description available.\n                </div>".utf16
                        <:+: fragment))
                (x :: xs) fragments))
    ∧ (∀ message : String, placeholder message
        = "<p style=\"text-align: center; color: #666; padding: 40px;\">".utf16
          ++ message.utf16 ++ "</p>".utf16) := by
  refine ⟨renderPortfolio_result_iff h kvs, ?_, fun _ => rfl⟩
  intro hclean
  have hok := (renderPortfolio_result_iff h kvs).mpr hclean
  obtain ⟨_, hheader, hsum, hexpok, hedu, hskills, hproj, hcert, hlang, hfooter⟩ :=
    (renderPortfolio_result_ok h (.obj kvs)).mp hok
  have hshape := hclean
  simp only [rendersCleanly, Bool.and_eq_true] at hshape
  obtain ⟨⟨⟨⟨⟨⟨⟨⟨hpi, _⟩, hexp⟩, _⟩, _⟩, _⟩, _⟩, _⟩, _⟩ := hshape
  have hname : printable (propOf (orElse (fieldOf kvs "personal_info") (.obj [])) "name")
      = true := by
    simp only [personalInfoOk, Bool.and_eq_true] at hpi
    exact hpi.1.1
  obtain ⟨pageTitle, nameText, titleText, image, contact, hevHeader, hcontact⟩ :=
    renderHeader_shape h kvs hexp hheader
  obtain ⟨summary, hevSummary, hdSummary⟩ := renderSummary_shape kvs hsum
  obtain ⟨experience, hevExp, hdExp, hentExp⟩ := renderExperience_shape kvs hexpok
  obtain ⟨education, hevEdu, hdEdu, hentEdu⟩ := renderEducation_shape kvs hedu
  obtain ⟨skills, hevSkills, hdSkills, _⟩ := renderSkills_shape h kvs hskills
  obtain ⟨projects, hevProj, hdProj, hentProj⟩ := renderProjects_shape kvs hproj
  obtain ⟨certifications, hevCert, hdCert, _⟩ := renderCertifications_shape kvs hcert
  obtain ⟨languages, hevLang, hdLang, _⟩ := renderLanguages_shape kvs hlang
  obtain ⟨footerName, hevFooter, hdFooter⟩ := renderFooter_shape h kvs hfooter
  refine ⟨pageTitle, nameText, titleText, image, contact, summary, experience, education,
    skills, projects, certifications, languages, footerName, ?_, ?_, ?_, hdSummary, ?_, hdEdu,
    hdSkills, hdProj, hdCert, hdLang, ?_, ?_, ?_⟩
  · rw [renderPortfolio_events h _ hok, hevHeader, hevSummary, hevExp, hevEdu, hevSkills,
      hevProj, hevCert, hevLang, hevFooter]
    rfl
  · intro hfalse
    obtain ⟨rest, hrest⟩ := renderHeader_default_name h kvs hfalse
    rw [hevHeader] at hrest
    simp only [List.cons.injEq, DomEvent.setText.injEq, true_and] at hrest
    refine ⟨hrest.1, hrest.2.1, hdFooter hfalse, ?_⟩
    intro himage
    obtain ⟨e1, e2, e3, rest2, hrest2⟩ := renderHeader_default_initials h kvs hexp hfalse himage
    rw [hevHeader] at hrest2
    simp only [List.cons.injEq, DomEvent.setHTML.injEq, true_and] at hrest2
    exact hrest2.2.2.2.1
  · intro hnone
    rw [renderContactInfo_default _ (not_nullish_orElse_obj _ []) hnone] at hcontact
    have hev := congrArg Eff.events hcontact
    simp only [emit, List.cons.injEq, DomEvent.setHTML.injEq, true_and, and_true] at hev
    exact hev.symm
  · intro habsent
    obtain ⟨e1, e2, rest, hrest⟩ := renderHeader_default_title h kvs hname habsent
    rw [hevHeader] at hrest
    simp only [List.cons.injEq, DomEvent.setText.injEq, true_and] at hrest
    exact ⟨hrest.2.2.1, hdExp habsent⟩
  · intro x xs hx
    obtain ⟨fragments, hall, hflat⟩ := hentExp x xs hx
    exact ⟨fragments, hflat, hall.imp (fun _ _ hfr =>
      ⟨hfr, experienceItemHtml_defaults _ _ hfr⟩)⟩
  · intro x xs hx
    obtain ⟨fragments, hall, hflat⟩ := hentEdu x xs hx
    exact ⟨fragments, hflat, hall.imp (fun _ _ hfr =>
      ⟨hfr, educationItemHtml_defaults _ _ hfr⟩)⟩
  · intro x xs hx
    obtain ⟨fragments, hall, hflat⟩ := hentProj x xs hx
    exact ⟨fragments, hflat, hall.imp (fun _ _ hfr =>
      ⟨hfr, projectItemHtml_defaults _ _ hfr⟩)⟩


theorem renderPortfolio_returns_iff_rendersCleanly_witness :
    (renderPortfolio sampleHost (.obj sampleDocument)).result = .ok ()
      ∧ rendersCleanly looseDocument = true
      ∧ (renderPortfolio sampleHost (.obj looseDocument)).result = .ok ()
      ∧ DomEvent.setText "page-title" "Portfolio - Professional Portfolio".utf16
          ∈ (renderPortfolio sampleHost (.obj looseDocument)).events
      ∧ DomEvent.setText "name" "Your Name".utf16
          ∈ (renderPortfolio sampleHost (.obj looseDocument)).events
      ∧ DomEvent.setHTML "profile-img"
            ("<span style=\"font-size: 3rem; font-weight: 600;\">".utf16
              ++ (sampleHost.toUpperCase "YN".utf16).take 2 ++ "</span>".utf16)
          ∈ (renderPortfolio sampleHost (.obj looseDocument)).events
      ∧ DomEvent.setHTML "education-list" (placeholder "No education information available.")
          ∈ (renderPortfolio sampleHost (.obj looseDocument)).events
      ∧ DomEvent.setHTML "skills-grid" (placeholder "No skills information available.")
          ∈ (renderPortfolio sampleHost (.obj looseDocument)).events
      ∧ DomEvent.setHTML "languages-list" (placeholder "No languages information available.")
          ∈ (renderPortfolio sampleHost (.obj looseDocument)).events
      ∧ DomEvent.setText "footer-name" "Your Name".utf16
          ∈ (renderPortfolio sampleHost (.obj looseDocument)).events
      ∧ DomEvent.setText "last-updated" sampleHost.today
          ∈ (renderPortfolio sampleHost (.obj looseDocument)).events := by
  have hclean : rendersCleanly looseDocument = true := by decide
  obtain ⟨hiff, hwrites, _⟩ :=
    renderPortfolio_returns_iff_rendersCleanly sampleHost looseDocument
  obtain ⟨pageTitle, nameText, titleText, image, contact, summary, experience, education,
    skills, projects, certifications, languages, footerName, hev, hname, _, _, _, hedu,
    hskills, _, _, hlang, _⟩ := hwrites hclean
  obtain ⟨hpageTitle, hnameText, hfooterName, himage⟩ := hname (by decide)
  rw [if_neg (by decide : ¬ truthy (fieldOf looseDocument "last_updated") = true)] at hev
  rw [hev, hpageTitle, hnameText, hfooterName, himage (by decide), hedu (Or.inl (by decide)),
    hskills (Or.inl (by decide)), hlang (Or.inl (by decide))]
  refine ⟨(renderPortfolio_returns_iff_rendersCleanly sampleHost sampleDocument).1.mpr
    (by decide), hclean, hiff.mpr hclean, ?_, ?_, ?_, ?_, ?_, ?_, ?_, ?_⟩ <;>
    simp only [List.mem_cons, true_or, or_true]

/-- C4 as stated fails: `renderPortfolio` raises a TypeError on the document whose
skills hold the number 5, on the document whose experience holds null, on the
document whose experience is the number 5, on the document whose linkedin is the
number 5, on the document whose name is the number 5, and on the document whose
summary is an object with a property named toString. -/
theorem renderPortfolio_malformed_counterexample :
    (renderPortfolio sampleHost (.obj [("skills", .arr [.num ⟨1, "5".utf16⟩])])).result
        = .error .typeError
      ∧ (renderPortfolio sampleHost (.obj [("experience", .arr [.null])])).result
        = .error .typeError
      ∧ (renderPortfolio sampleHost (.obj [("experience", .num ⟨1, "5".utf16⟩)])).result
        = .error .typeError
      ∧ (renderPortfolio sampleHost (.obj [("personal_info",
          .obj [("linkedin", .num ⟨1, "5".utf16⟩)])])).result
        = .error .typeError
      ∧ (renderPortfolio sampleHost (.obj [("personal_info",
          .obj [("name", .num ⟨1, "5".utf16⟩)])])).result
        = .error .typeError
      ∧ (renderPortfolio sampleHost (.obj [("summary",
          .obj [("toString", .num ⟨1, "1".utf16⟩)])])).result
        = .error .typeError := by
  refine ⟨?_, ?_, ?_, ?_, ?_, ?_⟩ <;> rfl

end PortfolioCheck
